import Mathlib

/-!
Student attendance system: the backend route handlers as functions on a store

The Express/Mongoose backend (`src/backend/routes/*.js`, `src/backend/models/*.js`)
is embedded as pure functions over an explicit `Store` holding the three
collections.  Conventions of the embedding:

* an `ObjectId` is a natural number (a well-formed id; malformed id strings are
  outside the input type);
* a date is the instant `new Date(x)` denotes, in milliseconds since the epoch;
  a date *input* is `Option Int`, `none` standing for an Invalid Date;
* a handler returns the store it leaves behind together with the HTTP response;
* `populate` on a response document is not expanded (the record itself is
  returned) and the `createdAt`/`updatedAt` timestamps are left out;
* a string of a request body is taken in the form the `trim`, `uppercase` and
  `lowercase` setters of the schemas give it (trimmed, a `classCode` in upper
  case, an `email` in lower case); the setters themselves are left out, and the
  unique indexes compare the strings as they are stored;
* a key that a request body may or may not carry is an `Option`, `none` standing
  for a key that is absent; of an attendance body that includes `timeMarked`,
  which the schema fills with `Date.now` only by default;
* the scalar paths that play no part in the relations or in the handlers' logic
  (`phone`, `dateOfBirth`, `enrollmentDate` of a student; `subject`, `schedule`,
  `semester`, `academicYear` of a class) are left out of the documents and of
  the request bodies, and are taken to pass validation;
* a write by `_id` (`save`, `findByIdAndUpdate`) rewrites the documents carrying
  that `_id`; `findByIdAndDelete` removes the first one.  On a store with
  unique `_id`s, which the database guarantees, that is one document;
* the roster read depends on two things the program text does not fix, the order
  in which the database returns the documents of a `find` without `sort` and the
  length of the server's calendar day; both are parameters of the handler;
* the routes of the attendance router are a list in registration order with
  first-match dispatch over path segments; of the frontend, the request paths of
  `services/api.js` and the list built by `handleSaveAttendance` are embedded;
* the percentages of the report pages are computed on JavaScript numbers: the
  results of `/` and `*` are rounded to binary64 (round to nearest, ties to
  even) before `Math.round` is applied.
-/

namespace AttendanceSystem

/-! ## Data model (`src/backend/models`) -/

abbrev ObjectId := Nat

/-- Student document (`models/Student.js`). -/
structure Student where
  _id : ObjectId
  studentId : String
  firstName : String
  lastName : String
  email : String
  status : String := "active"
  classes : List ObjectId := []
deriving DecidableEq

/-- Class document (`models/Class.js`). -/
structure Class where
  _id : ObjectId
  className : String
  classCode : String
  instructor : String
  maxStudents : Int := 30
  status : String := "active"
  students : List ObjectId := []
deriving DecidableEq

/-- Attendance document (`models/Attendance.js`); `class_` is the field `class`. -/
structure Attendance where
  _id : ObjectId
  student : ObjectId
  class_ : ObjectId
  date : Int
  status : String
  notes : Option String := none
  markedBy : String := "system"
  timeMarked : Int
deriving DecidableEq

/-- The three collections of the database. -/
structure Store where
  students : List Student
  classes : List Class
  attendance : List Attendance
deriving DecidableEq

/-- Errors thrown by the persistence layer and by the JavaScript runtime. -/
inductive StoreError where
  | castError (path : String)
  | validationError (path : String)
  | duplicateKey
  | duplicateKeyOn (field : String)
  | typeError
  | referenceError
deriving DecidableEq

/-- The JSON envelope sent by a handler, with its HTTP status code. -/
structure Response (α : Type) where
  code : Nat
  success : Bool
  message : String
  data : Option α := none
  error : Option StoreError := none
deriving DecidableEq

/-- The `enum` of `attendanceSchema.status`. -/
def statusEnum : List String := ["present", "absent", "late", "excused"]

/-- Length of one day in milliseconds. -/
def dayMs : Int := 86400000

/-! ## Mongoose operations used by the handlers -/

/-- Mongoose `Class.findById(id)`. -/
def findClassById (st : Store) (id : ObjectId) : Option Class :=
  st.classes.find? (fun c => c._id == id)

/-- Mongoose `Student.findById(id)`. -/
def findStudentById (st : Store) (id : ObjectId) : Option Student :=
  st.students.find? (fun s => s._id == id)

/-- Mongoose `Attendance.findById(id)`. -/
def findAttendanceById (st : Store) (id : ObjectId) : Option Attendance :=
  st.attendance.find? (fun r => r._id == id)

/-- The filter `{ student, class, date }` of the unique compound index. -/
def sameKey (student class_ : ObjectId) (date : Int) (r : Attendance) : Bool :=
  r.student == student && r.class_ == class_ && r.date == date

/-- The value `new Date(x)` handed to a query: an Invalid Date makes the query throw a
CastError. -/
def castDate : Option Int → Except StoreError Int
  | some d => .ok d
  | none => .error (.castError "date")

/-- Mongoose `Attendance.findOne({ student, class, date })` for a date that passed the cast:
the first document matching the filter. -/
def findOneAttendance (st : Store) (student class_ : ObjectId) (date : Int) :
    Option Attendance :=
  st.attendance.find? (sameKey student class_ date)

/-- Schema validation run by `save()`: `status` is required and must be in the enum. -/
def validate (doc : Attendance) : Except StoreError Unit :=
  if doc.status ∈ statusEnum then .ok () else .error (.validationError "status")

/-- A fresh `_id` for a new Attendance document. -/
def freshId (l : List Attendance) : ObjectId :=
  (l.map (fun r => r._id)).foldr max 0 + 1

/-- Mongoose `doc.save()` on a document loaded from the collection: validate, then write it
back under its `_id`. -/
def saveExisting (st : Store) (doc : Attendance) : Except StoreError Store :=
  match validate doc with
  | .error e => .error e
  | .ok _ =>
    .ok { st with attendance := st.attendance.map (fun r => if r._id = doc._id then doc else r) }

/-- Mongoose `doc.save()` on a new document: validate, then insert under the unique index
`{ student: 1, class: 1, date: 1 }`. -/
def saveNew (st : Store) (doc : Attendance) : Except StoreError Store :=
  match validate doc with
  | .error e => .error e
  | .ok _ =>
    if st.attendance.any (sameKey doc.student doc.class_ doc.date) then .error .duplicateKey
    else .ok { st with attendance := st.attendance ++ [doc] }

/-! ## `POST /api/attendance` (`routes/attendance.js`, lines 127-199) -/

/-- Body of `POST /api/attendance`; `none` stands for a key that is absent, a
`timeMarked` that is present is a valid date. -/
structure AttendanceData where
  student : ObjectId
  class_ : ObjectId
  date : Option Int
  status : String
  notes : Option String := none
  markedBy : Option String := none
  timeMarked : Option Int := none
deriving DecidableEq

/-- The assignment `Object.assign(existingAttendance, data)` followed by `timeMarked = new Date()`:
the keys present in the request overwrite the loaded document, and a `timeMarked` of the
request is overwritten in turn by the current time. -/
def assignAttendance (existing : Attendance) (student class_ : ObjectId) (date : Int)
    (status : String) (notes markedBy : Option String) (now : Int) : Attendance :=
  { existing with
    student := student
    class_ := class_
    date := date
    status := status
    notes := match notes with
      | some n => some n
      | none => existing.notes
    markedBy := markedBy.getD existing.markedBy
    timeMarked := now }

/-- The constructor `new Attendance(data)`: the keys of `data` are taken over, a key that
is absent gets its schema default, `markedBy = 'system'` and `timeMarked = Date.now`. -/
def newAttendance (st : Store) (student class_ : ObjectId) (date : Int)
    (status : String) (notes markedBy : Option String) (timeMarked : Option Int) (now : Int) :
    Attendance :=
  { _id := freshId st.attendance
    student := student
    class_ := class_
    date := date
    status := status
    notes := notes
    markedBy := markedBy.getD "system"
    timeMarked := timeMarked.getD now }

/-- The `try` block of `router.post('/')`. -/
def markOneTry (st : Store) (now : Int) (attendanceData : AttendanceData) :
    Except StoreError (Store × Response Attendance) :=
  match findClassById st attendanceData.class_ with
  | none => .ok (st, { code := 404, success := false, message := "Class not found" })
  | some classDoc =>
    match findStudentById st attendanceData.student with
    | none => .ok (st, { code := 404, success := false, message := "Student not found" })
    | some _ =>
      if ¬ attendanceData.student ∈ classDoc.students then
        .ok (st, { code := 400, success := false,
                   message := "Student is not enrolled in this class" })
      else
        match castDate attendanceData.date with
        | .error e => .error e
        | .ok date =>
          match findOneAttendance st attendanceData.student attendanceData.class_ date with
          | some existingAttendance =>
            let doc := assignAttendance existingAttendance attendanceData.student
              attendanceData.class_ date attendanceData.status
              attendanceData.notes attendanceData.markedBy now
            match saveExisting st doc with
            | .error e => .error e
            | .ok st1 =>
              .ok (st1, { code := 200, success := true,
                          message := "Attendance updated successfully",
                          data := findAttendanceById st1 existingAttendance._id })
          | none =>
            let attendance := newAttendance st attendanceData.student attendanceData.class_
              date attendanceData.status attendanceData.notes attendanceData.markedBy
              attendanceData.timeMarked now
            match saveNew st attendance with
            | .error e => .error e
            | .ok st1 =>
              .ok (st1, { code := 201, success := true,
                          message := "Attendance marked successfully",
                          data := findAttendanceById st1 attendance._id })

/-- Handler `router.post('/')`: the `catch` turns any thrown error into a 400 response. -/
def markOne (st : Store) (now : Int) (attendanceData : AttendanceData) :
    Store × Response Attendance :=
  match markOneTry st now attendanceData with
  | .ok r => r
  | .error e =>
    (st, { code := 400, success := false, message := "Error marking attendance",
           error := some e })

/-! ## `POST /api/attendance/bulk` (`routes/attendance.js`, lines 201-256) -/

/-- One element of `attendanceList`; `none` stands for a key that is absent. -/
structure BulkEntry where
  student : ObjectId
  status : String
  notes : Option String := none
  markedBy : Option String := none
  timeMarked : Option Int := none
deriving DecidableEq

/-- One element of the `errors` array: `{ student, error: error.message }`. -/
structure BulkError where
  student : ObjectId
  error : StoreError
deriving DecidableEq

/-- The `data` of the bulk response: `{ results, errors }`. -/
structure BulkData where
  results : List Attendance := []
  errors : List BulkError := []
deriving DecidableEq

/-- Inner `try` block of the bulk loop for one entry: look the record up by
`(student, classId, new Date(date))`, update it or create it. -/
def markBulkEntry (st : Store) (now : Int) (classId : ObjectId) (date : Option Int)
    (attendanceData : BulkEntry) : Except StoreError (Store × Attendance) :=
  match castDate date with
  | .error e => .error e
  | .ok d =>
    match findOneAttendance st attendanceData.student classId d with
    | some existingAttendance =>
      let doc := assignAttendance existingAttendance attendanceData.student classId d
        attendanceData.status attendanceData.notes attendanceData.markedBy now
      match saveExisting st doc with
      | .error e => .error e
      | .ok st1 => .ok (st1, doc)
    | none =>
      let attendance := newAttendance st attendanceData.student classId d
        attendanceData.status attendanceData.notes attendanceData.markedBy
        attendanceData.timeMarked now
      match saveNew st attendance with
      | .error e => .error e
      | .ok st1 => .ok (st1, attendance)

/-- The `for ... of attendanceList` loop; `clock i` is the time read while entry
number `i` is processed, `acc` holds `results` and `errors` so far. -/
def markBulkLoop (clock : Nat → Int) (classId : ObjectId) (date : Option Int) :
    Nat → List BulkEntry → Store → BulkData → Store × BulkData
  | _, [], st, acc => (st, acc)
  | i, attendanceData :: rest, st, acc =>
    match markBulkEntry st (clock i) classId date attendanceData with
    | .ok (st1, doc) =>
      markBulkLoop clock classId date (i + 1) rest st1
        { acc with results := acc.results ++ [doc] }
    | .error e =>
      markBulkLoop clock classId date (i + 1) rest st
        { acc with errors := acc.errors ++ [{ student := attendanceData.student, error := e }] }

/-- Handler `router.post('/bulk')`. -/
def markBulk (st : Store) (clock : Nat → Int) (classId : ObjectId) (date : Option Int)
    (attendanceList : List BulkEntry) : Store × Response BulkData :=
  let out := markBulkLoop clock classId date 0 attendanceList st {}
  (out.1, { code := 200, success := true,
            message := "Attendance processed: " ++ toString out.2.results.length ++
              " successful, " ++ toString out.2.errors.length ++ " errors",
            data := some out.2 })

/-- The error the inner `try` block of the bulk loop raises for an entry, if any:
an Invalid Date makes `findOne` throw, a status outside the enum makes `save` throw. -/
def entryError (date : Option Int) (attendanceData : BulkEntry) : Option StoreError :=
  match date with
  | none => some (.castError "date")
  | some _ =>
    if attendanceData.status ∈ statusEnum then none else some (.validationError "status")

/-! ## `GET /api/attendance/:classId/:date` (`routes/attendance.js`, lines 61-124) -/

/-- One element of `studentsWithAttendance`. -/
structure RosterEntry where
  _id : ObjectId
  studentId : String
  firstName : String
  lastName : String
  email : String
  attendance : Option Attendance
deriving DecidableEq

/-- The `class` object of the roster response. -/
structure ClassInfo where
  _id : ObjectId
  className : String
  classCode : String
  instructor : String
deriving DecidableEq

/-- The `data` of the roster response. -/
structure RosterData where
  class_ : ClassInfo
  date : Option Int
  students : List RosterEntry
deriving DecidableEq

/-- Mongoose `.populate('students')` on an array of references: each id is replaced by
its document, ids that resolve to no document are removed. -/
def populateStudents (st : Store) (ids : List ObjectId) : List Student :=
  ids.filterMap (findStudentById st)

/-- The documents matched by the query
`Attendance.find({ class: classId, date: { $gte: startDate, $lt: endDate } })`, listed in
collection order.  The query has no `sort`, so the order in which the database returns
them is not fixed by the program; the handler below takes it as a parameter. -/
def findForClassBetween (st : Store) (classId : ObjectId) (startDate endDate : Int) :
    List Attendance :=
  st.attendance.filter (fun r => r.class_ == classId && decide (startDate ≤ r.date) &&
    decide (r.date < endDate))

/-- The loop `attendanceRecords.forEach(record =>
attendanceMap[record.student._id.toString()] = record)` over records whose `student`
was populated: a record whose student no longer exists has `record.student === null`
and reading `_id` throws.  The object is an association list, newest binding first. -/
def buildAttendanceMap (st : Store) :
    List Attendance → List (ObjectId × Attendance) → Except StoreError (List (ObjectId × Attendance))
  | [], attendanceMap => .ok attendanceMap
  | record :: rest, attendanceMap =>
    match findStudentById st record.student with
    | none => .error .typeError
    | some student => buildAttendanceMap st rest ((student._id, record) :: attendanceMap)

/-- The lookup `attendanceMap[key] || null`. -/
def mapGet (attendanceMap : List (ObjectId × Attendance)) (key : ObjectId) : Option Attendance :=
  (attendanceMap.find? (fun p => p.1 == key)).map (fun p => p.2)

/-- The `try` block of `router.get('/:classId/:date')`.  Two things the handler depends
on are not fixed by the program text and are parameters: `findOrder` gives the order in
which the database returns the documents matched by the `find` (it maps the matches,
listed in collection order, to the array returned), and `nextDay` maps the instant
`new Date(date)` to the instant `setDate(getDate() + 1)` moves it to, one calendar day
ahead in the time zone of the server. -/
def getForClassAndDateTryWith (findOrder : List Attendance → List Attendance)
    (nextDay : Int → Int) (st : Store) (classId : ObjectId) (date : Option Int) :
    Except StoreError (Response RosterData) :=
  match findClassById st classId with
  | none => .ok { code := 404, success := false, message := "Class not found" }
  | some classDoc =>
    match castDate date with
    | .error e => .error e
    | .ok startDate =>
      let endDate := nextDay startDate
      let attendanceRecords := findOrder (findForClassBetween st classId startDate endDate)
      match buildAttendanceMap st attendanceRecords [] with
      | .error e => .error e
      | .ok attendanceMap =>
        let studentsWithAttendance : List RosterEntry :=
          (populateStudents st classDoc.students).map (fun student =>
            { _id := student._id
              studentId := student.studentId
              firstName := student.firstName
              lastName := student.lastName
              email := student.email
              attendance := mapGet attendanceMap student._id })
        .ok { code := 200, success := true, message := ""
              data := some
                { class_ :=
                    { _id := classDoc._id
                      className := classDoc.className
                      classCode := classDoc.classCode
                      instructor := classDoc.instructor }
                  date := date
                  students := studentsWithAttendance } }

/-- Handler `router.get('/:classId/:date')`; a pure read, so only the response is
returned. -/
def getForClassAndDateWith (findOrder : List Attendance → List Attendance)
    (nextDay : Int → Int) (st : Store) (classId : ObjectId) (date : Option Int) :
    Response RosterData :=
  match getForClassAndDateTryWith findOrder nextDay st classId date with
  | .ok r => r
  | .error e =>
    { code := 500, success := false, message := "Error fetching class attendance",
      error := some e }

/-- The handler `router.get('/:classId/:date')` on a server whose calendar days last 24
hours (no daylight-saving change, as under UTC) and whose database returns the matches
in collection order. -/
def getForClassAndDate (st : Store) (classId : ObjectId) (date : Option Int) :
    Response RosterData :=
  getForClassAndDateWith (fun l => l) (fun d => d + dayMs) st classId date

/-! ## `POST /api/students/:id/enroll` (`routes/students.js`, lines 165-213) -/

/-- Handler `router.post('/:id/enroll')` of the students router: `id` is the route
parameter, `classId` comes from the body.  Both documents are pushed to and saved. -/
def enroll (st : Store) (id classId : ObjectId) : Store × Response Unit :=
  match findStudentById st id, findClassById st classId with
  | some student, some classDoc =>
    if classId ∈ student.classes then
      (st, { code := 400, success := false,
             message := "Student already enrolled in this class" })
    else if (classDoc.students.length : Int) ≥ classDoc.maxStudents then
      (st, { code := 400, success := false, message := "Class is at maximum capacity" })
    else
      let student1 := { student with classes := student.classes ++ [classId] }
      let classDoc1 := { classDoc with students := classDoc.students ++ [student._id] }
      ({ st with
         students := st.students.map (fun s => if s._id = student1._id then student1 else s)
         classes := st.classes.map (fun c => if c._id = classDoc1._id then classDoc1 else c) },
       { code := 200, success := true, message := "Student enrolled successfully" })
  | _, _ =>
    (st, { code := 404, success := false, message := "Student or class not found" })

/-! ## Student routes (`routes/students.js`) -/

/-- The `enum` of `studentSchema.status`. -/
def studentStatusEnum : List String := ["active", "inactive", "graduated"]

/-- The `enum` of `classSchema.status`. -/
def classStatusEnum : List String := ["active", "inactive", "completed"]

/-- The `required` validator on a String path: absent and empty values fail. -/
def requiredOk : Option String → Bool
  | some s => s != ""
  | none => false

/-- Greatest element of a list of ids, 0 for the empty list. -/
def maxId (ids : List ObjectId) : ObjectId := ids.foldr max 0

/-- A fresh `_id` for a new Student document: an ObjectId that occurs nowhere in
the database, neither as a student `_id` nor as a reference to a student. -/
def freshStudentId (st : Store) : ObjectId :=
  maxId (st.students.map (fun s => s._id) ++ (st.classes.map (fun c => c.students)).flatten ++
    st.attendance.map (fun r => r.student)) + 1

/-- A fresh `_id` for a new Class document: an ObjectId that occurs nowhere in the
database, neither as a class `_id` nor as a reference to a class. -/
def freshClassId (st : Store) : ObjectId :=
  maxId (st.classes.map (fun c => c._id) ++ (st.students.map (fun s => s.classes)).flatten ++
    st.attendance.map (fun r => r.class_)) + 1

/-- Body of `POST /api/students` and `PUT /api/students/:id`: the schema paths the
request carries (`none` for a key that is absent). -/
structure StudentData where
  studentId : Option String := none
  firstName : Option String := none
  lastName : Option String := none
  email : Option String := none
  status : Option String := none
  classes : Option (List ObjectId) := none
deriving DecidableEq

/-- Schema validation of a new Student: the required paths and the status enum. -/
def validateNewStudent (studentData : StudentData) : Except StoreError Unit :=
  if !requiredOk studentData.studentId then .error (.validationError "studentId")
  else if !requiredOk studentData.firstName then .error (.validationError "firstName")
  else if !requiredOk studentData.lastName then .error (.validationError "lastName")
  else if !requiredOk studentData.email then .error (.validationError "email")
  else if studentData.status.getD "active" ∉ studentStatusEnum then
    .error (.validationError "status")
  else .ok ()

/-- The unique indexes of the Student collection (`studentId`, `email`) against the
documents other than `self`; the strings are compared in their stored form (an
`email` in lower case). -/
def studentIndexCheck (st : Store) (self : Option ObjectId) (studentId email : String) :
    Except StoreError Unit :=
  if st.students.any (fun s => some s._id != self && s.studentId == studentId) then
    .error (.duplicateKeyOn "studentId")
  else if st.students.any (fun s => some s._id != self && s.email == email) then
    .error (.duplicateKeyOn "email")
  else .ok ()

/-- The constructor `new Student(studentData)` with the schema defaults. -/
def newStudent (st : Store) (studentData : StudentData) : Student :=
  { _id := freshStudentId st
    studentId := studentData.studentId.getD ""
    firstName := studentData.firstName.getD ""
    lastName := studentData.lastName.getD ""
    email := studentData.email.getD ""
    status := studentData.status.getD "active"
    classes := studentData.classes.getD [] }

/-- The `try` block of `router.post('/')` of the students router. -/
def postStudentTry (st : Store) (studentData : StudentData) :
    Except StoreError (Store × Response Student) :=
  match validateNewStudent studentData with
  | .error e => .error e
  | .ok _ =>
    let student := newStudent st studentData
    match studentIndexCheck st none student.studentId student.email with
    | .error e => .error e
    | .ok _ =>
      .ok ({ st with students := st.students ++ [student] },
           { code := 201, success := true, message := "Student created successfully",
             data := some student })

/-- Handler `router.post('/')` of the students router (`POST /api/students`). -/
def postStudent (st : Store) (studentData : StudentData) : Store × Response Student :=
  match postStudentTry st studentData with
  | .ok r => r
  | .error (.duplicateKeyOn field) =>
    (st, { code := 400, success := false, message := field ++ " already exists" })
  | .error e =>
    (st, { code := 400, success := false, message := "Error creating student",
           error := some e })

/-- The update `$set` of the keys present in the body of a `PUT`. -/
def applyStudentData (s : Student) (studentData : StudentData) : Student :=
  { s with
    studentId := studentData.studentId.getD s.studentId
    firstName := studentData.firstName.getD s.firstName
    lastName := studentData.lastName.getD s.lastName
    email := studentData.email.getD s.email
    status := studentData.status.getD s.status
    classes := studentData.classes.getD s.classes }

/-- The `required` validator as an update runs it on a key of the body: a key that is
absent is not validated, a key that is present must not be the empty string. -/
def requiredOnSet : Option String → Bool
  | some s => s != ""
  | none => true

/-- The update validators of the Student schema (`runValidators: true`): `required` and
`enum` are run on the keys the body sets, in schema order. -/
def validateStudentUpdate (studentData : StudentData) : Except StoreError Unit :=
  if !requiredOnSet studentData.studentId then .error (.validationError "studentId")
  else if !requiredOnSet studentData.firstName then .error (.validationError "firstName")
  else if !requiredOnSet studentData.lastName then .error (.validationError "lastName")
  else if !requiredOnSet studentData.email then .error (.validationError "email")
  else
    match studentData.status with
    | some s =>
      if s ∉ studentStatusEnum then .error (.validationError "status") else .ok ()
    | none => .ok ()

/-- The database part of `findByIdAndUpdate(id, body, ...)` on the Student
collection, reached once the update validators passed. -/
def putStudentApply (st : Store) (id : ObjectId) (studentData : StudentData) :
    Except StoreError (Store × Response Student) :=
  match findStudentById st id with
  | none => .ok (st, { code := 404, success := false, message := "Student not found" })
  | some found =>
    let student := applyStudentData found studentData
    match studentIndexCheck st (some id) student.studentId student.email with
    | .error e => .error e
    | .ok _ =>
      .ok ({ st with students := st.students.map (fun s => if s._id = id then student else s) },
           { code := 200, success := true, message := "Student updated successfully",
             data := some student })

/-- The `try` block of `router.put('/:id')` of the students router:
`findByIdAndUpdate(id, body, { new: true, runValidators: true })`; the update
validators run on the keys of the body before the database is touched. -/
def putStudentTry (st : Store) (id : ObjectId) (studentData : StudentData) :
    Except StoreError (Store × Response Student) :=
  match validateStudentUpdate studentData with
  | .error e => .error e
  | .ok _ => putStudentApply st id studentData

/-- Handler `router.put('/:id')` of the students router (`PUT /api/students/:id`). -/
def putStudent (st : Store) (id : ObjectId) (studentData : StudentData) :
    Store × Response Student :=
  match putStudentTry st id studentData with
  | .ok r => r
  | .error e =>
    (st, { code := 400, success := false, message := "Error updating student",
           error := some e })

/-- The update `{ $pull: { field: x } }`: every occurrence of `x` is removed. -/
def pull (l : List ObjectId) (x : ObjectId) : List ObjectId := l.filter (fun y => y != x)

/-- Handler `router.delete('/:id')` of the students router (`DELETE /api/students/:id`):
`findByIdAndDelete` removes the document, `Class.updateMany` pulls its `_id` from
every roster that holds it. -/
def deleteStudent (st : Store) (id : ObjectId) : Store × Response Unit :=
  match findStudentById st id with
  | none => (st, { code := 404, success := false, message := "Student not found" })
  | some student =>
    ({ st with
       students := st.students.eraseP (fun s => s._id == id)
       classes := st.classes.map (fun c =>
         if student._id ∈ c.students then { c with students := pull c.students student._id }
         else c) },
     { code := 200, success := true, message := "Student deleted successfully" })

/-- Response of `createStudent`, which sends no `success` key. -/
structure PlainResponse (α : Type) where
  code : Nat
  message : String := ""
  data : Option α := none
  error : Option StoreError := none
deriving DecidableEq

/-- Body of `createStudent`. -/
structure CreateStudentData where
  studentId : Option String := none
  firstName : Option String := none
  lastName : Option String := none
  email : Option String := none
  status : Option String := none
  classId : Option ObjectId := none
deriving DecidableEq

/-- The `try` block of `createStudent` (`routes/students.js`, lines 218-251): the
student is saved first, the class is looked up afterwards. -/
def createStudentTry (st : Store) (body : CreateStudentData) :
    Except StoreError (Store × PlainResponse Student) :=
  let studentData : StudentData :=
    { studentId := body.studentId
      firstName := body.firstName
      lastName := body.lastName
      email := body.email
      status := body.status
      classes := some (match body.classId with
        | some classId => [classId]
        | none => []) }
  match validateNewStudent studentData with
  | .error e => .error e
  | .ok _ =>
    let student := newStudent st studentData
    match studentIndexCheck st none student.studentId student.email with
    | .error e => .error e
    | .ok _ =>
      let st1 : Store := { st with students := st.students ++ [student] }
      match body.classId with
      | none => .ok (st1, { code := 201, data := some student })
      | some classId =>
        match findClassById st1 classId with
        | none => .ok (st1, { code := 404, message := "Class not found" })
        | some classObj =>
          let classObj1 := { classObj with students := classObj.students ++ [student._id] }
          .ok ({ st1 with
                 classes := st1.classes.map (fun c => if c._id = classObj1._id then classObj1 else c) },
               { code := 201, data := some student })

/-- The exported handler `createStudent`. -/
def createStudent (st : Store) (body : CreateStudentData) : Store × PlainResponse Student :=
  match createStudentTry st body with
  | .ok r => r
  | .error e => (st, { code := 500, message := "Server error", error := some e })

/-! ## Class routes (`routes/classes.js`) -/

/-- Body of `POST /api/classes` and `PUT /api/classes/:id`: the schema paths the
request carries (`none` for a key that is absent). -/
structure ClassData where
  className : Option String := none
  classCode : Option String := none
  instructor : Option String := none
  maxStudents : Option Int := none
  status : Option String := none
  students : Option (List ObjectId) := none
deriving DecidableEq

/-- Schema validation of a new Class: the required paths and the status enum. -/
def validateNewClass (classData : ClassData) : Except StoreError Unit :=
  if !requiredOk classData.className then .error (.validationError "className")
  else if !requiredOk classData.classCode then .error (.validationError "classCode")
  else if !requiredOk classData.instructor then .error (.validationError "instructor")
  else if classData.status.getD "active" ∉ classStatusEnum then
    .error (.validationError "status")
  else .ok ()

/-- The unique index `{ classCode: 1 }` against the documents other than `self`; the
codes are compared in their stored form (upper case). -/
def classIndexCheck (st : Store) (self : Option ObjectId) (classCode : String) :
    Except StoreError Unit :=
  if st.classes.any (fun c => some c._id != self && c.classCode == classCode) then
    .error (.duplicateKeyOn "classCode")
  else .ok ()

/-- The constructor `new Class(classData)` with the schema defaults. -/
def newClass (st : Store) (classData : ClassData) : Class :=
  { _id := freshClassId st
    className := classData.className.getD ""
    classCode := classData.classCode.getD ""
    instructor := classData.instructor.getD ""
    maxStudents := classData.maxStudents.getD 30
    status := classData.status.getD "active"
    students := classData.students.getD [] }

/-- The `try` block of `router.post('/')` of the classes router. -/
def postClassTry (st : Store) (classData : ClassData) :
    Except StoreError (Store × Response Class) :=
  match validateNewClass classData with
  | .error e => .error e
  | .ok _ =>
    let newClassDoc := newClass st classData
    match classIndexCheck st none newClassDoc.classCode with
    | .error e => .error e
    | .ok _ =>
      .ok ({ st with classes := st.classes ++ [newClassDoc] },
           { code := 201, success := true, message := "Class created successfully",
             data := some newClassDoc })

/-- Handler `router.post('/')` of the classes router (`POST /api/classes`). -/
def postClass (st : Store) (classData : ClassData) : Store × Response Class :=
  match postClassTry st classData with
  | .ok r => r
  | .error (.duplicateKeyOn _) =>
    (st, { code := 400, success := false, message := "Class code already exists" })
  | .error e =>
    (st, { code := 400, success := false, message := "Error creating class",
           error := some e })

/-- The update `$set` of the keys present in the body of a `PUT`. -/
def applyClassData (c : Class) (classData : ClassData) : Class :=
  { c with
    className := classData.className.getD c.className
    classCode := classData.classCode.getD c.classCode
    instructor := classData.instructor.getD c.instructor
    maxStudents := classData.maxStudents.getD c.maxStudents
    status := classData.status.getD c.status
    students := classData.students.getD c.students }

/-- The update validators of the Class schema (`runValidators: true`): `required` and
`enum` are run on the keys the body sets, in schema order. -/
def validateClassUpdate (classData : ClassData) : Except StoreError Unit :=
  if !requiredOnSet classData.className then .error (.validationError "className")
  else if !requiredOnSet classData.classCode then .error (.validationError "classCode")
  else if !requiredOnSet classData.instructor then .error (.validationError "instructor")
  else
    match classData.status with
    | some s =>
      if s ∉ classStatusEnum then .error (.validationError "status") else .ok ()
    | none => .ok ()

/-- The database part of `findByIdAndUpdate(id, body, ...)` on the Class
collection, reached once the update validators passed. -/
def putClassApply (st : Store) (id : ObjectId) (classData : ClassData) :
    Except StoreError (Store × Response Class) :=
  match findClassById st id with
  | none => .ok (st, { code := 404, success := false, message := "Class not found" })
  | some found =>
    let classDoc := applyClassData found classData
    match classIndexCheck st (some id) classDoc.classCode with
    | .error e => .error e
    | .ok _ =>
      .ok ({ st with classes := st.classes.map (fun c => if c._id = id then classDoc else c) },
           { code := 200, success := true, message := "Class updated successfully",
             data := some classDoc })

/-- The `try` block of `router.put('/:id')` of the classes router:
`findByIdAndUpdate(id, body, { new: true, runValidators: true })`; the update
validators run on the keys of the body before the database is touched. -/
def putClassTry (st : Store) (id : ObjectId) (classData : ClassData) :
    Except StoreError (Store × Response Class) :=
  match validateClassUpdate classData with
  | .error e => .error e
  | .ok _ => putClassApply st id classData

/-- Handler `router.put('/:id')` of the classes router (`PUT /api/classes/:id`). -/
def putClass (st : Store) (id : ObjectId) (classData : ClassData) : Store × Response Class :=
  match putClassTry st id classData with
  | .ok r => r
  | .error e =>
    (st, { code := 400, success := false, message := "Error updating class",
           error := some e })

/-- Handler `router.delete('/:id')` of the classes router (`DELETE /api/classes/:id`):
`findByIdAndDelete` removes the document, `Student.updateMany` pulls its `_id` from
the `classes` of every student that holds it. -/
def deleteClass (st : Store) (id : ObjectId) : Store × Response Unit :=
  match findClassById st id with
  | none => (st, { code := 404, success := false, message := "Class not found" })
  | some classDoc =>
    ({ st with
       classes := st.classes.eraseP (fun c => c._id == id)
       students := st.students.map (fun s =>
         if classDoc._id ∈ s.classes then { s with classes := pull s.classes classDoc._id }
         else s) },
     { code := 200, success := true, message := "Class deleted successfully" })

/-- The update `{ $addToSet: { field: x } }`: `x` is appended unless already there. -/
def addToSet (l : List ObjectId) (x : ObjectId) : List ObjectId :=
  if x ∈ l then l else l ++ [x]

/-- Handler `router.post('/:id/enroll')` of the classes router
(`POST /api/classes/:id/enroll`): `classId` is the route parameter, `studentId`
comes from the body; both sides are updated with `$addToSet`. -/
def classEnroll (st : Store) (classId studentId : ObjectId) : Store × Response Unit :=
  match findClassById st classId with
  | none => (st, { code := 404, success := false, message := "Class not found" })
  | some _ =>
    match findStudentById st studentId with
    | none => (st, { code := 404, success := false, message := "Student not found" })
    | some _ =>
      ({ st with
         classes := st.classes.map (fun c =>
           if c._id = classId then { c with students := addToSet c.students studentId } else c)
         students := st.students.map (fun s =>
           if s._id = studentId then { s with classes := addToSet s.classes classId } else s) },
       { code := 200, success := true, message := "Student enrolled in class successfully" })

/-! ## `GET /api/attendance/reports/summary` (`routes/attendance.js`, lines 258-303) -/

/-- The `formattedSummary` object. -/
structure SummaryData where
  total : Nat
  present : Nat
  absent : Nat
  late : Nat
  excused : Nat
deriving DecidableEq

/-- One output document of the `$group` stage: `{ _id: status, count }`. -/
structure StatusCount where
  _id : String
  count : Nat
deriving DecidableEq

/-- The object `matchQuery`. -/
structure MatchQuery where
  class_ : Option ObjectId := none
  date : Option (Int × Int) := none
deriving DecidableEq

/-- The expression `mongoose.Types.ObjectId(classId)` of line 264.  Lines 1-4 of the
module bind `express`, `Attendance`, `Class` and `Student` only, so the identifier
`mongoose` is unbound and evaluating it throws a ReferenceError. -/
def mongooseTypesObjectId (_classId : ObjectId) : Except StoreError ObjectId :=
  .error .referenceError

/-- Lines 263-270: `matchQuery.class` is set when `classId` is given, and
`matchQuery.date` when both `startDate` and `endDate` are given. -/
def summaryMatchQuery (classId : Option ObjectId) (startDate endDate : Option Int) :
    Except StoreError MatchQuery :=
  let dateRange : Option (Int × Int) :=
    match startDate, endDate with
    | some s, some e => some (s, e)
    | _, _ => none
  match classId with
  | some c =>
    match mongooseTypesObjectId c with
    | .error e => .error e
    | .ok oid => .ok { class_ := some oid, date := dateRange }
  | none => .ok { class_ := none, date := dateRange }

/-- The stage `{ $match: matchQuery }`: `$gte` and `$lte` on the date. -/
def matchStage (q : MatchQuery) (records : List Attendance) : List Attendance :=
  records.filter (fun r =>
    (match q.class_ with
      | some c => r.class_ == c
      | none => true) &&
    (match q.date with
      | some (gte, lte) => decide (gte ≤ r.date) && decide (r.date ≤ lte)
      | none => true))

/-- One step of `{ $sum: 1 }`: the group of `status` counts one more record; a
status seen for the first time opens a group. -/
def groupIncr : List StatusCount → String → List StatusCount
  | [], status => [{ _id := status, count := 1 }]
  | g :: rest, status =>
    if g._id = status then { g with count := g.count + 1 } :: rest
    else g :: groupIncr rest status

/-- The stage `{ $group: { _id: '$status', count: { $sum: 1 } } }`. -/
def groupStage (records : List Attendance) : List StatusCount :=
  records.foldl (fun groups r => groupIncr groups r.status) []

/-- The expression `summary.find(item => item._id === status)?.count || 0`. -/
def countOf (summary : List StatusCount) (status : String) : Nat :=
  match summary.find? (fun item => item._id == status) with
  | some item => item.count
  | none => 0

/-- The `try` block of `router.get('/reports/summary')`. -/
def summarizeTry (st : Store) (classId : Option ObjectId) (startDate endDate : Option Int) :
    Except StoreError (Response SummaryData) :=
  match summaryMatchQuery classId startDate endDate with
  | .error e => .error e
  | .ok matchQuery =>
    let summary := groupStage (matchStage matchQuery st.attendance)
    let totalRecords := summary.foldl (fun total item => total + item.count) 0
    .ok { code := 200, success := true, message := ""
          data := some
            { total := totalRecords
              present := countOf summary "present"
              absent := countOf summary "absent"
              late := countOf summary "late"
              excused := countOf summary "excused" } }

/-- Handler `router.get('/reports/summary')`; a pure read, so only the response is
returned.  A query parameter that is absent or empty is `none`. -/
def summarize (st : Store) (classId : Option ObjectId) (startDate endDate : Option Int) :
    Response SummaryData :=
  match summarizeTry st classId startDate endDate with
  | .ok r => r
  | .error e =>
    { code := 500, success := false, message := "Error generating attendance summary",
      error := some e }

/-! ## The mutating operations on students and classes as one step function -/

/-- A request to one of the mutating student and class endpoints. -/
inductive Op where
  | postStudent (studentData : StudentData)
  | putStudent (id : ObjectId) (studentData : StudentData)
  | deleteStudent (id : ObjectId)
  | enroll (id classId : ObjectId)
  | createStudent (body : CreateStudentData)
  | postClass (classData : ClassData)
  | putClass (id : ObjectId) (classData : ClassData)
  | deleteClass (id : ObjectId)
  | classEnroll (classId studentId : ObjectId)
deriving DecidableEq

/-- The store a request leaves behind. -/
def Op.run (st : Store) : Op → Store
  | .postStudent studentData => (AttendanceSystem.postStudent st studentData).1
  | .putStudent id studentData => (AttendanceSystem.putStudent st id studentData).1
  | .deleteStudent id => (AttendanceSystem.deleteStudent st id).1
  | .enroll id classId => (AttendanceSystem.enroll st id classId).1
  | .createStudent body => (AttendanceSystem.createStudent st body).1
  | .postClass classData => (AttendanceSystem.postClass st classData).1
  | .putClass id classData => (AttendanceSystem.putClass st id classData).1
  | .deleteClass id => (AttendanceSystem.deleteClass st id).1
  | .classEnroll classId studentId => (AttendanceSystem.classEnroll st classId studentId).1

/-- The body of a create or update request carries no `classes` key (Student) and no
`students` key (Class); the other requests are not restricted. -/
def Op.setsNoSide : Op → Prop
  | .postStudent studentData => studentData.classes = none
  | .putStudent _ studentData => studentData.classes = none
  | .postClass classData => classData.students = none
  | .putClass _ classData => classData.students = none
  | _ => True

/-! ## Sequences of attendance requests -/

/-- A request to one of the two attendance-marking endpoints. -/
inductive AttOp where
  | markOne (now : Int) (attendanceData : AttendanceData)
  | markBulk (clock : Nat → Int) (classId : ObjectId) (date : Option Int)
      (attendanceList : List BulkEntry)

/-- The store a marking request leaves behind. -/
def AttOp.run (st : Store) : AttOp → Store
  | .markOne now attendanceData => (AttendanceSystem.markOne st now attendanceData).1
  | .markBulk clock classId date attendanceList =>
    (AttendanceSystem.markBulk st clock classId date attendanceList).1

/-! ## Routing of the attendance router (`routes/attendance.js`) -/

/-- HTTP methods used by the routers. -/
inductive Method where
  | get
  | post
  | put
  | delete
deriving DecidableEq

/-- One segment of a route path: a literal or a named parameter (`:name`). -/
inductive Segment where
  | lit (s : String)
  | param (name : String)
deriving DecidableEq

/-- The handlers registered on the attendance router. -/
inductive Handler where
  | getAttendance
  | getForClassAndDate
  | markOne
  | markBulk
  | summarize
deriving DecidableEq

/-- A registered route: `router.METHOD(path, handler)`. -/
structure Route where
  method : Method
  path : List Segment
  handler : Handler
deriving DecidableEq

/-- Lower-casing of the letters `A`-`Z` of a path segment. -/
def lowerCase (s : String) : String := ⟨s.data.map Char.toLower⟩

/-- Matching of a route path against the segments of a request path: a literal
matches the same segment (Express routing is case-insensitive by default), a
parameter matches any one segment and is bound to it. -/
def matchPath : List Segment → List String → Option (List (String × String))
  | [], [] => some []
  | .lit s :: ps, x :: xs => if lowerCase s = lowerCase x then matchPath ps xs else none
  | .param name :: ps, x :: xs => (matchPath ps xs).map (fun params => (name, x) :: params)
  | _, _ => none

/-- First-match dispatch: the routes are tried in registration order and the first
one whose method and path match handles the request (none of the handlers of the
router calls `next`). -/
def dispatch : List Route → Method → List String → Option (Handler × List (String × String))
  | [], _, _ => none
  | r :: rest, m, path =>
    if r.method = m then
      match matchPath r.path path with
      | some params => some (r.handler, params)
      | none => dispatch rest m path
    else dispatch rest m path

/-- The routes of `routes/attendance.js` in source order (lines 9, 62, 127, 202, 259). -/
def attendanceRouter : List Route :=
  [ { method := .get, path := [], handler := .getAttendance },
    { method := .get, path := [.param "classId", .param "date"], handler := .getForClassAndDate },
    { method := .post, path := [], handler := .markOne },
    { method := .post, path := [.lit "bulk"], handler := .markBulk },
    { method := .get, path := [.lit "reports", .lit "summary"], handler := .summarize } ]

/-- The request of `attendanceAPI.markBulk` (`services/api.js`, line 69):
`api.post('/attendance/mark-bulk', data)`, relative to the base URL `.../api`. -/
def attendanceAPI_markBulk : Method × List String := (.post, ["attendance", "mark-bulk"])

/-- The request of `attendanceAPI.getSummary` (`services/api.js`, line 70):
`api.get('/attendance/reports/summary', { params })`. -/
def attendanceAPI_getSummary : Method × List String :=
  (.get, ["attendance", "reports", "summary"])

/-- The path of a request below a mount point, when it lies below it. -/
def belowMount : List String → List String → Option (List String)
  | [], path => some path
  | m :: ms, x :: xs => if m = x then belowMount ms xs else none
  | _ :: _, [] => none

/-- The mount point of the attendance router below `/api`, as the route comments of
`routes/attendance.js` give it (`/api/attendance/...`). -/
def attendanceMount : List String := ["attendance"]

/-! ## The attendance page (`frontend/src/pages/Attendance.jsx`) -/

/-- The `attendance` object of a roster student in the page state: the record sent
by the backend, or `{ ...student.attendance, status }` after a click. -/
structure UiAttendance where
  status : Option String
deriving DecidableEq

/-- A roster student in the page state (`attendanceData.students`). -/
structure UiStudent where
  _id : ObjectId
  attendance : Option UiAttendance
deriving DecidableEq

/-- The expression `student.attendance?.status || 'absent'`: a null attendance, a
missing status and the empty string all give `'absent'`. -/
def statusOrAbsent (student : UiStudent) : String :=
  match student.attendance with
  | none => "absent"
  | some attendance =>
    match attendance.status with
    | none => "absent"
    | some status => if status = "" then "absent" else status

/-- The body `{ classId, date, attendanceList }` posted by the page. -/
structure BulkRequest where
  classId : ObjectId
  date : Int
  attendanceList : List BulkEntry
deriving DecidableEq

/-- The function `handleSaveAttendance` (lines 63-78) up to the call of
`attendanceAPI.markBulk`: `none` when the guard returns early, otherwise the body
that is posted. -/
def handleSaveAttendance (attendanceData : Option (List UiStudent))
    (selectedClass : Option ObjectId) (selectedDate : Option Int) : Option BulkRequest :=
  match attendanceData, selectedClass, selectedDate with
  | some students, some classId, some date =>
    let attendanceList : List BulkEntry :=
      students.map (fun student =>
        { student := student._id, status := statusOrAbsent student })
    some { classId := classId, date := date, attendanceList := attendanceList }
  | _, _, _ => none

/-! ## Percentages of the report pages (`frontend/src/pages/Reports.jsx`, `Dashboard.jsx`) -/

/-- Rounding of a rational to the nearest integer, a tie going to the even one: the
rounding rule of IEEE-754 arithmetic in its default mode. -/
def roundHalfEven (q : ℚ) : ℤ :=
  if q - ⌊q⌋ < 1 / 2 then ⌊q⌋
  else if 1 / 2 < q - ⌊q⌋ then ⌊q⌋ + 1
  else if ⌊q⌋ % 2 = 0 then ⌊q⌋ else ⌊q⌋ + 1

/-- The JavaScript number (IEEE-754 binary64) that a real result `q` is rounded to: a
double carries 53 significant bits, so `q` with `2^e ≤ |q| < 2^(e+1)` becomes the
nearest multiple of `2^(e-52)`, a tie going to the even multiple.  The exponent is not
bounded here: overflow and subnormal numbers, which need `|q| ≥ 2^1024` or
`|q| < 2^(-1022)`, are outside the values the percentage functions meet. -/
def binary64 (q : ℚ) : ℚ :=
  roundHalfEven (q / 2 ^ (Int.log 2 |q| - 52)) * 2 ^ (Int.log 2 |q| - 52)

/-- JavaScript `Math.round`: the nearest integer, a tie going up. -/
def mathRound (x : ℚ) : ℤ := ⌊x + 1 / 2⌋

/-- The function `calculatePercentage` of `Reports.jsx` (lines 84-86),
`total > 0 ? Math.round((value / total) * 100) : 0`, on integer arguments: the
quotient and the product are each rounded to a double.  An integer below `2^53` in
magnitude is held exactly by a JavaScript number. -/
def calculatePercentage (value total : ℤ) : ℤ :=
  if total > 0 then mathRound (binary64 (binary64 ((value : ℚ) / (total : ℚ)) * 100)) else 0

/-- The `attendanceRate` of `fetchDashboardData` in `Dashboard.jsx` (lines 62-64). -/
def attendanceRate (presentToday totalAttendanceToday : ℤ) : ℤ :=
  if totalAttendanceToday > 0 then
    mathRound (binary64 (binary64 ((presentToday : ℚ) / (totalAttendanceToday : ℚ)) * 100))
  else 0

/-- The percentage in the words of the specification, not of the code: the integer
nearest to the exact value of `100 * value / total`, halves rounded up. -/
def exactPercentage (value total : ℤ) : ℤ := ⌊(100 * (value : ℚ)) / (total : ℚ) + 1 / 2⌋

/-! ## Store invariants kept by the database -/

/-- The mirror predicate: a class is among a student's classes exactly when the
student is on the class roster. -/
def Mirror (st : Store) : Prop :=
  ∀ s ∈ st.students, ∀ c ∈ st.classes, c._id ∈ s.classes ↔ s._id ∈ c.students

/-- The `_id` of every Student document is unique (primary key). -/
def StudentIdsUnique (st : Store) : Prop := (st.students.map (fun s => s._id)).Nodup

/-- The `_id` of every Class document is unique (primary key). -/
def ClassIdsUnique (st : Store) : Prop := (st.classes.map (fun c => c._id)).Nodup

/-- No roster is longer than the capacity of its class. -/
def WithinCapacity (st : Store) : Prop :=
  ∀ c ∈ st.classes, (c.students.length : Int) ≤ c.maxStudents

/-- The identity key `(student, class, date)` of an Attendance document. -/
def key (r : Attendance) : ObjectId × ObjectId × Int := (r.student, r.class_, r.date)

/-- The `_id` of every Attendance document is unique (primary key). -/
def IdsUnique (st : Store) : Prop := (st.attendance.map (fun r => r._id)).Nodup

/-- The unique compound index `{ student: 1, class: 1, date: 1 }` holds. -/
def KeysUnique (st : Store) : Prop := (st.attendance.map key).Nodup

/-- A store the database can hold: unique `_id`s and the unique index. -/
def WellFormed (st : Store) : Prop := IdsUnique st ∧ KeysUnique st

/-- The Attendance records held for `(student, class, date)`. -/
def recordsFor (st : Store) (student class_ : ObjectId) (date : Int) : List Attendance :=
  st.attendance.filter (sameKey student class_ date)

/-- The calendar day (UTC) an instant falls on, as a day number. -/
def calendarDay (d : Int) : Int := d / dayMs

/-- The Attendance records held for a student and class on a calendar day. -/
def recordsOnDay (st : Store) (student class_ : ObjectId) (day : Int) : List Attendance :=
  st.attendance.filter (fun r => r.student == student && r.class_ == class_ &&
    calendarDay r.date == day)

/-- What one upsert leaves behind, as a relation between the collection before
(`l`), the collection after (`l1`) and the document written (`doc`). -/
def UpsertPost (l l1 : List Attendance) (doc : Attendance) : Prop :=
  (l1.map (fun r => r._id)).Nodup ∧ (l1.map key).Nodup ∧ doc ∈ l1 ∧
  (∀ r ∈ l, key r ≠ key doc → r ∈ l1) ∧
  (∀ r ∈ l, key r = key doc → doc._id = r._id)

/-! ## A small store used to instantiate the theorems -/

/-- A student enrolled in `mathClass` and in `tinyClass`. -/
def alice : Student :=
  { _id := 1, studentId := "S001", firstName := "Alice", lastName := "Ng",
    email := "alice@example.org", classes := [10, 11] }

/-- A student enrolled in no class. -/
def bob : Student :=
  { _id := 2, studentId := "S002", firstName := "Bob", lastName := "Roy",
    email := "bob@example.org" }

/-- A class whose roster is `alice` alone. -/
def mathClass : Class :=
  { _id := 10, className := "Algebra", classCode := "MATH101", instructor := "Dr. Rao",
    students := [1] }

/-- A class of capacity 1 that is full: its roster is `alice` alone. -/
def tinyClass : Class :=
  { _id := 11, className := "Seminar", classCode := "SEM1", instructor := "Dr. Rao",
    maxStudents := 1, students := [1] }

/-- Two students, two classes, no attendance yet. -/
def sampleStore : Store :=
  { students := [alice, bob], classes := [mathClass, tinyClass], attendance := [] }

/-- The instant 2024-03-01T08:00:00Z. -/
def morning : Int := 1709280000000

/-- The instant 2024-03-01T23:00:00Z. -/
def evening : Int := 1709334000000

/-- The store `sampleStore` after `alice` was marked present in `mathClass` at
`morning`. -/
def markedStore : Store :=
  { sampleStore with
    attendance := [{ _id := 1, student := 1, class_ := 10, date := morning,
                     status := "present", timeMarked := 5 }] }

/-- The store `markedStore` in which the roster of `mathClass` also holds the
reference 3, which resolves to no student. -/
def danglingStore : Store :=
  { markedStore with classes := [{ mathClass with students := [1, 3] }] }

/-- The store `markedStore` in which the roster of `mathClass` holds the reference 1
twice. -/
def doubledStore : Store :=
  { markedStore with classes := [{ mathClass with students := [1, 1] }] }

/-- The instant 2024-03-01T00:00:00Z. -/
def dayStart : Int := 1709251200000

/-- A third student. -/
def carol : Student :=
  { _id := 4, studentId := "S004", firstName := "Carol", lastName := "Diaz",
    email := "carol@example.org", classes := [10] }

/-- Three students on the roster of class 10 and one Attendance record, for `alice`. -/
def rosterStore : Store :=
  { students := [alice, { bob with classes := [10] }, carol]
    classes := [{ mathClass with students := [1, 2, 4] }]
    attendance := markedStore.attendance }

/-- The state after a successful enrollment of student `id` in class `classId`,
compared with the state before: the two documents hold each other, and the other
students, the other classes and the Attendance records are as before. -/
def EnrollPost (st st1 : Store) (id classId : ObjectId) : Prop :=
  (∃ s c, findStudentById st1 id = some s ∧ findClassById st1 classId = some c ∧
    classId ∈ s.classes ∧ id ∈ c.students) ∧
  st1.students.filter (fun s => s._id != id) = st.students.filter (fun s => s._id != id) ∧
  st1.classes.filter (fun c => c._id != classId) =
    st.classes.filter (fun c => c._id != classId) ∧
  st1.attendance = st.attendance

/-- The mirror predicate together with the primary keys of the two collections. -/
def RelationInv (st : Store) : Prop :=
  Mirror st ∧ StudentIdsUnique st ∧ ClassIdsUnique st

/-- A request body for a new student with every required path set. -/
def daveData : CreateStudentData :=
  { studentId := some "S009", firstName := some "Dave", lastName := some "Kim",
    email := some "dave@example.org", classId := some 11 }

/-- Three `present` and two `absent` records. -/
def summaryStore : Store :=
  { sampleStore with
    attendance :=
      [{ _id := 1, student := 1, class_ := 10, date := dayStart, status := "present", timeMarked := 1 },
       { _id := 2, student := 2, class_ := 10, date := dayStart, status := "absent", timeMarked := 2 },
       { _id := 3, student := 1, class_ := 10, date := morning, status := "present", timeMarked := 3 },
       { _id := 4, student := 2, class_ := 10, date := morning, status := "absent", timeMarked := 4 },
       { _id := 5, student := 1, class_ := 10, date := evening, status := "present", timeMarked := 5 }] }

/-- The request that marks `alice` late at `morning`, with a note and a marker. -/
def aliceLate : AttendanceData :=
  { student := 1, class_ := 10, date := some morning, status := "late",
    notes := some "bus delay", markedBy := some "Dr. Rao" }

/-! ## Lemmas on the collections -/

theorem sameKey_iff (s c : ObjectId) (d : Int) (r : Attendance) :
    sameKey s c d r = true ↔ key r = (s, c, d) := by
  simp [sameKey, key, and_assoc]

theorem validate_ok {doc : Attendance} (h : doc.status ∈ statusEnum) : validate doc = .ok () := by
  simp [validate, h]

theorem lt_freshId (l : List Attendance) : ∀ r ∈ l, r._id < freshId l := by
  induction l with
  | nil => simp
  | cons a t ih =>
    intro r hr
    simp only [freshId, List.map_cons, List.foldr_cons] at ih ⊢
    rcases List.mem_cons.mp hr with h | h
    · subst h; exact Nat.lt_succ_of_le (le_max_left _ _)
    · exact lt_of_lt_of_le (ih r h) (Nat.succ_le_succ (le_max_right _ _))

theorem find?_id_map_update (l : List Attendance) (id : ObjectId) (doc : Attendance)
    (hdoc : doc._id = id) (hex : ∃ r ∈ l, r._id = id) :
    (l.map (fun r => if r._id = id then doc else r)).find? (fun r => r._id == id) = some doc := by
  induction l with
  | nil => simp at hex
  | cons a t ih =>
    by_cases ha : a._id = id
    · simp [ha, hdoc]
    · have : ∃ r ∈ t, r._id = id := by
        obtain ⟨r, hr, hid⟩ := hex
        rcases List.mem_cons.mp hr with h | h
        · subst h; exact absurd hid ha
        · exact ⟨r, h, hid⟩
      simp [ha, ih this]

theorem find?_id_append_fresh (l : List Attendance) (doc : Attendance)
    (hdoc : doc._id = freshId l) :
    (l ++ [doc]).find? (fun r => r._id == doc._id) = some doc := by
  have hnone : l.find? (fun r => r._id == doc._id) = none := by
    rw [List.find?_eq_none]
    intro r hr
    have := lt_freshId l r hr
    have hne : r._id ≠ doc._id := fun h => absurd (h ▸ this) (hdoc ▸ lt_irrefl _)
    simp [hne]
  simp [List.find?_append, hnone]

theorem eq_of_mem_of_id_eq {l : List Attendance} (hids : (l.map (fun r => r._id)).Nodup)
    {a b : Attendance} (ha : a ∈ l) (hb : b ∈ l) (h : a._id = b._id) : a = b :=
  List.inj_on_of_nodup_map hids ha hb h

theorem eq_of_mem_of_key_eq {l : List Attendance} (hkeys : (l.map key).Nodup)
    {a b : Attendance} (ha : a ∈ l) (hb : b ∈ l) (h : key a = key b) : a = b :=
  List.inj_on_of_nodup_map hkeys ha hb h

theorem upsert_update_post (l : List Attendance) (ex doc : Attendance)
    (hids : (l.map (fun r => r._id)).Nodup) (hkeys : (l.map key).Nodup)
    (hex : ex ∈ l) (hid : doc._id = ex._id) (hkey : key doc = key ex) :
    UpsertPost l (l.map (fun r => if r._id = ex._id then doc else r)) doc := by
  have hmapid : (l.map (fun r => if r._id = ex._id then doc else r)).map (fun r => r._id)
      = l.map (fun r => r._id) := by
    rw [List.map_map]
    apply List.map_congr_left
    intro r _
    by_cases h : r._id = ex._id <;> simp [h, hid]
  have hmapkey : (l.map (fun r => if r._id = ex._id then doc else r)).map key
      = l.map key := by
    rw [List.map_map]
    apply List.map_congr_left
    intro r hr
    by_cases h : r._id = ex._id
    · have : r = ex := eq_of_mem_of_id_eq hids hr hex h
      simp [h, hkey, this]
    · simp [h]
  refine ⟨hmapid ▸ hids, hmapkey ▸ hkeys, ?_, ?_, ?_⟩
  · exact List.mem_map.mpr ⟨ex, hex, by simp⟩
  · intro r hr hne
    refine List.mem_map.mpr ⟨r, hr, ?_⟩
    have : r._id ≠ ex._id := by
      intro h
      have : r = ex := eq_of_mem_of_id_eq hids hr hex h
      exact hne (this ▸ hkey.symm)
    simp [this]
  · intro r hr heq
    have : r = ex := eq_of_mem_of_key_eq hkeys hr hex (heq.trans hkey)
    rw [this, hid]

theorem upsert_create_post (l : List Attendance) (doc : Attendance)
    (hids : (l.map (fun r => r._id)).Nodup) (hkeys : (l.map key).Nodup)
    (hid : doc._id = freshId l) (hnone : ∀ r ∈ l, key r ≠ key doc) :
    UpsertPost l (l ++ [doc]) doc := by
  refine ⟨?_, ?_, by simp, ?_, ?_⟩
  · rw [List.map_append, List.nodup_append]
    refine ⟨hids, by simp, ?_⟩
    intro a ha hb
    simp only [List.map_cons, List.map_nil, List.mem_singleton] at hb
    obtain ⟨r, hr, rfl⟩ := List.mem_map.mp ha
    have := lt_freshId l r hr
    rw [hb, hid] at this
    exact lt_irrefl _ this
  · rw [List.map_append, List.nodup_append]
    refine ⟨hkeys, by simp, ?_⟩
    intro a ha hb
    simp only [List.map_cons, List.map_nil, List.mem_singleton] at hb
    obtain ⟨r, hr, rfl⟩ := List.mem_map.mp ha
    exact hnone r hr hb
  · intro r hr _
    exact List.mem_append_left _ hr
  · intro r hr heq
    exact absurd heq (hnone r hr)

theorem findOne_some {st : Store} {s c : ObjectId} {d : Int} {ex : Attendance}
    (h : findOneAttendance st s c d = some ex) : ex ∈ st.attendance ∧ key ex = (s, c, d) := by
  unfold findOneAttendance at h
  exact ⟨List.mem_of_find?_eq_some h, (sameKey_iff s c d ex).mp (List.find?_some h)⟩

theorem findOne_none {st : Store} {s c : ObjectId} {d : Int}
    (h : findOneAttendance st s c d = none) : ∀ r ∈ st.attendance, key r ≠ (s, c, d) := by
  unfold findOneAttendance at h
  intro r hr hk
  exact List.find?_eq_none.mp h r hr ((sameKey_iff s c d r).mpr hk)

theorem saveNew_of_findOne_none {st : Store} {doc : Attendance}
    (hst : doc.status ∈ statusEnum)
    (h : findOneAttendance st doc.student doc.class_ doc.date = none) :
    saveNew st doc = .ok { st with attendance := st.attendance ++ [doc] } := by
  have hany : st.attendance.any (sameKey doc.student doc.class_ doc.date) = false := by
    rw [List.any_eq_false]
    intro r hr hk
    exact findOne_none h r hr ((sameKey_iff _ _ _ r).mp hk)
  simp [saveNew, validate_ok hst, hany]

theorem markOne_update {st : Store} {now : Int} {a : AttendanceData} {classDoc : Class}
    {student : Student} {d : Int} {ex : Attendance}
    (hc : findClassById st a.class_ = some classDoc)
    (hs : findStudentById st a.student = some student)
    (hen : a.student ∈ classDoc.students) (hd : a.date = some d)
    (hst : a.status ∈ statusEnum)
    (hex : findOneAttendance st a.student a.class_ d = some ex) :
    markOne st now a =
      ({ st with attendance := st.attendance.map (fun r =>
          if r._id = ex._id then
            assignAttendance ex a.student a.class_ d a.status a.notes a.markedBy now
          else r) },
       { code := 200, success := true, message := "Attendance updated successfully",
         data := some (assignAttendance ex a.student a.class_ d a.status a.notes
           a.markedBy now) }) := by
  have hval : validate (assignAttendance ex a.student a.class_ d a.status a.notes
      a.markedBy now) = .ok () := validate_ok (by simpa [assignAttendance] using hst)
  have hfind := find?_id_map_update st.attendance ex._id
    (assignAttendance ex a.student a.class_ d a.status a.notes a.markedBy now)
    (by simp [assignAttendance]) ⟨ex, (findOne_some hex).1, rfl⟩
  simp only [markOne, markOneTry, hc, hs, hen, hd, castDate, hex, saveExisting, hval,
    findAttendanceById, not_true_eq_false, if_false]
  simp only [assignAttendance] at hfind ⊢
  rw [hfind]

theorem markOne_create {st : Store} {now : Int} {a : AttendanceData} {classDoc : Class}
    {student : Student} {d : Int}
    (hc : findClassById st a.class_ = some classDoc)
    (hs : findStudentById st a.student = some student)
    (hen : a.student ∈ classDoc.students) (hd : a.date = some d)
    (hst : a.status ∈ statusEnum)
    (hex : findOneAttendance st a.student a.class_ d = none) :
    markOne st now a =
      ({ st with attendance := st.attendance ++
          [newAttendance st a.student a.class_ d a.status a.notes a.markedBy a.timeMarked now] },
       { code := 201, success := true, message := "Attendance marked successfully",
         data := some (newAttendance st a.student a.class_ d a.status a.notes
           a.markedBy a.timeMarked now) }) := by
  have hsave := @saveNew_of_findOne_none st
    (newAttendance st a.student a.class_ d a.status a.notes a.markedBy a.timeMarked now)
    (by simpa [newAttendance] using hst) (by simpa [newAttendance] using hex)
  have hfind := find?_id_append_fresh st.attendance
    (newAttendance st a.student a.class_ d a.status a.notes a.markedBy a.timeMarked now)
    (by simp [newAttendance])
  simp only [markOne, markOneTry, hc, hs, hen, hd, castDate, hex, hsave,
    findAttendanceById, not_true_eq_false, if_false]
  rw [hfind]

theorem markOne_post {st : Store} {now : Int} {a : AttendanceData} {classDoc : Class}
    {student : Student} {d : Int} (hwf : WellFormed st)
    (hc : findClassById st a.class_ = some classDoc)
    (hs : findStudentById st a.student = some student)
    (hen : a.student ∈ classDoc.students) (hd : a.date = some d)
    (hst : a.status ∈ statusEnum) :
    ∃ doc, (markOne st now a).2.data = some doc ∧ (markOne st now a).2.success = true ∧
      key doc = (a.student, a.class_, d) ∧ doc.status = a.status ∧
      UpsertPost st.attendance (markOne st now a).1.attendance doc ∧
      (markOne st now a).1.students = st.students ∧
      (markOne st now a).1.classes = st.classes := by
  cases hex : findOneAttendance st a.student a.class_ d with
  | some ex =>
    rw [markOne_update hc hs hen hd hst hex]
    refine ⟨_, rfl, rfl, by simp [assignAttendance, key], by simp [assignAttendance], ?_,
      rfl, rfl⟩
    exact upsert_update_post st.attendance ex _ hwf.1 hwf.2 (findOne_some hex).1
      (by simp [assignAttendance])
      (by rw [(findOne_some hex).2]; simp [assignAttendance, key])
  | none =>
    rw [markOne_create hc hs hen hd hst hex]
    refine ⟨_, rfl, rfl, by simp [newAttendance, key], by simp [newAttendance], ?_, rfl, rfl⟩
    refine upsert_create_post st.attendance _ hwf.1 hwf.2 (by simp [newAttendance]) ?_
    intro r hr
    have := findOne_none hex r hr
    simpa [newAttendance, key] using this

theorem recordsFor_eq_singleton {st : Store} {doc : Attendance} {s c : ObjectId} {d : Int}
    (hkeys : KeysUnique st) (hmem : doc ∈ st.attendance) (hkey : key doc = (s, c, d)) :
    recordsFor st s c d = [doc] := by
  unfold recordsFor
  unfold KeysUnique at hkeys
  generalize st.attendance = l at hkeys hmem
  induction l with
  | nil => simp at hmem
  | cons x t ih =>
    rw [List.map_cons, List.nodup_cons] at hkeys
    rcases List.mem_cons.mp hmem with h | h
    · subst h
      have hx : sameKey s c d doc = true := (sameKey_iff s c d doc).mpr hkey
      have ht : t.filter (sameKey s c d) = [] := by
        rw [List.filter_eq_nil_iff]
        intro r hr hk
        apply hkeys.1
        rw [hkey, ← (sameKey_iff s c d r).mp hk]
        exact List.mem_map_of_mem key hr
      simp [List.filter_cons, hx, ht]
    · have hx : sameKey s c d x = false := by
        rw [Bool.eq_false_iff]
        intro hk
        apply hkeys.1
        rw [(sameKey_iff s c d x).mp hk, ← hkey]
        exact List.mem_map_of_mem key h
      simp [List.filter_cons, hx, ih hkeys.2 h]

/-- C1 (idempotent upsert): on a store satisfying the primary key and the unique
index, for an existing class `c`, an existing student `s` on its roster, a date
value `d` and two valid statuses, `markOne (s,c,d,status1)` followed by
`markOne (s,c,d,status2)` leaves exactly one Attendance record for `(s,c,d)`, and
its status is `status2`. -/
theorem markOne_idempotent_upsert (st : Store) (now1 now2 : Int) (s c : ObjectId) (d : Int)
    (status1 status2 : String) (notes1 notes2 markedBy1 markedBy2 : Option String)
    (timeMarked1 timeMarked2 : Option Int)
    (classDoc : Class) (student : Student) (hwf : WellFormed st)
    (hc : findClassById st c = some classDoc) (hs : findStudentById st s = some student)
    (hen : s ∈ classDoc.students)
    (h1 : status1 ∈ statusEnum) (h2 : status2 ∈ statusEnum) :
    ∃ r, recordsFor
        (markOne
          (markOne st now1 { student := s, class_ := c, date := some d, status := status1,
                             notes := notes1, markedBy := markedBy1, timeMarked := timeMarked1 }).1
          now2 { student := s, class_ := c, date := some d, status := status2,
                 notes := notes2, markedBy := markedBy2, timeMarked := timeMarked2 }).1 s c d = [r] ∧
      r.status = status2 := by
  obtain ⟨doc1, -, -, -, -, hpost1, hst1, hcl1⟩ :=
    @markOne_post st now1 ⟨s, c, some d, status1, notes1, markedBy1, timeMarked1⟩ classDoc student d hwf hc hs hen rfl h1
  have hwf1 : WellFormed (markOne st now1 ⟨s, c, some d, status1, notes1, markedBy1, timeMarked1⟩).1 := ⟨hpost1.1, hpost1.2.1⟩
  have hc1 : findClassById (markOne st now1 ⟨s, c, some d, status1, notes1, markedBy1, timeMarked1⟩).1 c = some classDoc := by
    unfold findClassById at hc ⊢; rw [hcl1]; exact hc
  have hs1 : findStudentById (markOne st now1 ⟨s, c, some d, status1, notes1, markedBy1, timeMarked1⟩).1 s = some student := by
    unfold findStudentById at hs ⊢; rw [hst1]; exact hs
  obtain ⟨doc2, -, -, hkey2, hstatus2, hpost2, -, -⟩ :=
    @markOne_post _ now2 ⟨s, c, some d, status2, notes2, markedBy2, timeMarked2⟩ classDoc student d hwf1 hc1 hs1 hen rfl h2
  exact ⟨doc2, recordsFor_eq_singleton hpost2.2.1 hpost2.2.2.1 hkey2, hstatus2⟩

theorem sampleStore_wellFormed : WellFormed sampleStore := by
  refine ⟨?_, ?_⟩
  · simp [IdsUnique, sampleStore]
  · simp [KeysUnique, sampleStore]

/-- Witness of C1: `alice` in `mathClass`, marked present and then late on the same
instant. -/
theorem markOne_idempotent_upsert_witness :
    ∃ r, recordsFor
        (markOne
          (markOne sampleStore 5 { student := 1, class_ := 10, date := some morning,
                                   status := "present", notes := none, markedBy := none }).1
          6 { student := 1, class_ := 10, date := some morning, status := "late",
              notes := none, markedBy := none }).1 1 10 morning = [r] ∧
      r.status = "late" :=
  markOne_idempotent_upsert sampleStore 5 6 1 10 morning "present" "late" none none none none
    none none mathClass alice sampleStore_wellFormed (by decide) (by decide) (by decide) (by decide)
    (by decide)

/-- C2, as the code has it: the date is stored and looked up as the instant it
denotes, without truncation to a day.  For an existing class, a student on its
roster and two date instants `d1`, `d2`, `markOne (s,c,d1,_)` followed by
`markOne (s,c,d2,_)` both succeed, and they resolve to the same Attendance record
exactly when `d1 = d2`; in that case the store holds exactly one record for
`(s,c,d1)`, the one returned by the second call, and otherwise both records are
held side by side. -/
theorem markOne_same_record_iff_same_instant (st : Store) (now1 now2 : Int) (s c : ObjectId)
    (d1 d2 : Int) (status1 status2 : String) (notes1 notes2 markedBy1 markedBy2 : Option String)
    (timeMarked1 timeMarked2 : Option Int)
    (classDoc : Class) (student : Student) (hwf : WellFormed st)
    (hc : findClassById st c = some classDoc) (hs : findStudentById st s = some student)
    (hen : s ∈ classDoc.students)
    (h1 : status1 ∈ statusEnum) (h2 : status2 ∈ statusEnum) :
    ∃ a1 a2,
      (markOne st now1 { student := s, class_ := c, date := some d1, status := status1, notes := notes1, markedBy := markedBy1, timeMarked := timeMarked1 }).2.data = some a1 ∧
      (markOne
          (markOne st now1 { student := s, class_ := c, date := some d1, status := status1, notes := notes1, markedBy := markedBy1, timeMarked := timeMarked1 }).1
          now2 { student := s, class_ := c, date := some d2, status := status2, notes := notes2, markedBy := markedBy2, timeMarked := timeMarked2 }).2.data = some a2 ∧
      a1.date = d1 ∧ a2.date = d2 ∧
      (a1._id = a2._id ↔ d1 = d2) ∧
      (d1 = d2 → recordsFor
        (markOne
          (markOne st now1 { student := s, class_ := c, date := some d1, status := status1, notes := notes1, markedBy := markedBy1, timeMarked := timeMarked1 }).1
          now2 { student := s, class_ := c, date := some d2, status := status2, notes := notes2, markedBy := markedBy2, timeMarked := timeMarked2 }).1 s c d1 = [a2]) ∧
      (d1 ≠ d2 →
        a1 ∈ (markOne
          (markOne st now1 { student := s, class_ := c, date := some d1, status := status1, notes := notes1, markedBy := markedBy1, timeMarked := timeMarked1 }).1
          now2 { student := s, class_ := c, date := some d2, status := status2, notes := notes2, markedBy := markedBy2, timeMarked := timeMarked2 }).1.attendance ∧
        a2 ∈ (markOne
          (markOne st now1 { student := s, class_ := c, date := some d1, status := status1, notes := notes1, markedBy := markedBy1, timeMarked := timeMarked1 }).1
          now2 { student := s, class_ := c, date := some d2, status := status2, notes := notes2, markedBy := markedBy2, timeMarked := timeMarked2 }).1.attendance) := by
  obtain ⟨doc1, hdata1, -, hkey1, -, hpost1, hst1, hcl1⟩ :=
    @markOne_post st now1 ⟨s, c, some d1, status1, notes1, markedBy1, timeMarked1⟩ classDoc student d1
      hwf hc hs hen rfl h1
  have hwf1 : WellFormed (markOne st now1 ⟨s, c, some d1, status1, notes1, markedBy1, timeMarked1⟩).1 :=
    ⟨hpost1.1, hpost1.2.1⟩
  have hc1 : findClassById (markOne st now1 ⟨s, c, some d1, status1, notes1, markedBy1, timeMarked1⟩).1 c
      = some classDoc := by
    unfold findClassById at hc ⊢; rw [hcl1]; exact hc
  have hs1 : findStudentById (markOne st now1 ⟨s, c, some d1, status1, notes1, markedBy1, timeMarked1⟩).1 s
      = some student := by
    unfold findStudentById at hs ⊢; rw [hst1]; exact hs
  obtain ⟨doc2, hdata2, -, hkey2, -, hpost2, -, -⟩ :=
    @markOne_post _ now2 ⟨s, c, some d2, status2, notes2, markedBy2, timeMarked2⟩ classDoc student d2
      hwf1 hc1 hs1 hen rfl h2
  have hdate1 : doc1.date = d1 := by
    have := congrArg (fun k => k.2.2) hkey1
    simpa [key] using this
  have hdate2 : doc2.date = d2 := by
    have := congrArg (fun k => k.2.2) hkey2
    simpa [key] using this
  obtain ⟨hids2, hkeys2, hmem2, hkeep2, hsame2⟩ := hpost2
  have hmem1 := hpost1.2.2.1
  refine ⟨doc1, doc2, hdata1, hdata2, hdate1, hdate2, ⟨?_, ?_⟩, ?_, ?_⟩
  · intro hid
    by_contra hne
    have hkne : key doc1 ≠ key doc2 := by
      rw [hkey1, hkey2]
      intro h
      exact hne (congrArg (fun k => k.2.2) h)
    have h1mem := hkeep2 doc1 hmem1 hkne
    have : doc1 = doc2 := eq_of_mem_of_id_eq hids2 h1mem hmem2 hid
    exact hkne (this ▸ rfl)
  · intro hd
    have hk : key doc1 = key doc2 := by rw [hkey1, hkey2, hd]
    exact (hsame2 doc1 hmem1 hk).symm
  · intro hd
    exact recordsFor_eq_singleton hkeys2 hmem2 (by rw [hkey2, hd])
  · intro hne
    have hkne : key doc1 ≠ key doc2 := by
      rw [hkey1, hkey2]
      intro h
      exact hne (congrArg (fun k => k.2.2) h)
    exact ⟨hkeep2 doc1 hmem1 hkne, hmem2⟩

/-- Witness of the amended C2 on `sampleStore`, at 08:00 and 23:00 of 2024-03-01. -/
theorem markOne_same_record_iff_same_instant_witness :
    ∃ a1 a2,
      (markOne sampleStore 5 { student := 1, class_ := 10, date := some morning, status := "present", notes := none, markedBy := none }).2.data
        = some a1 ∧
      (markOne
          (markOne sampleStore 5 { student := 1, class_ := 10, date := some morning, status := "present", notes := none, markedBy := none }).1
          6 { student := 1, class_ := 10, date := some evening, status := "late", notes := none, markedBy := none }).2.data = some a2 ∧
      a1.date = morning ∧ a2.date = evening ∧
      (a1._id = a2._id ↔ morning = evening) ∧
      (morning = evening → recordsFor
        (markOne
          (markOne sampleStore 5 { student := 1, class_ := 10, date := some morning, status := "present", notes := none, markedBy := none }).1
          6 { student := 1, class_ := 10, date := some evening, status := "late", notes := none, markedBy := none }).1 1 10 morning = [a2]) ∧
      (morning ≠ evening →
        a1 ∈ (markOne
          (markOne sampleStore 5 { student := 1, class_ := 10, date := some morning, status := "present", notes := none, markedBy := none }).1
          6 { student := 1, class_ := 10, date := some evening, status := "late", notes := none, markedBy := none }).1.attendance ∧
        a2 ∈ (markOne
          (markOne sampleStore 5 { student := 1, class_ := 10, date := some morning, status := "present", notes := none, markedBy := none }).1
          6 { student := 1, class_ := 10, date := some evening, status := "late", notes := none, markedBy := none }).1.attendance) :=
  markOne_same_record_iff_same_instant sampleStore 5 6 1 10 morning evening "present" "late"
    none none none none none none mathClass alice sampleStore_wellFormed (by decide)
    (by decide) (by decide) (by decide) (by decide)

/-- C2 fails as stated: 2024-03-01T08:00Z and 2024-03-01T23:00Z fall on the same
calendar day, yet marking `alice` in `mathClass` at the first and then at the
second creates two records (`_id` 1 and `_id` 2), and the store holds two records
for that student and class on that day. -/
theorem markOne_day_normalization_counterexample :
    WellFormed sampleStore ∧ findClassById sampleStore 10 = some mathClass ∧
    findStudentById sampleStore 1 = some alice ∧ 1 ∈ mathClass.students ∧
    calendarDay morning = calendarDay evening ∧
    ((markOne sampleStore 5 { student := 1, class_ := 10, date := some morning, status := "present" }).2.data.map (fun r => r._id) = some 1) ∧
    ((markOne
        (markOne sampleStore 5 { student := 1, class_ := 10, date := some morning, status := "present" }).1
        6 { student := 1, class_ := 10, date := some evening, status := "late" }).2.data.map
          (fun r => r._id) = some 2) ∧
    (recordsOnDay
      (markOne
        (markOne sampleStore 5 { student := 1, class_ := 10, date := some morning, status := "present" }).1
        6 { student := 1, class_ := 10, date := some evening, status := "late" }).1
      1 10 (calendarDay morning)).length = 2 := by
  refine ⟨sampleStore_wellFormed, ?_, ?_, ?_, ?_, ?_, ?_, ?_⟩ <;> decide

/-- C3 (enrollment precondition): when the class and the student exist and the
student is not on the class roster, `markOne` answers 400 'Student is not enrolled
in this class' whatever the date, status, notes and markedBy of the request are,
and the store (hence the set of Attendance records) is unchanged. -/
theorem markOne_not_enrolled (st : Store) (now : Int) (attendanceData : AttendanceData)
    (classDoc : Class) (student : Student)
    (hc : findClassById st attendanceData.class_ = some classDoc)
    (hs : findStudentById st attendanceData.student = some student)
    (hen : attendanceData.student ∉ classDoc.students) :
    markOne st now attendanceData =
      (st, { code := 400, success := false,
             message := "Student is not enrolled in this class" }) := by
  simp [markOne, markOneTry, hc, hs, hen]

/-- Witness of C3: `bob` is not on the roster of `mathClass`; the request even
carries an Invalid Date and a status outside the enum. -/
theorem markOne_not_enrolled_witness :
    markOne sampleStore 5 { student := 2, class_ := 10, date := none, status := "bogus" } =
      (sampleStore, { code := 400, success := false,
                      message := "Student is not enrolled in this class" }) :=
  markOne_not_enrolled sampleStore 5 { student := 2, class_ := 10, date := none, status := "bogus" }
    mathClass bob (by decide) (by decide) (by decide)

/-- C4 (not-found handling): if `Class.findById` finds nothing, `markOne` answers
404 'Class not found'; if the class is found and `Student.findById` finds nothing,
it answers 404 'Student not found'; in both cases the store is returned unchanged,
so no Attendance record is created or modified. -/
theorem markOne_not_found (st : Store) (now : Int) (attendanceData : AttendanceData) :
    (findClassById st attendanceData.class_ = none →
      markOne st now attendanceData =
        (st, { code := 404, success := false, message := "Class not found" })) ∧
    (∀ classDoc, findClassById st attendanceData.class_ = some classDoc →
      findStudentById st attendanceData.student = none →
      markOne st now attendanceData =
        (st, { code := 404, success := false, message := "Student not found" })) := by
  constructor
  · intro hc
    simp [markOne, markOneTry, hc]
  · intro classDoc hc hs
    simp [markOne, markOneTry, hc, hs]

/-- Witness of C4: class 99 does not exist; class 10 exists and student 77 does not. -/
theorem markOne_not_found_witness :
    markOne sampleStore 5 { student := 1, class_ := 99, date := some morning, status := "present" }
      = (sampleStore, { code := 404, success := false, message := "Class not found" }) ∧
    markOne sampleStore 5 { student := 77, class_ := 10, date := some morning, status := "present" }
      = (sampleStore, { code := 404, success := false, message := "Student not found" }) :=
  ⟨(markOne_not_found sampleStore 5
      { student := 1, class_ := 99, date := some morning, status := "present" }).1 (by decide),
   (markOne_not_found sampleStore 5
      { student := 77, class_ := 10, date := some morning, status := "present" }).2 mathClass
      (by decide) (by decide)⟩

theorem ids_map_update (l : List Attendance) (id : ObjectId) (doc : Attendance)
    (hid : doc._id = id) :
    (l.map (fun r => if r._id = id then doc else r)).map (fun r => r._id)
      = l.map (fun r => r._id) := by
  rw [List.map_map]
  apply List.map_congr_left
  intro r _
  by_cases h : r._id = id <;> simp [h, hid]

theorem filter_map_update (l : List Attendance) (ex doc : Attendance) (P : Attendance → Bool)
    (huniq : ∀ r ∈ l, r._id = ex._id → r = ex) (hex : P ex = false) (hdoc : P doc = false) :
    (l.map (fun r => if r._id = ex._id then doc else r)).filter P = l.filter P := by
  induction l with
  | nil => rfl
  | cons a t ih =>
    have iht := ih (fun r hr => huniq r (List.mem_cons_of_mem a hr))
    by_cases h : a._id = ex._id
    · have ha : a = ex := huniq a (List.mem_cons_self a t) h
      subst ha
      simp only [List.map_cons, h, if_true, List.filter_cons, hdoc, hex] at iht ⊢
      simpa using iht
    · simp only [List.map_cons, h, if_false, List.filter_cons] at iht ⊢
      rw [iht]

theorem entryError_none {date : Option Int} {e : BulkEntry} (h : entryError date e = none) :
    ∃ d, date = some d ∧ e.status ∈ statusEnum := by
  unfold entryError at h
  cases date with
  | none => simp at h
  | some d =>
    refine ⟨d, rfl, ?_⟩
    by_contra hst
    simp [hst] at h

theorem markBulkEntry_error {st : Store} {now : Int} {classId : ObjectId} {date : Option Int}
    {e : BulkEntry} {err : StoreError} (h : entryError date e = some err) :
    markBulkEntry st now classId date e = .error err := by
  unfold entryError at h
  cases date with
  | none =>
    simp only [Option.some.injEq] at h
    simp [markBulkEntry, castDate, h]
  | some d =>
    by_cases hst : e.status ∈ statusEnum
    · simp [hst] at h
    · simp only [hst, if_false, Option.some.injEq] at h
      have hv : ∀ doc : Attendance, doc.status = e.status →
          validate doc = .error err := by
        intro doc hd
        simp [validate, hd, hst, h]
      cases hex : findOneAttendance st e.student classId d with
      | some ex =>
        simp [markBulkEntry, castDate, hex, saveExisting,
          hv (assignAttendance ex e.student classId d e.status e.notes e.markedBy now)
            (by simp [assignAttendance])]
      | none =>
        simp [markBulkEntry, castDate, hex, saveNew,
          hv (newAttendance st e.student classId d e.status e.notes e.markedBy e.timeMarked now)
            (by simp [newAttendance])]

theorem markBulkEntry_ok {st : Store} {now : Int} {classId : ObjectId} {date : Option Int}
    {e : BulkEntry} (h : entryError date e = none) :
    ∃ st1 doc, markBulkEntry st now classId date e = .ok (st1, doc) ∧
      doc.student = e.student ∧ doc.status = e.status ∧
      st1.students = st.students ∧ st1.classes = st.classes ∧
      (IdsUnique st → IdsUnique st1 ∧
        ∀ P : Attendance → Bool, (∀ r, P r = true → r.student ≠ e.student) →
          st1.attendance.filter P = st.attendance.filter P) := by
  obtain ⟨d, hd, hst⟩ := entryError_none h
  subst hd
  cases hex : findOneAttendance st e.student classId d with
  | some ex =>
    have hval : validate (assignAttendance ex e.student classId d e.status e.notes
        e.markedBy now) = .ok () := validate_ok (by simpa [assignAttendance] using hst)
    refine ⟨{ st with attendance := st.attendance.map (fun r =>
        if r._id = ex._id then
          assignAttendance ex e.student classId d e.status e.notes e.markedBy now
        else r) },
      assignAttendance ex e.student classId d e.status e.notes e.markedBy now,
      by simp only [markBulkEntry, castDate, hex, saveExisting, hval]; rfl,
      by simp [assignAttendance], by simp [assignAttendance], rfl, rfl, ?_⟩
    intro hids
    refine ⟨?_, ?_⟩
    · unfold IdsUnique at hids ⊢
      have := ids_map_update st.attendance ex._id
        (assignAttendance ex e.student classId d e.status e.notes e.markedBy now)
        (by simp [assignAttendance])
      simp only [assignAttendance] at this ⊢
      rw [this]; exact hids
    · intro P hP
      have hexs : ex.student = e.student := by
        have := congrArg (fun k => k.1) (findOne_some hex).2
        simpa [key] using this
      have h1 : P ex = false := by
        rw [Bool.eq_false_iff]
        intro hp
        exact hP ex hp hexs
      have h2 : P (assignAttendance ex e.student classId d e.status e.notes e.markedBy
          now) = false := by
        rw [Bool.eq_false_iff]
        intro hp
        exact hP _ hp (by simp [assignAttendance])
      have := filter_map_update st.attendance ex _ P
        (fun r hr hid => eq_of_mem_of_id_eq hids hr (findOne_some hex).1 hid) h1 h2
      simp only [assignAttendance] at this ⊢
      exact this
  | none =>
    have hsave := @saveNew_of_findOne_none st
      (newAttendance st e.student classId d e.status e.notes e.markedBy e.timeMarked now)
      (by simpa [newAttendance] using hst) (by simpa [newAttendance] using hex)
    refine ⟨{ st with attendance := st.attendance ++
        [newAttendance st e.student classId d e.status e.notes e.markedBy e.timeMarked now] },
      newAttendance st e.student classId d e.status e.notes e.markedBy e.timeMarked now,
      by simp only [markBulkEntry, castDate, hex, hsave],
      by simp [newAttendance], by simp [newAttendance], rfl, rfl, ?_⟩
    intro hids
    refine ⟨?_, ?_⟩
    · unfold IdsUnique at hids ⊢
      simp only [List.map_append, List.map_cons, List.map_nil]
      rw [List.nodup_append]
      refine ⟨hids, by simp, ?_⟩
      intro a ha hb
      simp only [List.mem_singleton] at hb
      obtain ⟨r, hr, rfl⟩ := List.mem_map.mp ha
      have := lt_freshId st.attendance r hr
      rw [hb] at this
      simp only [newAttendance] at this
      exact lt_irrefl _ this
    · intro P hP
      have h2 : P (newAttendance st e.student classId d e.status e.notes e.markedBy e.timeMarked
          now) = false := by
        rw [Bool.eq_false_iff]
        intro hp
        exact hP _ hp (by simp [newAttendance])
      simp [List.filter_append, h2]

theorem markBulkLoop_data (clock : Nat → Int) (classId : ObjectId) (date : Option Int) :
    ∀ (l : List BulkEntry) (i : Nat) (st : Store) (acc : BulkData),
      (markBulkLoop clock classId date i l st acc).2.errors =
        acc.errors ++ l.filterMap (fun e =>
          (entryError date e).map (fun err => { student := e.student, error := err })) ∧
      (markBulkLoop clock classId date i l st acc).2.results.map (fun r => (r.student, r.status)) =
        acc.results.map (fun r => (r.student, r.status)) ++
          (l.filter (fun e => (entryError date e).isNone)).map (fun e => (e.student, e.status)) ∧
      (markBulkLoop clock classId date i l st acc).2.results.length +
          (markBulkLoop clock classId date i l st acc).2.errors.length =
        acc.results.length + acc.errors.length + l.length := by
  intro l
  induction l with
  | nil => intro i st acc; simp [markBulkLoop]
  | cons e t ih =>
    intro i st acc
    cases h : entryError date e with
    | none =>
      obtain ⟨st1, doc, hok, hstu, hsta, -⟩ :=
        @markBulkEntry_ok st (clock i) classId date e h
      obtain ⟨ih1, ih2, ih3⟩ := ih (i + 1) st1 { acc with results := acc.results ++ [doc] }
      simp only [markBulkLoop, hok]
      refine ⟨?_, ?_, ?_⟩
      · rw [ih1]; simp [List.filterMap_cons, h]
      · rw [ih2]; simp [List.filter_cons, h, hstu, hsta]
      · rw [ih3]; simp; omega
    | some err =>
      have herr := @markBulkEntry_error st (clock i) classId date e err h
      obtain ⟨ih1, ih2, ih3⟩ := ih (i + 1) st
        { acc with errors := acc.errors ++ [{ student := e.student, error := err }] }
      simp only [markBulkLoop, herr]
      refine ⟨?_, ?_, ?_⟩
      · rw [ih1]; simp [List.filterMap_cons, h]
      · rw [ih2]; simp [List.filter_cons, h]
      · rw [ih3]; simp; omega

theorem markBulkLoop_frame (clock : Nat → Int) (classId : ObjectId) (date : Option Int)
    (P : Attendance → Bool) :
    ∀ (l : List BulkEntry) (i : Nat) (st : Store) (acc : BulkData), IdsUnique st →
      (∀ r, P r = true → ∀ e ∈ l, r.student ≠ e.student) →
      (markBulkLoop clock classId date i l st acc).1.attendance.filter P =
        st.attendance.filter P ∧
      (markBulkLoop clock classId date i l st acc).1.students = st.students ∧
      (markBulkLoop clock classId date i l st acc).1.classes = st.classes := by
  intro l
  induction l with
  | nil => intro i st acc _ _; simp [markBulkLoop]
  | cons e t ih =>
    intro i st acc hids hP
    have hPt : ∀ r, P r = true → ∀ e1 ∈ t, r.student ≠ e1.student :=
      fun r hr e1 he1 => hP r hr e1 (List.mem_cons_of_mem e he1)
    cases h : entryError date e with
    | none =>
      obtain ⟨st1, doc, hok, -, -, hs, hc, hfr⟩ :=
        @markBulkEntry_ok st (clock i) classId date e h
      obtain ⟨hids1, hfilter⟩ := hfr hids
      obtain ⟨ih1, ih2, ih3⟩ := ih (i + 1) st1 { acc with results := acc.results ++ [doc] }
        hids1 hPt
      simp only [markBulkLoop, hok]
      exact ⟨ih1.trans (hfilter P (fun r hr => hP r hr e (List.mem_cons_self e t))),
        ih2.trans hs, ih3.trans hc⟩
    | some err =>
      have herr := @markBulkEntry_error st (clock i) classId date e err h
      simp only [markBulkLoop, herr]
      exact ih (i + 1) st _ hids hPt

theorem markBulkLoop_append (clock : Nat → Int) (classId : ObjectId) (date : Option Int) :
    ∀ (l1 l2 : List BulkEntry) (i : Nat) (st : Store) (acc : BulkData),
      markBulkLoop clock classId date i (l1 ++ l2) st acc =
        markBulkLoop clock classId date (i + l1.length) l2
          (markBulkLoop clock classId date i l1 st acc).1
          (markBulkLoop clock classId date i l1 st acc).2 := by
  intro l1
  induction l1 with
  | nil => intro l2 i st acc; simp [markBulkLoop]
  | cons e t ih =>
    intro l2 i st acc
    have hidx : i + 1 + t.length = i + (t.length + 1) := by omega
    cases hres : markBulkEntry st (clock i) classId date e with
    | ok p =>
      obtain ⟨st1, doc⟩ := p
      simp only [List.cons_append, markBulkLoop, hres, List.length_cons]
      have := ih l2 (i + 1) st1 { acc with results := acc.results ++ [doc] }
      rw [hidx] at this
      exact this
    | error err =>
      simp only [List.cons_append, markBulkLoop, hres, List.length_cons]
      have := ih l2 (i + 1) st
        { acc with errors := acc.errors ++ [{ student := e.student, error := err }] }
      rw [hidx] at this
      exact this

theorem markBulkLoop_store_acc (clock : Nat → Int) (classId : ObjectId) (date : Option Int) :
    ∀ (l : List BulkEntry) (i : Nat) (st : Store) (acc acc1 : BulkData),
      (markBulkLoop clock classId date i l st acc).1 =
        (markBulkLoop clock classId date i l st acc1).1 := by
  intro l
  induction l with
  | nil => intro i st acc acc1; simp [markBulkLoop]
  | cons e t ih =>
    intro i st acc acc1
    cases hres : markBulkEntry st (clock i) classId date e with
    | ok p =>
      obtain ⟨st1, doc⟩ := p
      simp only [markBulkLoop, hres]
      exact ih (i + 1) st1 _ _
    | error err =>
      simp only [markBulkLoop, hres]
      exact ih (i + 1) st _ _

theorem markBulkEntry_wellFormed {st st1 : Store} {now : Int} {classId : ObjectId}
    {date : Option Int} {e : BulkEntry} {doc : Attendance} (hwf : WellFormed st)
    (hok : markBulkEntry st now classId date e = .ok (st1, doc)) : WellFormed st1 := by
  cases herr : entryError date e with
  | some err =>
    rw [markBulkEntry_error herr] at hok
    cases hok
  | none =>
    obtain ⟨d, hd, hst⟩ := entryError_none herr
    subst hd
    cases hex : findOneAttendance st e.student classId d with
    | some ex =>
      have hval : validate (assignAttendance ex e.student classId d e.status e.notes
          e.markedBy now) = .ok () := validate_ok (by simpa [assignAttendance] using hst)
      simp only [markBulkEntry, castDate, hex, saveExisting, hval] at hok
      cases hok
      have hpost := upsert_update_post st.attendance ex
        (assignAttendance ex e.student classId d e.status e.notes e.markedBy now)
        hwf.1 hwf.2 (findOne_some hex).1 (by simp [assignAttendance])
        (by rw [(findOne_some hex).2]; simp [assignAttendance, key])
      exact ⟨hpost.1, hpost.2.1⟩
    | none =>
      have hsave := @saveNew_of_findOne_none st
        (newAttendance st e.student classId d e.status e.notes e.markedBy e.timeMarked now)
        (by simpa [newAttendance] using hst) (by simpa [newAttendance] using hex)
      simp only [markBulkEntry, castDate, hex, hsave] at hok
      cases hok
      have hpost := upsert_create_post st.attendance
        (newAttendance st e.student classId d e.status e.notes e.markedBy e.timeMarked now)
        hwf.1 hwf.2 (by simp [newAttendance])
        (by
          intro r hr
          have := findOne_none hex r hr
          simpa [newAttendance, key] using this)
      exact ⟨hpost.1, hpost.2.1⟩

theorem markBulkLoop_wellFormed (clock : Nat → Int) (classId : ObjectId) (date : Option Int) :
    ∀ (l : List BulkEntry) (i : Nat) (st : Store) (acc : BulkData), WellFormed st →
      WellFormed (markBulkLoop clock classId date i l st acc).1 := by
  intro l
  induction l with
  | nil => intro i st acc hwf; simpa [markBulkLoop] using hwf
  | cons e t ih =>
    intro i st acc hwf
    cases hres : markBulkEntry st (clock i) classId date e with
    | ok p =>
      obtain ⟨st1, doc⟩ := p
      simp only [markBulkLoop, hres]
      exact ih (i + 1) st1 _ (markBulkEntry_wellFormed hwf hres)
    | error err =>
      simp only [markBulkLoop, hres]
      exact ih (i + 1) st _ hwf

theorem markBulkEntry_post {st : Store} {now : Int} {classId : ObjectId} {d : Int}
    {e : BulkEntry} (hwf : WellFormed st) (h : entryError (some d) e = none) :
    ∃ st1 doc, markBulkEntry st now classId (some d) e = .ok (st1, doc) ∧
      key doc = (e.student, classId, d) ∧ doc.status = e.status ∧
      UpsertPost st.attendance st1.attendance doc := by
  obtain ⟨d1, hd, hst⟩ := entryError_none h
  cases hd
  cases hex : findOneAttendance st e.student classId d with
  | some ex =>
    have hval : validate (assignAttendance ex e.student classId d e.status e.notes
        e.markedBy now) = .ok () := validate_ok (by simpa [assignAttendance] using hst)
    refine ⟨{ st with attendance := st.attendance.map (fun r =>
        if r._id = ex._id then
          assignAttendance ex e.student classId d e.status e.notes e.markedBy now
        else r) },
      assignAttendance ex e.student classId d e.status e.notes e.markedBy now,
      by simp only [markBulkEntry, castDate, hex, saveExisting, hval]; rfl,
      by simp [assignAttendance, key], by simp [assignAttendance], ?_⟩
    exact upsert_update_post st.attendance ex _ hwf.1 hwf.2 (findOne_some hex).1
      (by simp [assignAttendance])
      (by rw [(findOne_some hex).2]; simp [assignAttendance, key])
  | none =>
    have hsave := @saveNew_of_findOne_none st
      (newAttendance st e.student classId d e.status e.notes e.markedBy e.timeMarked now)
      (by simpa [newAttendance] using hst) (by simpa [newAttendance] using hex)
    refine ⟨{ st with attendance := st.attendance ++
        [newAttendance st e.student classId d e.status e.notes e.markedBy e.timeMarked now] },
      newAttendance st e.student classId d e.status e.notes e.markedBy e.timeMarked now,
      by simp only [markBulkEntry, castDate, hex, hsave],
      by simp [newAttendance, key], by simp [newAttendance], ?_⟩
    refine upsert_create_post st.attendance _ hwf.1 hwf.2 (by simp [newAttendance]) ?_
    intro r hr
    have := findOne_none hex r hr
    simpa [newAttendance, key] using this

theorem markBulkLoop_frame_ok (clock : Nat → Int) (classId : ObjectId) (date : Option Int)
    (P : Attendance → Bool) :
    ∀ (l : List BulkEntry) (i : Nat) (st : Store) (acc : BulkData), IdsUnique st →
      (∀ e ∈ l, entryError date e = none → ∀ r, P r = true → r.student ≠ e.student) →
      (markBulkLoop clock classId date i l st acc).1.attendance.filter P =
        st.attendance.filter P := by
  intro l
  induction l with
  | nil => intro i st acc _ _; simp [markBulkLoop]
  | cons e t ih =>
    intro i st acc hids hP
    have hPt : ∀ e1 ∈ t, entryError date e1 = none → ∀ r, P r = true →
        r.student ≠ e1.student :=
      fun e1 he1 => hP e1 (List.mem_cons_of_mem e he1)
    cases h : entryError date e with
    | none =>
      obtain ⟨st1, doc, hok, -, -, -, -, hfr⟩ :=
        @markBulkEntry_ok st (clock i) classId date e h
      obtain ⟨hids1, hfilter⟩ := hfr hids
      have ih1 := ih (i + 1) st1 { acc with results := acc.results ++ [doc] } hids1 hPt
      simp only [markBulkLoop, hok]
      exact ih1.trans (hfilter P (hP e (List.mem_cons_self e t) h))
    | some err =>
      have herr := @markBulkEntry_error st (clock i) classId date e err h
      simp only [markBulkLoop, herr]
      exact ih (i + 1) st _ hids hPt

theorem markBulkLoop_results_mem (clock : Nat → Int) (classId : ObjectId) (date : Option Int) :
    ∀ (l : List BulkEntry) (i : Nat) (st : Store) (acc : BulkData) (r : Attendance),
      r ∈ acc.results → r ∈ (markBulkLoop clock classId date i l st acc).2.results := by
  intro l
  induction l with
  | nil => intro i st acc r hr; simpa [markBulkLoop] using hr
  | cons e t ih =>
    intro i st acc r hr
    cases hres : markBulkEntry st (clock i) classId date e with
    | ok p =>
      obtain ⟨st1, doc⟩ := p
      simp only [markBulkLoop, hres]
      exact ih (i + 1) st1 _ r (List.mem_append_left _ hr)
    | error err =>
      simp only [markBulkLoop, hres]
      exact ih (i + 1) st _ r hr

/-- C5 (bulk partial failure), evaluated on the code: `bob` (student 2) exists and
is not on the roster of `mathClass`, yet `markBulk` for `[alice, bob]` puts both
entries in `results`, leaves `errors` empty and persists an Attendance record for
`bob`; the bulk loop never looks at the roster. -/
theorem markBulk_accepts_unenrolled_student :
    findClassById sampleStore 10 = some mathClass ∧
    findStudentById sampleStore 2 = some bob ∧ 2 ∉ mathClass.students ∧
    (markBulk sampleStore (fun _ => 5) 10 (some morning)
      [{ student := 1, status := "present" }, { student := 2, status := "absent" }]).2.data.map
        (fun d => (d.results.map (fun r => r.student), d.errors)) = some ([1, 2], []) ∧
    (recordsFor
      (markBulk sampleStore (fun _ => 5) 10 (some morning)
        [{ student := 1, status := "present" }, { student := 2, status := "absent" }]).1
      2 10 morning).map (fun r => r.status) = ["absent"] := by
  refine ⟨?_, ?_, ?_, ?_, ?_⟩ <;> decide

/-- C6 (bulk failure isolation): every entry of `attendanceList` is attempted in
order.  An entry fails exactly when `entryError` gives an error for it; the
`errors` array lists, in order, the student reference and the error of every
failing entry, `results` holds, in order, one record per non-failing entry carrying
that entry's student and status, and `results.length + errors.length` is the length
of the list.  A failing entry leaves the store as it was and the loop goes on with
the entries after it.  Every non-failing entry is applied, wherever the failing
entries sit: on a store satisfying the primary key and the unique index, for each
non-failing entry that no later non-failing entry for the same student overrides, the
store after the call holds exactly one record for `(student, classId, date)`; that
record carries the entry's status and is one of `results`. -/
theorem markBulk_failure_isolation (st : Store) (clock : Nat → Int) (classId : ObjectId)
    (date : Option Int) (attendanceList : List BulkEntry) :
    (∃ d, (markBulk st clock classId date attendanceList).2.data = some d ∧
      (markBulk st clock classId date attendanceList).2.success = true ∧
      (markBulk st clock classId date attendanceList).2.code = 200 ∧
      d.results.length + d.errors.length = attendanceList.length ∧
      d.errors = attendanceList.filterMap (fun e =>
        (entryError date e).map (fun err => { student := e.student, error := err })) ∧
      d.results.map (fun r => (r.student, r.status)) =
        (attendanceList.filter (fun e => (entryError date e).isNone)).map
          (fun e => (e.student, e.status))) ∧
    (∀ (st1 : Store) (now : Int) (e : BulkEntry) (err : StoreError),
      markBulkEntry st1 now classId date e = .error err ↔ entryError date e = some err) ∧
    (∀ (l1 l2 : List BulkEntry) (e : BulkEntry) (err : StoreError),
      entryError date e = some err →
      (markBulk st clock classId date (l1 ++ e :: l2)).1 =
        (markBulkLoop clock classId date (l1.length + 1) l2
          (markBulk st clock classId date l1).1 {}).1) ∧
    (∀ (d : Int) (l1 l2 : List BulkEntry) (e : BulkEntry), date = some d → WellFormed st →
      attendanceList = l1 ++ e :: l2 → entryError date e = none →
      (∀ x ∈ l2, entryError date x = none → x.student ≠ e.student) →
      ∃ r, recordsFor (markBulk st clock classId date attendanceList).1 e.student classId d
          = [r] ∧
        r.status = e.status ∧
        ∃ out, (markBulk st clock classId date attendanceList).2.data = some out ∧
          r ∈ out.results) := by
  refine ⟨?_, ?_, ?_, ?_⟩
  · obtain ⟨h1, h2, h3⟩ := markBulkLoop_data clock classId date attendanceList 0 st {}
    refine ⟨_, rfl, rfl, rfl, ?_, ?_, ?_⟩
    · simpa using h3
    · simpa using h1
    · simpa using h2
  · intro st1 now e err
    constructor
    · intro herr
      cases h : entryError date e with
      | none =>
        obtain ⟨st2, doc, hok, -⟩ := @markBulkEntry_ok st1 now classId date e h
        rw [hok] at herr
        cases herr
      | some err1 =>
        rw [@markBulkEntry_error st1 now classId date e err1 h] at herr
        cases herr
        rfl
    · exact fun h => markBulkEntry_error h
  · intro l1 l2 e err herr
    have happ := markBulkLoop_append clock classId date l1 (e :: l2) 0 st {}
    have hstep := @markBulkEntry_error (markBulkLoop clock classId date 0 l1 st {}).1
      (clock (0 + l1.length)) classId date e err herr
    simp only [markBulk]
    rw [happ]
    simp only [markBulkLoop, hstep]
    rw [Nat.zero_add]
    exact markBulkLoop_store_acc clock classId date l2 _ _ _ _
  · intro d l1 l2 e hd hwf hl he hl2
    subst hd
    subst hl
    have happ := markBulkLoop_append clock classId (some d) l1 (e :: l2) 0 st {}
    have hwfA := markBulkLoop_wellFormed clock classId (some d) l1 0 st {} hwf
    obtain ⟨st1, doc, hok, hkey, hstatus, hpost⟩ :=
      @markBulkEntry_post (markBulkLoop clock classId (some d) 0 l1 st {}).1
        (clock (0 + l1.length)) classId d e hwfA he
    have hframe := markBulkLoop_frame_ok clock classId (some d)
      (sameKey e.student classId d) l2 (0 + l1.length + 1) st1
      { (markBulkLoop clock classId (some d) 0 l1 st {}).2 with
        results := (markBulkLoop clock classId (some d) 0 l1 st {}).2.results ++ [doc] }
      hpost.1
      (fun x hx hxe r hr => by
        have hk := congrArg (fun k => k.1) ((sameKey_iff e.student classId d r).mp hr)
        simp only [key] at hk
        rw [hk]
        exact (hl2 x hx hxe).symm)
    have hres := markBulkLoop_results_mem clock classId (some d) l2 (0 + l1.length + 1) st1
      { (markBulkLoop clock classId (some d) 0 l1 st {}).2 with
        results := (markBulkLoop clock classId (some d) 0 l1 st {}).2.results ++ [doc] }
      doc (by simp)
    have hsingle : recordsFor st1 e.student classId d = [doc] :=
      @recordsFor_eq_singleton st1 doc e.student classId d hpost.2.1 hpost.2.2.1 hkey
    refine ⟨doc, ?_, hstatus, _, rfl, ?_⟩
    · simp only [markBulk, recordsFor]
      rw [happ]
      simp only [markBulkLoop, hok]
      rw [hframe]
      exact hsingle
    · rw [happ]
      simp only [markBulkLoop, hok]
      exact hres

/-- Witness of C6: an entry with a status outside the enum sits between two valid
entries for `alice`; the entry after the failing one is applied, and the store ends
up with one record for `alice`, carrying its status `late`. -/
theorem markBulk_failure_isolation_witness :
    ∃ r, recordsFor (markBulk sampleStore (fun _ => 5) 10 (some morning)
        [{ student := 1, status := "present" }, { student := 2, status := "bogus" },
         { student := 1, status := "late" }]).1 1 10 morning = [r] ∧
      r.status = "late" ∧
      ∃ out, (markBulk sampleStore (fun _ => 5) 10 (some morning)
        [{ student := 1, status := "present" }, { student := 2, status := "bogus" },
         { student := 1, status := "late" }]).2.data = some out ∧ r ∈ out.results :=
  (markBulk_failure_isolation sampleStore (fun _ => 5) 10 (some morning)
    [{ student := 1, status := "present" }, { student := 2, status := "bogus" },
     { student := 1, status := "late" }]).2.2.2 morning
    [{ student := 1, status := "present" }, { student := 2, status := "bogus" }] []
    { student := 1, status := "late" } rfl sampleStore_wellFormed rfl (by decide)
    (by simp)

/-- C7 (omissions are never inferred): on a store with unique `_id`s, the Attendance
records whose student does not occur in `attendanceList` are exactly the same, in
the same order, before and after `markBulk`: none is changed, none is removed and
none is created; the Student and Class collections are unchanged as well. -/
theorem markBulk_unlisted_untouched (st : Store) (clock : Nat → Int) (classId : ObjectId)
    (date : Option Int) (attendanceList : List BulkEntry) (hids : IdsUnique st) :
    (markBulk st clock classId date attendanceList).1.attendance.filter
        (fun r => decide (r.student ∉ attendanceList.map (fun e => e.student))) =
      st.attendance.filter
        (fun r => decide (r.student ∉ attendanceList.map (fun e => e.student))) ∧
    (markBulk st clock classId date attendanceList).1.students = st.students ∧
    (markBulk st clock classId date attendanceList).1.classes = st.classes := by
  have := markBulkLoop_frame clock classId date
    (fun r => decide (r.student ∉ attendanceList.map (fun e => e.student)))
    attendanceList 0 st {} hids (by
      intro r hr e he heq
      simp only [decide_eq_true_eq] at hr
      exact hr (heq ▸ List.mem_map_of_mem (fun e => e.student) he))
  simpa [markBulk] using this

/-- Witness of C7: `alice` has a record and is on the roster of `mathClass`; a bulk
call listing only `bob` leaves her record as it is and creates no 'absent' record
for her. -/
theorem markBulk_unlisted_untouched_witness :
    (markBulk markedStore (fun _ => 9) 10 (some evening)
        [{ student := 2, status := "present" }]).1.attendance.filter
        (fun r => decide (r.student ∉
          ([{ student := 2, status := "present" }] : List BulkEntry).map (fun e => e.student))) =
      markedStore.attendance.filter
        (fun r => decide (r.student ∉
          ([{ student := 2, status := "present" }] : List BulkEntry).map (fun e => e.student))) ∧
    (markBulk markedStore (fun _ => 9) 10 (some evening)
        [{ student := 2, status := "present" }]).1.students = markedStore.students ∧
    (markBulk markedStore (fun _ => 9) 10 (some evening)
        [{ student := 2, status := "present" }]).1.classes = markedStore.classes :=
  markBulk_unlisted_untouched markedStore (fun _ => 9) 10 (some evening)
    [{ student := 2, status := "present" }] (by unfold IdsUnique; decide)

/-- C8 (bulk agrees with markOne), evaluated on the code: for `bob`, who exists and
is not on the roster of `mathClass`, `markOne` refuses with 400 and leaves the
Attendance collection empty, while `markBulk` with the one-entry list for the same
student, class, date and status returns the entry in `results` and persists a
record. -/
theorem markBulk_disagrees_with_markOne :
    (markOne sampleStore 5
      { student := 2, class_ := 10, date := some morning, status := "present" }).2.code = 400 ∧
    (markOne sampleStore 5
      { student := 2, class_ := 10, date := some morning, status := "present" }).1.attendance = [] ∧
    (markBulk sampleStore (fun _ => 5) 10 (some morning)
      [{ student := 2, status := "present" }]).2.data.map
        (fun d => (d.results.map (fun r => r.student), d.errors)) = some ([2], []) ∧
    (markBulk sampleStore (fun _ => 5) 10 (some morning)
      [{ student := 2, status := "present" }]).1.attendance =
      [{ _id := 1, student := 2, class_ := 10, date := morning, status := "present",
         timeMarked := 5 }] := by
  refine ⟨?_, ?_, ?_, ?_⟩ <;> decide

theorem findStudentById_id {st : Store} {id : ObjectId} {s : Student}
    (h : findStudentById st id = some s) : s._id = id := by
  unfold findStudentById at h
  simpa using List.find?_some h

theorem findClassById_id {st : Store} {id : ObjectId} {c : Class}
    (h : findClassById st id = some c) : c._id = id := by
  unfold findClassById at h
  simpa using List.find?_some h

theorem buildAttendanceMap_ok (st : Store) :
    ∀ (records : List Attendance) (acc : List (ObjectId × Attendance)),
      (∀ r ∈ records, (findStudentById st r.student).isSome) →
      buildAttendanceMap st records acc =
        .ok (records.reverse.map (fun r => (r.student, r)) ++ acc) := by
  intro records
  induction records with
  | nil => intro acc _; simp [buildAttendanceMap]
  | cons a t ih =>
    intro acc h
    have ha := h a (List.mem_cons_self a t)
    obtain ⟨s, hs⟩ := Option.isSome_iff_exists.mp ha
    have hid := findStudentById_id hs
    simp only [buildAttendanceMap, hs]
    rw [ih _ (fun r hr => h r (List.mem_cons_of_mem a hr)), hid]
    simp

theorem mapGet_reverse_map (records : List Attendance) (k : ObjectId) :
    mapGet (records.reverse.map (fun r => (r.student, r)) ++ []) k =
      records.reverse.find? (fun r => r.student == k) := by
  simp only [mapGet, List.append_nil, List.find?_map, Option.map_map]
  have : ((fun p : ObjectId × Attendance => p.2) ∘ fun r : Attendance => (r.student, r)) = id := rfl
  rw [this, Option.map_id]
  rfl

theorem populateStudents_ids (st : Store) (ids : List ObjectId) :
    (populateStudents st ids).map (fun s => s._id) =
      ids.filter (fun id => (findStudentById st id).isSome) := by
  unfold populateStudents
  induction ids with
  | nil => rfl
  | cons a t ih =>
    cases h : findStudentById st a with
    | none => simp [List.filterMap_cons, List.filter_cons, h, ih]
    | some s => simp [List.filterMap_cons, List.filter_cons, h, ih, findStudentById_id h]

theorem mem_findForClassBetween {st : Store} {classId : ObjectId} {a b : Int} {r : Attendance} :
    r ∈ findForClassBetween st classId a b ↔
      r ∈ st.attendance ∧ r.class_ = classId ∧ a ≤ r.date ∧ r.date < b := by
  simp [findForClassBetween, and_assoc]


/-- C9 fails as stated: the roster is populated, and `populate` replaces each reference
by its document.  In `danglingStore` the roster of `mathClass` is `[1, 3]` and the
reference 3 resolves to no student; it is dropped and the handler returns one entry,
not one per element of `c.students`.  In `doubledStore` the roster is `[1, 1]` and the
handler returns two entries for the one student. -/
theorem getForClassAndDate_roster_counterexample :
    (findClassById danglingStore 10).map (fun c => c.students) = some [1, 3] ∧
    (getForClassAndDate danglingStore 10 (some dayStart)).success = true ∧
    (getForClassAndDate danglingStore 10 (some dayStart)).data.map
      (fun d => d.students.map (fun e => (e._id, e.attendance.map (fun a => a.status)))) =
      some [(1, some "present")] ∧
    (findClassById doubledStore 10).map (fun c => c.students) = some [1, 1] ∧
    (getForClassAndDate doubledStore 10 (some dayStart)).data.map
      (fun d => d.students.map (fun e => (e._id, e.attendance.map (fun a => a.status)))) =
      some [(1, some "present"), (1, some "present")] := by
  refine ⟨?_, ?_, ?_, ?_, ?_⟩ <;> decide

/-- C9, as the code has it (roster join): whatever order the database returns the
matched records in and whatever instant `nextDay d` the server's calendar puts one day
after `d`, for an existing class and a date instant `d` such that every Attendance
record of the class dated within `[d, nextDay d)` references an existing student, the
handler succeeds and returns one entry per element of the populated roster, in roster
order, each carrying the student's fields; the `_id`s of the entries are the
references of `c.students` that resolve to a student (all of `c.students` when every
reference resolves).  The `attendance` field of an entry is an Attendance record of
that student for the class dated within `[d, nextDay d)` whenever it is not null, it
is null exactly when the store holds no such record, and it is that record when the
store holds exactly one. -/
theorem getForClassAndDate_roster_join (findOrder : List Attendance → List Attendance)
    (nextDay : Int → Int) (st : Store) (classId : ObjectId) (d : Int)
    (classDoc : Class) (horder : ∀ l, (findOrder l).Perm l)
    (hc : findClassById st classId = some classDoc)
    (hpop : ∀ r ∈ st.attendance, r.class_ = classId → d ≤ r.date → r.date < nextDay d →
      (findStudentById st r.student).isSome) :
    ∃ data, getForClassAndDateWith findOrder nextDay st classId (some d) =
        { code := 200, success := true, message := "", data := some data } ∧
      data.students.map (fun e => (e._id, e.studentId, e.firstName, e.lastName, e.email)) =
        (populateStudents st classDoc.students).map
          (fun s => (s._id, s.studentId, s.firstName, s.lastName, s.email)) ∧
      data.students.map (fun e => e._id) =
        classDoc.students.filter (fun id => (findStudentById st id).isSome) ∧
      ((∀ id ∈ classDoc.students, (findStudentById st id).isSome) →
        data.students.map (fun e => e._id) = classDoc.students) ∧
      (∀ e ∈ data.students, ∀ a, e.attendance = some a →
        a ∈ st.attendance ∧ a.student = e._id ∧ a.class_ = classId ∧
          d ≤ a.date ∧ a.date < nextDay d) ∧
      (∀ e ∈ data.students, (e.attendance = none ↔
        ∀ r ∈ st.attendance,
          ¬ (r.student = e._id ∧ r.class_ = classId ∧ d ≤ r.date ∧ r.date < nextDay d))) ∧
      (∀ e ∈ data.students, ∀ r,
        st.attendance.filter (fun x => x.student == e._id && x.class_ == classId &&
          decide (d ≤ x.date) && decide (x.date < nextDay d)) = [r] →
        e.attendance = some r) := by
  have hmemo : ∀ r, r ∈ (findOrder (findForClassBetween st classId d (nextDay d))).reverse ↔
      r ∈ st.attendance ∧ r.class_ = classId ∧ d ≤ r.date ∧ r.date < nextDay d := by
    intro r
    rw [List.mem_reverse, (horder _).mem_iff, mem_findForClassBetween]
  have hbuild := buildAttendanceMap_ok st
    (findOrder (findForClassBetween st classId d (nextDay d))) []
    (fun r hr => by
      obtain ⟨h1, h2, h3, h4⟩ := (hmemo r).mp (List.mem_reverse.mpr hr)
      exact hpop r h1 h2 h3 h4)
  have hget : getForClassAndDateWith findOrder nextDay st classId (some d) =
      { code := 200, success := true, message := "",
        data := some
          { class_ := { _id := classDoc._id, className := classDoc.className,
                        classCode := classDoc.classCode, instructor := classDoc.instructor }
            date := some d
            students := (populateStudents st classDoc.students).map (fun student =>
              { _id := student._id
                studentId := student.studentId
                firstName := student.firstName
                lastName := student.lastName
                email := student.email
                attendance :=
                  (findOrder (findForClassBetween st classId d (nextDay d))).reverse.find?
                    (fun r => r.student == student._id) }) } } := by
    simp only [getForClassAndDateWith, getForClassAndDateTryWith, hc, castDate, hbuild,
      mapGet_reverse_map]
  have hids : ((populateStudents st classDoc.students).map (fun student =>
      ({ _id := student._id
         studentId := student.studentId
         firstName := student.firstName
         lastName := student.lastName
         email := student.email
         attendance :=
           (findOrder (findForClassBetween st classId d (nextDay d))).reverse.find?
             (fun r => r.student == student._id) } : RosterEntry))).map (fun e => e._id) =
      classDoc.students.filter (fun id => (findStudentById st id).isSome) := by
    rw [List.map_map, ← populateStudents_ids]
    rfl
  have hsome : ∀ (s : Student) (a : Attendance),
      (findOrder (findForClassBetween st classId d (nextDay d))).reverse.find?
        (fun r => r.student == s._id) = some a →
      a ∈ st.attendance ∧ a.student = s._id ∧ a.class_ = classId ∧
        d ≤ a.date ∧ a.date < nextDay d := by
    intro s a ha
    have hp := List.find?_some ha
    obtain ⟨h1, h2, h3, h4⟩ := (hmemo a).mp (List.mem_of_find?_eq_some ha)
    exact ⟨h1, by simpa using hp, h2, h3, h4⟩
  have hnone : ∀ (s : Student),
      ((findOrder (findForClassBetween st classId d (nextDay d))).reverse.find?
        (fun r => r.student == s._id) = none ↔
      ∀ r ∈ st.attendance,
        ¬ (r.student = s._id ∧ r.class_ = classId ∧ d ≤ r.date ∧ r.date < nextDay d)) := by
    intro s
    rw [List.find?_eq_none]
    constructor
    · intro h r hr hcond
      exact h r ((hmemo r).mpr ⟨hr, hcond.2.1, hcond.2.2.1, hcond.2.2.2⟩)
        (by simpa using hcond.1)
    · intro h r hr hp
      obtain ⟨h1, h2, h3, h4⟩ := (hmemo r).mp hr
      exact h r h1 ⟨by simpa using hp, h2, h3, h4⟩
  refine ⟨_, hget, ?_, hids, ?_, ?_, ?_, ?_⟩
  · rw [List.map_map]
    rfl
  · intro hall
    rw [hids, List.filter_eq_self]
    exact hall
  · intro e he a ha
    obtain ⟨s, -, rfl⟩ := List.mem_map.mp he
    exact hsome s a ha
  · intro e he
    obtain ⟨s, -, rfl⟩ := List.mem_map.mp he
    exact hnone s
  · intro e he r hr
    obtain ⟨s, -, rfl⟩ := List.mem_map.mp he
    simp only at hr ⊢
    have hrmem : r ∈ st.attendance.filter (fun x => x.student == s._id && x.class_ == classId &&
        decide (d ≤ x.date) && decide (x.date < nextDay d)) := by
      rw [hr]; exact List.mem_singleton_self r
    have hrc : r ∈ st.attendance ∧
        (r.student = s._id ∧ r.class_ = classId ∧ d ≤ r.date ∧ r.date < nextDay d) := by
      simpa [and_assoc] using hrmem
    cases hf : (findOrder (findForClassBetween st classId d (nextDay d))).reverse.find?
        (fun r => r.student == s._id) with
    | none => exact absurd hrc.2 ((hnone s).mp hf r hrc.1)
    | some a =>
      obtain ⟨h1, h2, h3, h4, h5⟩ := hsome s a hf
      have hamem : a ∈ st.attendance.filter (fun x => x.student == s._id &&
          x.class_ == classId && decide (d ≤ x.date) && decide (x.date < nextDay d)) := by
        simp [h1, h2, h3, h4, h5]
      rw [hr] at hamem
      rw [List.mem_singleton.mp hamem]

/-- Witness of the amended C9, the example of the specification, with the matches
returned in collection order and days of 24 hours: three students on the roster and
one record give three entries, the first populated and the other two null. -/
theorem getForClassAndDate_roster_join_witness :
    ∃ data, getForClassAndDate rosterStore 10 (some dayStart) =
        { code := 200, success := true, message := "", data := some data } ∧
      data.students.map (fun e => (e._id, e.attendance.map (fun a => a.status))) =
        [(1, some "present"), (2, none), (4, none)] := by
  obtain ⟨data, h1, -⟩ := getForClassAndDate_roster_join (fun l => l) (fun d => d + dayMs)
    rosterStore 10 dayStart { mathClass with students := [1, 2, 4] }
    (fun l => List.Perm.refl l) (by decide) (by decide)
  refine ⟨data, h1, ?_⟩
  have h2 : getForClassAndDate rosterStore 10 (some dayStart) =
      { code := 200, success := true, message := "", data := some data } := h1
  have h3 : (getForClassAndDate rosterStore 10 (some dayStart)).data.map
      (fun x => x.students.map (fun e => (e._id, e.attendance.map (fun a => a.status)))) =
      some [(1, some "present"), (2, none), (4, none)] := by decide
  rw [h2] at h3
  simpa using h3

theorem find?_class_map_update (l : List Class) (id : ObjectId) (doc : Class)
    (hdoc : doc._id = id) (hex : ∃ c ∈ l, c._id = id) :
    (l.map (fun c => if c._id = id then doc else c)).find? (fun c => c._id == id) = some doc := by
  induction l with
  | nil => simp at hex
  | cons a t ih =>
    by_cases ha : a._id = id
    · simp [ha, hdoc]
    · have : ∃ c ∈ t, c._id = id := by
        obtain ⟨c, hc, hid⟩ := hex
        rcases List.mem_cons.mp hc with h | h
        · subst h; exact absurd hid ha
        · exact ⟨c, h, hid⟩
      simp [ha, ih this]

/-- C10 (capacity check of `POST /api/students/:id/enroll`): for an existing
student and an existing class that is not among the student's classes, the call
answers 400 'Class is at maximum capacity' and leaves the store unchanged when the
roster length equals `maxStudents`; when the roster length is below `maxStudents`
it answers with success and the class then has the student appended to its roster,
so the roster is longer by exactly one. -/
theorem enroll_capacity_check (st : Store) (id classId : ObjectId) (student : Student)
    (classDoc : Class) (hs : findStudentById st id = some student)
    (hc : findClassById st classId = some classDoc) (hne : classId ∉ student.classes) :
    ((classDoc.students.length : Int) = classDoc.maxStudents →
      enroll st id classId =
        (st, { code := 400, success := false, message := "Class is at maximum capacity" })) ∧
    ((classDoc.students.length : Int) < classDoc.maxStudents →
      (enroll st id classId).2 =
        { code := 200, success := true, message := "Student enrolled successfully" } ∧
      ∃ classDoc1, findClassById (enroll st id classId).1 classId = some classDoc1 ∧
        classDoc1.students = classDoc.students ++ [id] ∧
        classDoc1.students.length = classDoc.students.length + 1) := by
  constructor
  · intro hfull
    have hge : (classDoc.students.length : Int) ≥ classDoc.maxStudents := le_of_eq hfull.symm
    simp [enroll, hs, hc, hne, hge]
  · intro hlt
    have hge : ¬ (classDoc.students.length : Int) ≥ classDoc.maxStudents := not_le.mpr hlt
    have hcid := findClassById_id hc
    have hsid := findStudentById_id hs
    have hmem : classDoc ∈ st.classes := by
      unfold findClassById at hc
      exact List.mem_of_find?_eq_some hc
    subst hcid
    subst hsid
    have hfind := find?_class_map_update st.classes classDoc._id
      { classDoc with students := classDoc.students ++ [student._id] } rfl ⟨classDoc, hmem, rfl⟩
    have henroll : enroll st student._id classDoc._id =
        ({ st with
           students := st.students.map (fun s =>
             if s._id = student._id then
               { student with classes := student.classes ++ [classDoc._id] }
             else s)
           classes := st.classes.map (fun c =>
             if c._id = classDoc._id then
               { classDoc with students := classDoc.students ++ [student._id] }
             else c) },
         { code := 200, success := true, message := "Student enrolled successfully" }) := by
      simp only [enroll, hs, hc, hne, hge, if_false]
    rw [henroll]
    exact ⟨rfl, { classDoc with students := classDoc.students ++ [student._id] }, hfind, rfl,
      by simp⟩

/-- Witness of C10: `bob` is enrolled in neither class; `tinyClass` is full
(1 of 1) and `mathClass` has room (1 of 30). -/
theorem enroll_capacity_check_witness :
    enroll sampleStore 2 11 =
      (sampleStore,
        { code := 400, success := false, message := "Class is at maximum capacity" }) ∧
    ((enroll sampleStore 2 10).2 =
        { code := 200, success := true, message := "Student enrolled successfully" } ∧
      ∃ classDoc1, findClassById (enroll sampleStore 2 10).1 10 = some classDoc1 ∧
        classDoc1.students = mathClass.students ++ [2] ∧
        classDoc1.students.length = mathClass.students.length + 1) :=
  ⟨(enroll_capacity_check sampleStore 2 11 bob tinyClass (by decide) (by decide)
      (by decide)).1 (by decide),
   (enroll_capacity_check sampleStore 2 10 bob mathClass (by decide) (by decide)
      (by decide)).2 (by decide)⟩

/-! ## Enrollment, deletion and summary -/

theorem find?_map_keep {α : Type} (getId : α → ObjectId) (g : α → α)
    (hg : ∀ x, getId (g x) = getId x) (l : List α) (k : ObjectId) :
    (l.map g).find? (fun x => getId x == k) = (l.find? (fun x => getId x == k)).map g := by
  rw [List.find?_map]
  have : ((fun x => getId x == k) ∘ g) = (fun x => getId x == k) := by
    funext x
    simp [Function.comp, hg]
  rw [this]

theorem filter_map_other {α : Type} (p : α → Bool) (g : α → α)
    (hg1 : ∀ x, p (g x) = p x) (hg2 : ∀ x, p x = true → g x = x) (l : List α) :
    (l.map g).filter p = l.filter p := by
  induction l with
  | nil => rfl
  | cons a t ih =>
    cases h : p a with
    | true => simp [List.filter_cons, hg1, h, hg2 a h, ih]
    | false => simp [List.filter_cons, hg1, h, ih]

theorem mem_addToSet {l : List ObjectId} {x y : ObjectId} :
    x ∈ addToSet l y ↔ x ∈ l ∨ x = y := by
  unfold addToSet
  by_cases h : y ∈ l
  · simp only [h, if_true]
    constructor
    · exact Or.inl
    · rintro (h1 | h1)
      · exact h1
      · exact h1 ▸ h
  · simp [h]

theorem addToSet_of_mem {l : List ObjectId} {y : ObjectId} (h : y ∈ l) : addToSet l y = l := by
  simp [addToSet, h]

theorem mem_pull {l : List ObjectId} {x y : ObjectId} : x ∈ pull l y ↔ x ∈ l ∧ x ≠ y := by
  simp [pull]

theorem pull_of_not_mem {l : List ObjectId} {y : ObjectId} (h : y ∉ l) : pull l y = l := by
  unfold pull
  rw [List.filter_eq_self]
  intro a ha
  have : a ≠ y := fun e => h (e ▸ ha)
  simpa using this

theorem classEnroll_ok {st : Store} {id classId : ObjectId} {student : Student}
    {classDoc : Class} (hs : findStudentById st id = some student)
    (hc : findClassById st classId = some classDoc) :
    classEnroll st classId id =
      ({ st with
         classes := st.classes.map (fun c =>
           if c._id = classId then { c with students := addToSet c.students id } else c)
         students := st.students.map (fun s =>
           if s._id = id then { s with classes := addToSet s.classes classId } else s) },
       { code := 200, success := true, message := "Student enrolled in class successfully" }) := by
  simp only [classEnroll, hs, hc]

theorem enroll_ok {st : Store} {id classId : ObjectId} {student : Student}
    {classDoc : Class} (hs : findStudentById st id = some student)
    (hc : findClassById st classId = some classDoc) (hne : classId ∉ student.classes)
    (hcap : (classDoc.students.length : Int) < classDoc.maxStudents) :
    enroll st id classId =
      ({ st with
         students := st.students.map (fun s =>
           if s._id = student._id then
             { student with classes := student.classes ++ [classId] }
           else s)
         classes := st.classes.map (fun c =>
           if c._id = classDoc._id then
             { classDoc with students := classDoc.students ++ [student._id] }
           else c) },
       { code := 200, success := true, message := "Student enrolled successfully" }) := by
  have hge : ¬ (classDoc.students.length : Int) ≥ classDoc.maxStudents := not_le.mpr hcap
  simp only [enroll, hs, hc, hne, hge, if_false]

theorem findClassById_map {st : Store} (g : Class → Class) (hg : ∀ x, (g x)._id = x._id)
    (students : List Student) (k : ObjectId) :
    findClassById { st with classes := st.classes.map g, students := students } k =
      (findClassById st k).map g :=
  find?_map_keep (fun c : Class => c._id) g hg st.classes k

theorem findStudentById_map {st : Store} (g : Student → Student) (hg : ∀ x, (g x)._id = x._id)
    (classes : List Class) (k : ObjectId) :
    findStudentById { st with students := st.students.map g, classes := classes } k =
      (findStudentById st k).map g :=
  find?_map_keep (fun s : Student => s._id) g hg st.students k

theorem sampleStore_withinCapacity : WithinCapacity sampleStore := by
  unfold WithinCapacity
  decide

/-- The students-route enrollment, which checks the capacity, keeps every class
within its capacity. -/
theorem enroll_withinCapacity (st : Store) (id classId : ObjectId)
    (hcap : WithinCapacity st) : WithinCapacity (enroll st id classId).1 := by
  cases hs : findStudentById st id with
  | none => simp only [enroll, hs]; exact hcap
  | some student =>
    cases hc : findClassById st classId with
    | none => simp only [enroll, hs, hc]; exact hcap
    | some classDoc =>
      by_cases hmem : classId ∈ student.classes
      · simp only [enroll, hs, hc, hmem, if_true]; exact hcap
      · by_cases hfull : (classDoc.students.length : Int) ≥ classDoc.maxStudents
        · simp only [enroll, hs, hc, hmem, hfull, if_true, if_false]; exact hcap
        · rw [enroll_ok hs hc hmem (not_le.mp hfull)]
          intro c1 hc1
          obtain ⟨c0, hc0, rfl⟩ := List.mem_map.mp hc1
          by_cases he : c0._id = classDoc._id
          · simp only [he, if_true, List.length_append, List.length_singleton]
            push_cast
            have := not_le.mp hfull
            omega
          · simp only [he, if_false]
            exact hcap c0 hc0

/-- C11 (capacity invariant), evaluated on the code: in `sampleStore` every class
is within its capacity and `tinyClass` is full (1 of 1).  `POST
/api/classes/11/enroll` for `bob` succeeds and leaves `tinyClass` with two students,
and `createStudent` with `classId` 11 leaves it with two students as well: neither
handler compares the roster length with `maxStudents`, which the students-route
enrollment does (`enroll_withinCapacity`). -/
theorem capacity_exceeded_by_unchecked_enrollment :
    WithinCapacity sampleStore ∧
    (classEnroll sampleStore 11 2).2.success = true ∧
    (findClassById (classEnroll sampleStore 11 2).1 11).map
      (fun c => (c.students, c.maxStudents)) = some ([1, 2], 1) ∧
    ¬ WithinCapacity (classEnroll sampleStore 11 2).1 ∧
    (createStudent sampleStore daveData).2.code = 201 ∧
    (findClassById (createStudent sampleStore daveData).1 11).map
      (fun c => (c.students, c.maxStudents)) = some ([1, 3], 1) ∧
    ¬ WithinCapacity (createStudent sampleStore daveData).1 := by
  refine ⟨sampleStore_withinCapacity, by decide, by decide, ?_, by decide, by decide, ?_⟩
  · unfold WithinCapacity
    decide
  · unfold WithinCapacity
    decide

/-- C12 fails as stated for the classes router: `alice` is on the roster of
`mathClass` and holds it among her classes, yet `POST /api/classes/10/enroll` for her
answers 200 'Student enrolled in class successfully', not an already-enrolled
error. -/
theorem classEnroll_already_member_counterexample :
    findStudentById sampleStore 1 = some alice ∧
    findClassById sampleStore 10 = some mathClass ∧
    1 ∈ mathClass.students ∧ 10 ∈ alice.classes ∧
    classEnroll sampleStore 10 1 =
      (sampleStore,
        { code := 200, success := true, message := "Student enrolled in class successfully" }) := by
  refine ⟨?_, ?_, ?_, ?_, ?_⟩ <;> decide

/-- C12, as the code has it: for an existing student and an existing class, the
students-route enrollment answers 400 'Student already enrolled in this class' and
leaves the store unchanged when the class is among the student's classes; the
classes-route enrollment uses `$addToSet` and answers with success, leaving the class
document unchanged when the student is already on its roster and the student
document unchanged when the class is already among the student's classes. -/
theorem enroll_already_member (st : Store) (id classId : ObjectId) (student : Student)
    (classDoc : Class) (hs : findStudentById st id = some student)
    (hc : findClassById st classId = some classDoc) :
    (classId ∈ student.classes →
      enroll st id classId =
        (st, { code := 400, success := false,
               message := "Student already enrolled in this class" })) ∧
    (classEnroll st classId id).2 =
      { code := 200, success := true, message := "Student enrolled in class successfully" } ∧
    (id ∈ classDoc.students →
      findClassById (classEnroll st classId id).1 classId = some classDoc) ∧
    (classId ∈ student.classes →
      findStudentById (classEnroll st classId id).1 id = some student) := by
  have hcid := findClassById_id hc
  have hsid := findStudentById_id hs
  subst hcid
  subst hsid
  refine ⟨?_, ?_, ?_, ?_⟩
  · intro hmem
    simp [enroll, hs, hc, hmem]
  · simp [classEnroll, hs, hc]
  · intro hmem
    rw [classEnroll_ok hs hc]
    simp only
    rw [findClassById_map _ (by intro x; by_cases h : x._id = classDoc._id <;> simp [h]), hc]
    simp [addToSet_of_mem hmem]
  · intro hmem
    rw [classEnroll_ok hs hc]
    simp only
    rw [findStudentById_map _ (by intro x; by_cases h : x._id = student._id <;> simp [h]), hs]
    simp [addToSet_of_mem hmem]

/-- Witness of the amended C12 on `sampleStore`, with `alice` and `mathClass`. -/
theorem enroll_already_member_witness :
    enroll sampleStore 1 10 =
      (sampleStore, { code := 400, success := false,
                      message := "Student already enrolled in this class" }) ∧
    findClassById (classEnroll sampleStore 10 1).1 10 = some mathClass ∧
    findStudentById (classEnroll sampleStore 10 1).1 1 = some alice :=
  ⟨(enroll_already_member sampleStore 1 10 alice mathClass (by decide) (by decide)).1
      (by decide),
   (enroll_already_member sampleStore 1 10 alice mathClass (by decide) (by decide)).2.2.1
      (by decide),
   (enroll_already_member sampleStore 1 10 alice mathClass (by decide) (by decide)).2.2.2
      (by decide)⟩

/-- C13 (enroll not-found handling): when the student or the class does not
resolve, both enrollment endpoints answer 404 and return the store unchanged.  The
students router answers 'Student or class not found'; the classes router answers
'Class not found' when the class is missing and 'Student not found' when the class
exists and the student is missing. -/
theorem enroll_not_found (st : Store) (id classId : ObjectId) :
    ((findStudentById st id = none ∨ findClassById st classId = none) →
      enroll st id classId =
        (st, { code := 404, success := false, message := "Student or class not found" })) ∧
    ((findStudentById st id = none ∨ findClassById st classId = none) →
      (classEnroll st classId id).1 = st ∧ (classEnroll st classId id).2.code = 404 ∧
      (classEnroll st classId id).2.success = false) ∧
    (findClassById st classId = none →
      classEnroll st classId id =
        (st, { code := 404, success := false, message := "Class not found" })) ∧
    (∀ classDoc, findClassById st classId = some classDoc → findStudentById st id = none →
      classEnroll st classId id =
        (st, { code := 404, success := false, message := "Student not found" })) := by
  refine ⟨?_, ?_, ?_, ?_⟩
  · rintro (h | h)
    · simp [enroll, h]
    · cases hs : findStudentById st id <;> simp [enroll, h, hs]
  · rintro (h | h)
    · cases hc : findClassById st classId <;> simp [classEnroll, h, hc]
    · simp [classEnroll, h]
  · intro h
    simp [classEnroll, h]
  · intro classDoc hc hs
    simp [classEnroll, hc, hs]

/-- Witness of C13: student 77 and class 99 do not exist in `sampleStore`. -/
theorem enroll_not_found_witness :
    enroll sampleStore 77 10 =
      (sampleStore, { code := 404, success := false, message := "Student or class not found" }) ∧
    classEnroll sampleStore 99 1 =
      (sampleStore, { code := 404, success := false, message := "Class not found" }) ∧
    classEnroll sampleStore 10 77 =
      (sampleStore, { code := 404, success := false, message := "Student not found" }) :=
  ⟨(enroll_not_found sampleStore 77 10).1 (Or.inl (by decide)),
   (enroll_not_found sampleStore 1 99).2.2.1 (by decide),
   (enroll_not_found sampleStore 77 10).2.2.2 mathClass (by decide) (by decide)⟩

/-- C18 (deletion keeps attendance history): whatever the store and the id,
`DELETE /api/students/:id` and `DELETE /api/classes/:id` return a store whose
Attendance collection is the one they were given, records that reference the
deleted document included. -/
theorem delete_keeps_attendance (st : Store) (id : ObjectId) :
    (deleteStudent st id).1.attendance = st.attendance ∧
    (deleteClass st id).1.attendance = st.attendance := by
  constructor
  · unfold deleteStudent
    cases findStudentById st id <;> rfl
  · unfold deleteClass
    cases findClassById st id <;> rfl

/-- C20 (summary class filter), evaluated on the code: whenever a `classId` is
passed, building `matchQuery` throws (the identifier `mongoose` is not imported in
`routes/attendance.js`) and the handler answers 500 'Error generating attendance
summary' instead of the counts; in `markedStore` class 10 has one record, which
the summary without `classId` counts. -/
theorem summarize_classId_throws :
    (∀ (st : Store) (classId : ObjectId) (startDate endDate : Option Int),
      summarize st (some classId) startDate endDate =
        { code := 500, success := false, message := "Error generating attendance summary",
          error := some .referenceError }) ∧
    (markedStore.attendance.filter (fun r => r.class_ == 10)).length = 1 ∧
    (summarize markedStore (some 10) none none).data = none ∧
    (summarize markedStore none none none).data =
      some { total := 1, present := 1, absent := 0, late := 0, excused := 0 } := by
  refine ⟨?_, by decide, by decide, by decide⟩
  intro st classId startDate endDate
  simp [summarize, summarizeTry, summaryMatchQuery, mongooseTypesObjectId]


/-- C14 (mirror after enroll): whenever an enrollment endpoint answers with success,
the student found under `id` afterwards holds `classId` among its classes, the class
found under `classId` holds `id` on its roster, and the other students, the other
classes and the Attendance records are exactly as before.  This holds for `POST
/api/students/:id/enroll` and for `POST /api/classes/:id/enroll`. -/
theorem mirror_after_enroll (st : Store) (id classId : ObjectId) :
    ((enroll st id classId).2.success = true →
      EnrollPost st (enroll st id classId).1 id classId) ∧
    ((classEnroll st classId id).2.success = true →
      EnrollPost st (classEnroll st classId id).1 id classId) := by
  constructor
  · intro hsucc
    cases hs : findStudentById st id with
    | none => simp [enroll, hs] at hsucc
    | some student =>
      cases hc : findClassById st classId with
      | none => simp [enroll, hs, hc] at hsucc
      | some classDoc =>
        by_cases hmem : classId ∈ student.classes
        · simp [enroll, hs, hc, hmem] at hsucc
        · by_cases hcap : (classDoc.students.length : Int) ≥ classDoc.maxStudents
          · simp [enroll, hs, hc, hmem, hcap] at hsucc
          · have hcid := findClassById_id hc
            have hsid := findStudentById_id hs
            subst hcid
            subst hsid
            rw [enroll_ok hs hc hmem (not_le.mp hcap)]
            refine ⟨⟨{ student with classes := student.classes ++ [classDoc._id] },
              { classDoc with students := classDoc.students ++ [student._id] }, ?_, ?_,
              by simp, by simp⟩, ?_, ?_, rfl⟩
            · have := @findStudentById_map st
                (fun s => if s._id = student._id then
                  { student with classes := student.classes ++ [classDoc._id] } else s)
                (by intro x; by_cases h : x._id = student._id <;> simp [h])
                (st.classes.map (fun c => if c._id = classDoc._id then
                  { classDoc with students := classDoc.students ++ [student._id] } else c))
                student._id
              rw [hs] at this
              simpa using this
            · have := @findClassById_map st
                (fun c => if c._id = classDoc._id then
                  { classDoc with students := classDoc.students ++ [student._id] } else c)
                (by intro x; by_cases h : x._id = classDoc._id <;> simp [h])
                (st.students.map (fun s => if s._id = student._id then
                  { student with classes := student.classes ++ [classDoc._id] } else s))
                classDoc._id
              rw [hc] at this
              simpa using this
            · exact filter_map_other _ _
                (by intro x; by_cases h : x._id = student._id <;> simp [h])
                (by intro x hx; have : x._id ≠ student._id := by simpa using hx
                    simp [this]) st.students
            · exact filter_map_other _ _
                (by intro x; by_cases h : x._id = classDoc._id <;> simp [h])
                (by intro x hx; have : x._id ≠ classDoc._id := by simpa using hx
                    simp [this]) st.classes
  · intro hsucc
    cases hc : findClassById st classId with
    | none => simp [classEnroll, hc] at hsucc
    | some classDoc =>
      cases hs : findStudentById st id with
      | none => simp [classEnroll, hs, hc] at hsucc
      | some student =>
        have hcid := findClassById_id hc
        have hsid := findStudentById_id hs
        subst hcid
        subst hsid
        rw [classEnroll_ok hs hc]
        refine ⟨⟨{ student with classes := addToSet student.classes classDoc._id },
          { classDoc with students := addToSet classDoc.students student._id }, ?_, ?_,
          mem_addToSet.mpr (Or.inr rfl), mem_addToSet.mpr (Or.inr rfl)⟩, ?_, ?_, rfl⟩
        · have := @findStudentById_map st
            (fun s => if s._id = student._id then
              { s with classes := addToSet s.classes classDoc._id } else s)
            (by intro x; by_cases h : x._id = student._id <;> simp [h])
            (st.classes.map (fun c => if c._id = classDoc._id then
              { c with students := addToSet c.students student._id } else c))
            student._id
          rw [hs] at this
          simpa using this
        · have := @findClassById_map st
            (fun c => if c._id = classDoc._id then
              { c with students := addToSet c.students student._id } else c)
            (by intro x; by_cases h : x._id = classDoc._id <;> simp [h])
            (st.students.map (fun s => if s._id = student._id then
              { s with classes := addToSet s.classes classDoc._id } else s))
            classDoc._id
          rw [hc] at this
          simpa using this
        · exact filter_map_other _ _
            (by intro x; by_cases h : x._id = student._id <;> simp [h])
            (by intro x hx; have : x._id ≠ student._id := by simpa using hx
                simp [this]) st.students
        · exact filter_map_other _ _
            (by intro x; by_cases h : x._id = classDoc._id <;> simp [h])
            (by intro x hx; have : x._id ≠ classDoc._id := by simpa using hx
                simp [this]) st.classes

/-- Witness of C14: enrolling `bob` in `mathClass` through either endpoint. -/
theorem mirror_after_enroll_witness :
    EnrollPost sampleStore (enroll sampleStore 2 10).1 2 10 ∧
    EnrollPost sampleStore (classEnroll sampleStore 10 2).1 2 10 :=
  ⟨(mirror_after_enroll sampleStore 2 10).1 (by decide),
   (mirror_after_enroll sampleStore 2 10).2 (by decide)⟩

theorem eraseP_eq_filter_of_nodup {α : Type} (getId : α → ObjectId) (l : List α)
    (h : (l.map getId).Nodup) (k : ObjectId) :
    l.eraseP (fun x => getId x == k) = l.filter (fun x => getId x != k) := by
  induction l with
  | nil => rfl
  | cons a t ih =>
    rw [List.map_cons, List.nodup_cons] at h
    by_cases ha : getId a = k
    · have ht : t.filter (fun x => getId x != k) = t := by
        rw [List.filter_eq_self]
        intro x hx
        have : getId x ≠ k := by
          intro e
          exact h.1 (ha ▸ e ▸ List.mem_map_of_mem getId hx)
        simpa using this
      simp [List.eraseP_cons, List.filter_cons, ha, ht]
    · simp [List.eraseP_cons, List.filter_cons, ha, ih h.2]

theorem student_with_classes_self (s : Student) : { s with classes := s.classes } = s := by
  cases s; rfl

theorem class_with_students_self (c : Class) : { c with students := c.students } = c := by
  cases c; rfl

/-- C15 (cascade on class delete): on a store whose class `_id`s are unique, when
the class exists `DELETE /api/classes/:id` answers with success, the class is no
longer found, the Class collection is the old one without that document, and every
student keeps exactly the class references other than `id` (so `id` occurs in no
student's classes); when the class does not exist it answers 404 'Class not found'
and the store is unchanged. -/
theorem deleteClass_cascade (st : Store) (id : ObjectId) (huniq : ClassIdsUnique st) :
    (∀ classDoc, findClassById st id = some classDoc →
      (deleteClass st id).2 =
        { code := 200, success := true, message := "Class deleted successfully" } ∧
      findClassById (deleteClass st id).1 id = none ∧
      (deleteClass st id).1.classes = st.classes.filter (fun c => c._id != id) ∧
      (deleteClass st id).1.students =
        st.students.map (fun s => { s with classes := s.classes.filter (fun x => x != id) }) ∧
      (∀ s ∈ (deleteClass st id).1.students, id ∉ s.classes)) ∧
    (findClassById st id = none →
      deleteClass st id =
        (st, { code := 404, success := false, message := "Class not found" })) := by
  constructor
  · intro classDoc hc
    have hcid := findClassById_id hc
    subst hcid
    have herase := eraseP_eq_filter_of_nodup (fun c : Class => c._id) st.classes huniq
      classDoc._id
    have hstudents : st.students.map (fun s =>
        if classDoc._id ∈ s.classes then { s with classes := pull s.classes classDoc._id }
        else s) =
        st.students.map (fun s =>
          { s with classes := s.classes.filter (fun x => x != classDoc._id) }) := by
      apply List.map_congr_left
      intro s _
      by_cases h : classDoc._id ∈ s.classes
      · simp [h, pull]
      · have := pull_of_not_mem h
        unfold pull at this
        simp only [h, if_false, this]
    have hdel : deleteClass st classDoc._id =
        ({ st with
           classes := st.classes.eraseP (fun c => c._id == classDoc._id)
           students := st.students.map (fun s =>
             if classDoc._id ∈ s.classes then
               { s with classes := pull s.classes classDoc._id }
             else s) },
         { code := 200, success := true, message := "Class deleted successfully" }) := by
      simp only [deleteClass, hc]
    rw [hdel]
    refine ⟨rfl, ?_, herase, hstudents, ?_⟩
    · simp only [findClassById, herase]
      rw [List.find?_eq_none]
      intro x hx
      simpa using (List.mem_filter.mp hx).2
    · simp only [hstudents]
      intro s hs
      obtain ⟨s0, -, rfl⟩ := List.mem_map.mp hs
      simp
  · intro hc
    simp [deleteClass, hc]

/-- Witness of C15: deleting `mathClass` from `sampleStore`, and deleting class 99,
which does not exist. -/
theorem deleteClass_cascade_witness :
    (findClassById (deleteClass sampleStore 10).1 10 = none ∧
      (∀ s ∈ (deleteClass sampleStore 10).1.students, 10 ∉ s.classes)) ∧
    deleteClass sampleStore 99 =
      (sampleStore, { code := 404, success := false, message := "Class not found" }) :=
  ⟨⟨((deleteClass_cascade sampleStore 10 (by unfold ClassIdsUnique; decide)).1 mathClass
        (by decide)).2.1,
    ((deleteClass_cascade sampleStore 10 (by unfold ClassIdsUnique; decide)).1 mathClass
        (by decide)).2.2.2.2⟩,
   (deleteClass_cascade sampleStore 99 (by unfold ClassIdsUnique; decide)).2 (by decide)⟩

/-- C16 (cascade on student delete): on a store whose student `_id`s are unique,
when the student exists `DELETE /api/students/:id` answers with success, the
student is no longer found, the Student collection is the old one without that
document, and every class keeps exactly the roster members other than `id` (so
`id` occurs on no roster); when the student does not exist it answers 404 'Student
not found' and the store is unchanged. -/
theorem deleteStudent_cascade (st : Store) (id : ObjectId) (huniq : StudentIdsUnique st) :
    (∀ student, findStudentById st id = some student →
      (deleteStudent st id).2 =
        { code := 200, success := true, message := "Student deleted successfully" } ∧
      findStudentById (deleteStudent st id).1 id = none ∧
      (deleteStudent st id).1.students = st.students.filter (fun s => s._id != id) ∧
      (deleteStudent st id).1.classes =
        st.classes.map (fun c => { c with students := c.students.filter (fun x => x != id) }) ∧
      (∀ c ∈ (deleteStudent st id).1.classes, id ∉ c.students)) ∧
    (findStudentById st id = none →
      deleteStudent st id =
        (st, { code := 404, success := false, message := "Student not found" })) := by
  constructor
  · intro student hs
    have hsid := findStudentById_id hs
    subst hsid
    have herase := eraseP_eq_filter_of_nodup (fun s : Student => s._id) st.students huniq
      student._id
    have hclasses : st.classes.map (fun c =>
        if student._id ∈ c.students then { c with students := pull c.students student._id }
        else c) =
        st.classes.map (fun c =>
          { c with students := c.students.filter (fun x => x != student._id) }) := by
      apply List.map_congr_left
      intro c _
      by_cases h : student._id ∈ c.students
      · simp [h, pull]
      · have := pull_of_not_mem h
        unfold pull at this
        simp only [h, if_false, this]
    have hdel : deleteStudent st student._id =
        ({ st with
           students := st.students.eraseP (fun s => s._id == student._id)
           classes := st.classes.map (fun c =>
             if student._id ∈ c.students then
               { c with students := pull c.students student._id }
             else c) },
         { code := 200, success := true, message := "Student deleted successfully" }) := by
      simp only [deleteStudent, hs]
    rw [hdel]
    refine ⟨rfl, ?_, herase, hclasses, ?_⟩
    · simp only [findStudentById, herase]
      rw [List.find?_eq_none]
      intro x hx
      simpa using (List.mem_filter.mp hx).2
    · simp only [hclasses]
      intro c hc
      obtain ⟨c0, -, rfl⟩ := List.mem_map.mp hc
      simp
  · intro hs
    simp [deleteStudent, hs]

/-- Witness of C16: deleting `alice` from `sampleStore`, and deleting student 77,
who does not exist. -/
theorem deleteStudent_cascade_witness :
    (findStudentById (deleteStudent sampleStore 1).1 1 = none ∧
      (∀ c ∈ (deleteStudent sampleStore 1).1.classes, 1 ∉ c.students)) ∧
    deleteStudent sampleStore 77 =
      (sampleStore, { code := 404, success := false, message := "Student not found" }) :=
  ⟨⟨((deleteStudent_cascade sampleStore 1 (by unfold StudentIdsUnique; decide)).1 alice
        (by decide)).2.1,
    ((deleteStudent_cascade sampleStore 1 (by unfold StudentIdsUnique; decide)).1 alice
        (by decide)).2.2.2.2⟩,
   (deleteStudent_cascade sampleStore 77 (by unfold StudentIdsUnique; decide)).2 (by decide)⟩


theorem foldl_count_eq (g : List StatusCount) (a : Nat) :
    g.foldl (fun total item => total + item.count) a = a + (g.map (fun item => item.count)).sum := by
  induction g generalizing a with
  | nil => simp
  | cons h t ih => simp [List.foldl_cons, ih, Nat.add_assoc]

theorem sum_groupIncr (g : List StatusCount) (status : String) :
    ((groupIncr g status).map (fun item => item.count)).sum =
      (g.map (fun item => item.count)).sum + 1 := by
  induction g with
  | nil => simp [groupIncr]
  | cons h t ih =>
    by_cases hk : h._id = status
    · simp [groupIncr, hk]; omega
    · simp [groupIncr, hk, ih]; omega

theorem countOf_groupIncr (g : List StatusCount) (status s : String) :
    countOf (groupIncr g status) s = countOf g s + (if status = s then 1 else 0) := by
  induction g with
  | nil =>
    by_cases hs : status = s <;> simp [groupIncr, countOf, hs]
  | cons h t ih =>
    by_cases hk : h._id = status
    · by_cases hs : status = s
      · simp [groupIncr, countOf, hk, hs]
      · have : h._id ≠ s := fun e => hs (hk ▸ e)
        simp [groupIncr, countOf, hk, hs]
    · by_cases hh : h._id = s
      · have hs : status ≠ s := fun e => hk (e ▸ hh)
        have hs1 : ¬ s = status := fun e => hs e.symm
        simp [groupIncr, countOf, hh, hs, hs1]
      · unfold countOf at ih
        simp [groupIncr, countOf, hk, hh, ih]

theorem groupStage_fold (s : String) :
    ∀ (records : List Attendance) (g : List StatusCount),
      countOf (records.foldl (fun groups r => groupIncr groups r.status) g) s =
        countOf g s + records.countP (fun r => r.status == s) ∧
      ((records.foldl (fun groups r => groupIncr groups r.status) g).map
          (fun item => item.count)).sum =
        (g.map (fun item => item.count)).sum + records.length := by
  intro records
  induction records with
  | nil => intro g; simp
  | cons a t ih =>
    intro g
    obtain ⟨ih1, ih2⟩ := ih (groupIncr g a.status)
    simp only [List.foldl_cons]
    rw [ih1, ih2, countOf_groupIncr, sum_groupIncr]
    constructor
    · by_cases h : a.status = s
      · simp [List.countP_cons, h]; omega
      · simp [List.countP_cons, h]
    · simp; omega

theorem matchStage_no_filter (records : List Attendance) :
    matchStage { class_ := none, date := none } records = records := by
  simp [matchStage]

theorem length_eq_sum_countP (l : List Attendance) (h : ∀ r ∈ l, r.status ∈ statusEnum) :
    l.length = l.countP (fun r => r.status == "present") +
      l.countP (fun r => r.status == "absent") + l.countP (fun r => r.status == "late") +
      l.countP (fun r => r.status == "excused") := by
  induction l with
  | nil => rfl
  | cons a t ih =>
    have iht := ih (fun r hr => h r (List.mem_cons_of_mem a hr))
    have ha := h a (List.mem_cons_self a t)
    simp only [statusEnum, List.mem_cons, List.mem_singleton, List.mem_nil_iff, or_false] at ha
    rcases ha with ha | ha | ha | ha <;> simp [List.countP_cons, ha] <;> omega

/-- C19 (summary completeness): without filter the summary handler answers with an
object holding all five keys; `total` is the number of Attendance records and each
status key is the number of records with that status (0 when there is none).  When
every record's status is one of present, absent, late, excused (which the schema
enforces), `total = present + absent + late + excused`. -/
theorem summarize_no_filter (st : Store) :
    ∃ d, summarize st none none none =
        { code := 200, success := true, message := "", data := some d } ∧
      d.total = st.attendance.length ∧
      d.present = st.attendance.countP (fun r => r.status == "present") ∧
      d.absent = st.attendance.countP (fun r => r.status == "absent") ∧
      d.late = st.attendance.countP (fun r => r.status == "late") ∧
      d.excused = st.attendance.countP (fun r => r.status == "excused") ∧
      ((∀ r ∈ st.attendance, r.status ∈ statusEnum) →
        d.total = d.present + d.absent + d.late + d.excused) := by
  have htotal : (groupStage st.attendance).foldl (fun total item => total + item.count) 0 =
      st.attendance.length := by
    rw [foldl_count_eq]
    have := (groupStage_fold "" st.attendance []).2
    unfold groupStage
    rw [this]
    simp
  have hcount : ∀ s, countOf (groupStage st.attendance) s =
      st.attendance.countP (fun r => r.status == s) := by
    intro s
    have := (groupStage_fold s st.attendance []).1
    unfold groupStage
    rw [this]
    simp [countOf]
  refine ⟨{ total := (groupStage st.attendance).foldl (fun total item => total + item.count) 0
            present := countOf (groupStage st.attendance) "present"
            absent := countOf (groupStage st.attendance) "absent"
            late := countOf (groupStage st.attendance) "late"
            excused := countOf (groupStage st.attendance) "excused" }, ?_, htotal,
    hcount _, hcount _, hcount _, hcount _, ?_⟩
  · simp [summarize, summarizeTry, summaryMatchQuery, matchStage_no_filter]
  · intro henum
    simp only [htotal, hcount]
    exact length_eq_sum_countP st.attendance henum

/-- Witness of C19, the example of the specification: three `present` and two
`absent` records give `{present: 3, absent: 2, late: 0, excused: 0, total: 5}`. -/
theorem summarize_no_filter_witness :
    (summarize summaryStore none none none).data =
      some { total := 5, present := 3, absent := 2, late := 0, excused := 0 } ∧
    ∃ d, summarize summaryStore none none none =
        { code := 200, success := true, message := "", data := some d } ∧
      d.total = d.present + d.absent + d.late + d.excused := by
  refine ⟨by decide, ?_⟩
  obtain ⟨d, h, -, -, -, -, -, hsum⟩ := summarize_no_filter summaryStore
  exact ⟨d, h, hsum (by decide)⟩


/-! ## The mirror predicate under the mutating operations -/

theorem le_maxId {ids : List ObjectId} {x : ObjectId} (h : x ∈ ids) : x ≤ maxId ids := by
  induction ids with
  | nil => simp at h
  | cons a t ih =>
    simp only [maxId, List.foldr_cons] at ih ⊢
    rcases List.mem_cons.mp h with e | e
    · subst e; exact le_max_left _ _
    · exact le_trans (ih e) (le_max_right _ _)

theorem student_lt_freshStudentId {st : Store} {s : Student} (h : s ∈ st.students) :
    s._id < freshStudentId st := by
  unfold freshStudentId
  apply Nat.lt_succ_of_le
  apply le_maxId
  simp only [List.mem_append, List.mem_map]
  exact Or.inl (Or.inl ⟨s, h, rfl⟩)

theorem roster_lt_freshStudentId {st : Store} {c : Class} {x : ObjectId} (h : c ∈ st.classes)
    (hx : x ∈ c.students) : x < freshStudentId st := by
  unfold freshStudentId
  apply Nat.lt_succ_of_le
  apply le_maxId
  simp only [List.mem_append, List.mem_flatten, List.mem_map]
  exact Or.inl (Or.inr ⟨c.students, ⟨c, h, rfl⟩, hx⟩)

theorem class_lt_freshClassId {st : Store} {c : Class} (h : c ∈ st.classes) :
    c._id < freshClassId st := by
  unfold freshClassId
  apply Nat.lt_succ_of_le
  apply le_maxId
  simp only [List.mem_append, List.mem_map]
  exact Or.inl (Or.inl ⟨c, h, rfl⟩)

theorem ref_lt_freshClassId {st : Store} {s : Student} {x : ObjectId} (h : s ∈ st.students)
    (hx : x ∈ s.classes) : x < freshClassId st := by
  unfold freshClassId
  apply Nat.lt_succ_of_le
  apply le_maxId
  simp only [List.mem_append, List.mem_flatten, List.mem_map]
  exact Or.inl (Or.inr ⟨s.classes, ⟨s, h, rfl⟩, hx⟩)

theorem findStudentById_mem {st : Store} {id : ObjectId} {s : Student}
    (h : findStudentById st id = some s) : s ∈ st.students := by
  unfold findStudentById at h
  exact List.mem_of_find?_eq_some h

theorem findClassById_mem {st : Store} {id : ObjectId} {c : Class}
    (h : findClassById st id = some c) : c ∈ st.classes := by
  unfold findClassById at h
  exact List.mem_of_find?_eq_some h

theorem findClassById_none {st : Store} {id : ObjectId} (h : findClassById st id = none) :
    ∀ c ∈ st.classes, c._id ≠ id := by
  unfold findClassById at h
  intro c hc e
  have := List.find?_eq_none.mp h c hc
  simp [e] at this

theorem nodup_map_append_fresh {α : Type} (getId : α → ObjectId) (l : List α) (x : α)
    (h : (l.map getId).Nodup) (hx : ∀ y ∈ l, getId y ≠ getId x) :
    ((l ++ [x]).map getId).Nodup := by
  rw [List.map_append, List.nodup_append]
  refine ⟨h, by simp, ?_⟩
  intro a ha hb
  simp only [List.map_cons, List.map_nil, List.mem_singleton] at hb
  obtain ⟨y, hy, rfl⟩ := List.mem_map.mp ha
  exact hx y hy hb

theorem nodup_map_keep {α : Type} (getId : α → ObjectId) (g : α → α)
    (hg : ∀ x, getId (g x) = getId x) (l : List α) (h : (l.map getId).Nodup) :
    ((l.map g).map getId).Nodup := by
  have : (l.map g).map getId = l.map getId := by
    rw [List.map_map]
    apply List.map_congr_left
    intro x _
    simp [Function.comp, hg]
  rw [this]
  exact h

/-- Appending a student whose `_id` is new, is on no roster, and who references no
existing class keeps the invariant. -/
theorem inv_append_student {st : Store} (student : Student) (hinv : RelationInv st)
    (hid : ∀ s ∈ st.students, s._id ≠ student._id)
    (hroster : ∀ c ∈ st.classes, student._id ∉ c.students)
    (hrefs : ∀ c ∈ st.classes, c._id ∉ student.classes) :
    RelationInv { st with students := st.students ++ [student] } := by
  obtain ⟨hm, hsu, hcu⟩ := hinv
  refine ⟨?_, ?_, hcu⟩
  · intro s hs c hc
    rcases List.mem_append.mp hs with h | h
    · exact hm s h c hc
    · simp only [List.mem_singleton] at h
      subst h
      constructor
      · intro h1; exact absurd h1 (hrefs c hc)
      · intro h1; exact absurd h1 (hroster c hc)
  · exact nodup_map_append_fresh (fun s : Student => s._id) st.students student hsu hid

theorem newStudent_fresh (st : Store) (studentData : StudentData) :
    (∀ s ∈ st.students, s._id ≠ (newStudent st studentData)._id) ∧
    (∀ c ∈ st.classes, (newStudent st studentData)._id ∉ c.students) := by
  constructor
  · intro s hs e
    have := student_lt_freshStudentId hs
    simp only [newStudent] at e
    rw [e] at this
    exact lt_irrefl _ this
  · intro c hc hx
    have := roster_lt_freshStudentId hc hx
    simp only [newStudent] at this
    exact lt_irrefl _ this

theorem postStudent_store (st : Store) (studentData : StudentData) :
    (postStudent st studentData).1 = st ∨
    (postStudent st studentData).1 =
      { st with students := st.students ++ [newStudent st studentData] } := by
  unfold postStudent postStudentTry
  cases h1 : validateNewStudent studentData with
  | error e => left; cases e <;> rfl
  | ok u =>
    cases h2 : studentIndexCheck st none (newStudent st studentData).studentId
        (newStudent st studentData).email with
    | error e => left; cases e <;> simp [h2]
    | ok v => right; simp [h2]

theorem inv_postStudent {st : Store} (studentData : StudentData) (hinv : RelationInv st)
    (hnone : studentData.classes = none) : RelationInv (postStudent st studentData).1 := by
  rcases postStudent_store st studentData with h | h
  · rw [h]; exact hinv
  · rw [h]
    obtain ⟨h1, h2⟩ := newStudent_fresh st studentData
    exact inv_append_student _ hinv h1 h2 (by simp [newStudent, hnone])

theorem putStudent_store (st : Store) (id : ObjectId) (studentData : StudentData) :
    (putStudent st id studentData).1 = st ∨
    ∃ found, findStudentById st id = some found ∧
      (putStudent st id studentData).1 =
        { st with students := st.students.map (fun s =>
            if s._id = id then applyStudentData found studentData else s) } := by
  have happly : (match putStudentApply st id studentData with
      | .ok r => r
      | .error e => (st, { code := 400, success := false, message := "Error updating student",
                           error := some e })).1 = st ∨
      ∃ found, findStudentById st id = some found ∧
        (match putStudentApply st id studentData with
          | .ok r => r
          | .error e => (st, { code := 400, success := false,
                               message := "Error updating student", error := some e })).1 =
          { st with students := st.students.map (fun s =>
              if s._id = id then applyStudentData found studentData else s) } := by
    unfold putStudentApply
    cases hf : findStudentById st id with
    | none => left; rfl
    | some found =>
      cases h2 : studentIndexCheck st (some id) (applyStudentData found studentData).studentId
          (applyStudentData found studentData).email with
      | error e => left; simp [h2]
      | ok v => right; exact ⟨found, rfl, by simp [h2]⟩
  unfold putStudent putStudentTry
  cases hv : validateStudentUpdate studentData with
  | error e => left; rfl
  | ok v => simpa using happly

theorem inv_putStudent {st : Store} (id : ObjectId) (studentData : StudentData)
    (hinv : RelationInv st) (hnone : studentData.classes = none) :
    RelationInv (putStudent st id studentData).1 := by
  rcases putStudent_store st id studentData with h | ⟨found, hf, h⟩
  · rw [h]; exact hinv
  · rw [h]
    obtain ⟨hm, hsu, hcu⟩ := hinv
    have hfid := findStudentById_id hf
    have hfmem := findStudentById_mem hf
    refine ⟨?_, ?_, hcu⟩
    · intro s hs c hc
      obtain ⟨s0, hs0, rfl⟩ := List.mem_map.mp hs
      by_cases he : s0._id = id
      · simp only [he, if_true]
        have := hm found hfmem c hc
        simpa [applyStudentData, hnone] using this
      · simp only [he, if_false]
        exact hm s0 hs0 c hc
    · exact nodup_map_keep (fun s : Student => s._id) _
        (by intro x; by_cases he : x._id = id <;> simp [he, applyStudentData, hfid])
        st.students hsu

theorem inv_deleteStudent {st : Store} (id : ObjectId) (hinv : RelationInv st) :
    RelationInv (deleteStudent st id).1 := by
  obtain ⟨hm, hsu, hcu⟩ := hinv
  cases hf : findStudentById st id with
  | none => simp only [deleteStudent, hf]; exact ⟨hm, hsu, hcu⟩
  | some student =>
    have hsid := findStudentById_id hf
    subst hsid
    have herase := eraseP_eq_filter_of_nodup (fun s : Student => s._id) st.students hsu
      student._id
    simp only [deleteStudent, hf]
    refine ⟨?_, ?_, ?_⟩
    · intro s hs c hc
      simp only [herase] at hs
      obtain ⟨hs1, hs2⟩ := List.mem_filter.mp hs
      have hne : s._id ≠ student._id := by simpa using hs2
      obtain ⟨c0, hc0, rfl⟩ := List.mem_map.mp hc
      have hbase := hm s hs1 c0 hc0
      by_cases hin : student._id ∈ c0.students
      · simp only [hin, if_true, mem_pull]
        constructor
        · intro h; exact ⟨hbase.mp h, hne⟩
        · intro h; exact hbase.mpr h.1
      · simp only [hin, if_false]
        exact hbase
    · unfold StudentIdsUnique at hsu ⊢
      simp only [herase]
      exact List.Nodup.sublist (List.Sublist.map _ (List.filter_sublist _)) hsu
    · exact nodup_map_keep (fun c : Class => c._id) _
        (by intro x; by_cases he : student._id ∈ x.students <;> simp [he]) st.classes hcu

theorem inv_enroll {st : Store} (id classId : ObjectId) (hinv : RelationInv st) :
    RelationInv (enroll st id classId).1 := by
  obtain ⟨hm, hsu, hcu⟩ := hinv
  cases hs : findStudentById st id with
  | none => simp only [enroll, hs]; exact ⟨hm, hsu, hcu⟩
  | some student =>
    cases hc : findClassById st classId with
    | none => simp only [enroll, hs, hc]; exact ⟨hm, hsu, hcu⟩
    | some classDoc =>
      by_cases hmem : classId ∈ student.classes
      · simp only [enroll, hs, hc, hmem, if_true]; exact ⟨hm, hsu, hcu⟩
      · by_cases hcap : (classDoc.students.length : Int) ≥ classDoc.maxStudents
        · simp only [enroll, hs, hc, hmem, hcap, if_true, if_false]; exact ⟨hm, hsu, hcu⟩
        · have hcid := findClassById_id hc
          have hsid := findStudentById_id hs
          have hsmem := findStudentById_mem hs
          have hcmem := findClassById_mem hc
          subst hcid
          subst hsid
          rw [enroll_ok hs hc hmem (not_le.mp hcap)]
          refine ⟨?_, ?_, ?_⟩
          · intro s1 hs1 c1 hc1
            obtain ⟨s0, hs0, rfl⟩ := List.mem_map.mp hs1
            obtain ⟨c0, hc0, rfl⟩ := List.mem_map.mp hc1
            by_cases hes : s0._id = student._id
            · by_cases hec : c0._id = classDoc._id
              · simp [hes, hec]
              · have := hm student hsmem c0 hc0
                simp [hes, hec, this]
            · by_cases hec : c0._id = classDoc._id
              · have := hm s0 hs0 classDoc hcmem
                simp [hes, hec, this]
              · simp only [hes, hec, if_false]
                exact hm s0 hs0 c0 hc0
          · exact nodup_map_keep (fun s : Student => s._id) _
              (by intro x; by_cases he : x._id = student._id <;> simp [he]) st.students hsu
          · exact nodup_map_keep (fun c : Class => c._id) _
              (by intro x; by_cases he : x._id = classDoc._id <;> simp [he]) st.classes hcu


theorem createStudent_store (st : Store) (body : CreateStudentData) :
    (createStudent st body).1 = st ∨
    ((body.classId = none ∨ ∃ k, body.classId = some k ∧ findClassById st k = none) ∧
      (createStudent st body).1 =
        { st with students := st.students ++
            [newStudent st { studentId := body.studentId, firstName := body.firstName, lastName := body.lastName, email := body.email, status := body.status, classes := some (match body.classId with | some classId => [classId] | none => []) }] }) ∨
    (∃ k classObj, body.classId = some k ∧ findClassById st k = some classObj ∧
      (createStudent st body).1 =
        { st with
          students := st.students ++
            [newStudent st { studentId := body.studentId, firstName := body.firstName, lastName := body.lastName, email := body.email, status := body.status, classes := some [k] }]
          classes := st.classes.map (fun c =>
            if c._id = classObj._id then
              { classObj with students := classObj.students ++ [freshStudentId st] }
            else c) }) := by
  unfold createStudent createStudentTry
  simp only
  cases h1 : validateNewStudent { studentId := body.studentId, firstName := body.firstName, lastName := body.lastName, email := body.email, status := body.status, classes := some (match body.classId with | some classId => [classId] | none => []) } with
  | error e => left; rfl
  | ok u =>
    simp only []
    cases h2 : studentIndexCheck st none (newStudent st { studentId := body.studentId, firstName := body.firstName, lastName := body.lastName, email := body.email, status := body.status, classes := some (match body.classId with | some classId => [classId] | none => []) }).studentId (newStudent st { studentId := body.studentId, firstName := body.firstName, lastName := body.lastName, email := body.email, status := body.status, classes := some (match body.classId with | some classId => [classId] | none => []) }).email with
    | error e => left; rfl
    | ok v =>
      simp only []
      cases hk : body.classId with
      | none => right; left; exact ⟨Or.inl rfl, rfl⟩
      | some k =>
        simp only []
        have hfind : findClassById { st with students := st.students ++ [newStudent st { studentId := body.studentId, firstName := body.firstName, lastName := body.lastName, email := body.email, status := body.status, classes := some [k] }] } k = findClassById st k := rfl
        cases hc : findClassById st k with
        | none =>
          right; left
          refine ⟨Or.inr ⟨k, rfl, hc⟩, ?_⟩
          rw [hfind, hc]
        | some classObj =>
          right; right
          refine ⟨k, classObj, rfl, hc, ?_⟩
          rw [hfind, hc]
          rfl

theorem inv_createStudent {st : Store} (body : CreateStudentData) (hinv : RelationInv st) :
    RelationInv (createStudent st body).1 := by
  rcases createStudent_store st body with h | ⟨hcase, h⟩ | ⟨k, classObj, hk, hc, h⟩
  · rw [h]; exact hinv
  · rw [h]
    obtain ⟨h1, h2⟩ := newStudent_fresh st { studentId := body.studentId, firstName := body.firstName, lastName := body.lastName, email := body.email, status := body.status, classes := some (match body.classId with | some classId => [classId] | none => []) }
    refine inv_append_student _ hinv h1 h2 ?_
    intro c hcm
    rcases hcase with hn | ⟨k, hk, hnf⟩
    · simp [newStudent, hn]
    · have := findClassById_none hnf c hcm
      simp [newStudent, hk, this]
  · rw [h]
    obtain ⟨hm, hsu, hcu⟩ := hinv
    have hcid := findClassById_id hc
    have hcmem := findClassById_mem hc
    obtain ⟨h1, h2⟩ := newStudent_fresh st { studentId := body.studentId, firstName := body.firstName, lastName := body.lastName, email := body.email, status := body.status, classes := some [k] }
    refine ⟨?_, ?_, ?_⟩
    · intro s hs c1 hc1
      obtain ⟨c0, hc0, rfl⟩ := List.mem_map.mp hc1
      rcases List.mem_append.mp hs with hold | hnew
      · have hne : s._id ≠ freshStudentId st := by
          have := h1 s hold
          simpa [newStudent] using this
        by_cases hec : c0._id = classObj._id
        · have := hm s hold classObj hcmem
          simp [hec, this, hne]
        · simp only [hec, if_false]
          exact hm s hold c0 hc0
      · simp only [List.mem_singleton] at hnew
        subst hnew
        by_cases hec : c0._id = classObj._id
        · simp [hec, newStudent, hcid]
        · have hnotin : freshStudentId st ∉ c0.students := by
            have := h2 c0 hc0
            simpa [newStudent] using this
          have hne : c0._id ≠ k := fun e => hec (e.trans hcid.symm)
          simp [hec, newStudent, hnotin, hne]
    · exact nodup_map_append_fresh (fun s : Student => s._id) st.students _ hsu h1
    · exact nodup_map_keep (fun c : Class => c._id) _
        (by intro x; by_cases he : x._id = classObj._id <;> simp [he]) st.classes hcu

/-- Appending a class whose `_id` is new, is referenced by no student, and whose
roster holds no existing student keeps the invariant. -/
theorem inv_append_class {st : Store} (classDoc : Class) (hinv : RelationInv st)
    (hid : ∀ c ∈ st.classes, c._id ≠ classDoc._id)
    (hrefs : ∀ s ∈ st.students, classDoc._id ∉ s.classes)
    (hroster : ∀ s ∈ st.students, s._id ∉ classDoc.students) :
    RelationInv { st with classes := st.classes ++ [classDoc] } := by
  obtain ⟨hm, hsu, hcu⟩ := hinv
  refine ⟨?_, hsu, ?_⟩
  · intro s hs c hc
    rcases List.mem_append.mp hc with h | h
    · exact hm s hs c h
    · simp only [List.mem_singleton] at h
      subst h
      constructor
      · intro h1; exact absurd h1 (hrefs s hs)
      · intro h1; exact absurd h1 (hroster s hs)
  · exact nodup_map_append_fresh (fun c : Class => c._id) st.classes classDoc hcu hid

theorem newClass_fresh (st : Store) (classData : ClassData) :
    (∀ c ∈ st.classes, c._id ≠ (newClass st classData)._id) ∧
    (∀ s ∈ st.students, (newClass st classData)._id ∉ s.classes) := by
  constructor
  · intro c hc e
    have := class_lt_freshClassId hc
    simp only [newClass] at e
    rw [e] at this
    exact lt_irrefl _ this
  · intro s hs hx
    have := ref_lt_freshClassId hs hx
    simp only [newClass] at this
    exact lt_irrefl _ this

theorem postClass_store (st : Store) (classData : ClassData) :
    (postClass st classData).1 = st ∨
    (postClass st classData).1 = { st with classes := st.classes ++ [newClass st classData] } := by
  unfold postClass postClassTry
  cases h1 : validateNewClass classData with
  | error e => left; cases e <;> rfl
  | ok u =>
    cases h2 : classIndexCheck st none (newClass st classData).classCode with
    | error e => left; cases e <;> simp [h2]
    | ok v => right; simp [h2]

theorem inv_postClass {st : Store} (classData : ClassData) (hinv : RelationInv st)
    (hnone : classData.students = none) : RelationInv (postClass st classData).1 := by
  rcases postClass_store st classData with h | h
  · rw [h]; exact hinv
  · rw [h]
    obtain ⟨h1, h2⟩ := newClass_fresh st classData
    exact inv_append_class _ hinv h1 h2 (by simp [newClass, hnone])

theorem putClass_store (st : Store) (id : ObjectId) (classData : ClassData) :
    (putClass st id classData).1 = st ∨
    ∃ found, findClassById st id = some found ∧
      (putClass st id classData).1 =
        { st with classes := st.classes.map (fun c =>
            if c._id = id then applyClassData found classData else c) } := by
  have happly : (match putClassApply st id classData with
      | .ok r => r
      | .error e => (st, { code := 400, success := false, message := "Error updating class",
                           error := some e })).1 = st ∨
      ∃ found, findClassById st id = some found ∧
        (match putClassApply st id classData with
          | .ok r => r
          | .error e => (st, { code := 400, success := false,
                               message := "Error updating class", error := some e })).1 =
          { st with classes := st.classes.map (fun c =>
              if c._id = id then applyClassData found classData else c) } := by
    unfold putClassApply
    cases hf : findClassById st id with
    | none => left; rfl
    | some found =>
      cases h2 : classIndexCheck st (some id) (applyClassData found classData).classCode with
      | error e => left; simp [h2]
      | ok v => right; exact ⟨found, rfl, by simp [h2]⟩
  unfold putClass putClassTry
  cases hv : validateClassUpdate classData with
  | error e => left; rfl
  | ok v => simpa using happly

theorem inv_putClass {st : Store} (id : ObjectId) (classData : ClassData)
    (hinv : RelationInv st) (hnone : classData.students = none) :
    RelationInv (putClass st id classData).1 := by
  rcases putClass_store st id classData with h | ⟨found, hf, h⟩
  · rw [h]; exact hinv
  · rw [h]
    obtain ⟨hm, hsu, hcu⟩ := hinv
    have hfid := findClassById_id hf
    have hfmem := findClassById_mem hf
    refine ⟨?_, hsu, ?_⟩
    · intro s hs c hc
      obtain ⟨c0, hc0, rfl⟩ := List.mem_map.mp hc
      by_cases he : c0._id = id
      · simp only [he, if_true]
        have := hm s hs found hfmem
        simpa [applyClassData, hnone] using this
      · simp only [he, if_false]
        exact hm s hs c0 hc0
    · exact nodup_map_keep (fun c : Class => c._id) _
        (by intro x; by_cases he : x._id = id <;> simp [he, applyClassData, hfid])
        st.classes hcu

theorem inv_deleteClass {st : Store} (id : ObjectId) (hinv : RelationInv st) :
    RelationInv (deleteClass st id).1 := by
  obtain ⟨hm, hsu, hcu⟩ := hinv
  cases hf : findClassById st id with
  | none => simp only [deleteClass, hf]; exact ⟨hm, hsu, hcu⟩
  | some classDoc =>
    have hcid := findClassById_id hf
    subst hcid
    have herase := eraseP_eq_filter_of_nodup (fun c : Class => c._id) st.classes hcu
      classDoc._id
    simp only [deleteClass, hf]
    refine ⟨?_, ?_, ?_⟩
    · intro s hs c hc
      simp only [herase] at hc
      obtain ⟨hc1, hc2⟩ := List.mem_filter.mp hc
      have hne : c._id ≠ classDoc._id := by simpa using hc2
      obtain ⟨s0, hs0, rfl⟩ := List.mem_map.mp hs
      have hbase := hm s0 hs0 c hc1
      by_cases hin : classDoc._id ∈ s0.classes
      · simp only [hin, if_true, mem_pull]
        constructor
        · intro h; exact hbase.mp h.1
        · intro h; exact ⟨hbase.mpr h, hne⟩
      · simp only [hin, if_false]
        exact hbase
    · exact nodup_map_keep (fun s : Student => s._id) _
        (by intro x; by_cases he : classDoc._id ∈ x.classes <;> simp [he]) st.students hsu
    · unfold ClassIdsUnique at hcu ⊢
      simp only [herase]
      exact List.Nodup.sublist (List.Sublist.map _ (List.filter_sublist _)) hcu

theorem inv_classEnroll {st : Store} (classId studentId : ObjectId) (hinv : RelationInv st) :
    RelationInv (classEnroll st classId studentId).1 := by
  obtain ⟨hm, hsu, hcu⟩ := hinv
  cases hc : findClassById st classId with
  | none => simp only [classEnroll, hc]; exact ⟨hm, hsu, hcu⟩
  | some classDoc =>
    cases hs : findStudentById st studentId with
    | none => simp only [classEnroll, hs, hc]; exact ⟨hm, hsu, hcu⟩
    | some student =>
      rw [classEnroll_ok hs hc]
      refine ⟨?_, ?_, ?_⟩
      · intro s1 hs1 c1 hc1
        obtain ⟨s0, hs0, rfl⟩ := List.mem_map.mp hs1
        obtain ⟨c0, hc0, rfl⟩ := List.mem_map.mp hc1
        have hbase := hm s0 hs0 c0 hc0
        by_cases hes : s0._id = studentId
        · by_cases hec : c0._id = classId
          · rw [if_pos hes, if_pos hec]
            simp only [mem_addToSet]
            exact ⟨fun _ => Or.inr hes, fun _ => Or.inr hec⟩
          · rw [if_pos hes, if_neg hec]
            simp only [mem_addToSet]
            exact ⟨fun h => h.elim hbase.mp (fun e => absurd e hec),
              fun h => Or.inl (hbase.mpr h)⟩
        · by_cases hec : c0._id = classId
          · rw [if_neg hes, if_pos hec]
            simp only [mem_addToSet]
            exact ⟨fun h => Or.inl (hbase.mp h),
              fun h => h.elim hbase.mpr (fun e => absurd e hes)⟩
          · rw [if_neg hes, if_neg hec]
            exact hbase
      · exact nodup_map_keep (fun s : Student => s._id) _
          (by intro x; by_cases he : x._id = studentId <;> simp [he]) st.students hsu
      · exact nodup_map_keep (fun c : Class => c._id) _
          (by intro x; by_cases he : x._id = classId <;> simp [he]) st.classes hcu


theorem inv_run {st : Store} (op : Op) (hinv : RelationInv st) (hop : op.setsNoSide) :
    RelationInv (Op.run st op) := by
  cases op with
  | postStudent studentData => exact inv_postStudent studentData hinv hop
  | putStudent id studentData => exact inv_putStudent id studentData hinv hop
  | deleteStudent id => exact inv_deleteStudent id hinv
  | enroll id classId => exact inv_enroll id classId hinv
  | createStudent body => exact inv_createStudent body hinv
  | postClass classData => exact inv_postClass classData hinv hop
  | putClass id classData => exact inv_putClass id classData hinv hop
  | deleteClass id => exact inv_deleteClass id hinv
  | classEnroll classId studentId => exact inv_classEnroll classId studentId hinv

theorem inv_foldl_run (ops : List Op) :
    ∀ st : Store, RelationInv st → (∀ op ∈ ops, op.setsNoSide) →
      RelationInv (ops.foldl Op.run st) := by
  induction ops with
  | nil => intro st hinv _; exact hinv
  | cons op rest ih =>
    intro st hinv hops
    simp only [List.foldl_cons]
    exact ih _ (inv_run op hinv (hops op (List.mem_cons_self op rest)))
      (fun o ho => hops o (List.mem_cons_of_mem op ho))

/-- C17 fails as stated: `sampleStore` satisfies the mirror predicate; `PUT
/api/students/2` with body `{ classes: [10] }` succeeds and writes `bob.classes`
alone, so class 10 is among `bob`'s classes while `bob` is not on its roster. -/
theorem mirror_broken_by_update_counterexample :
    Mirror sampleStore ∧
    (putStudent sampleStore 2 { classes := some [10] }).2.success = true ∧
    (findStudentById (putStudent sampleStore 2 { classes := some [10] }).1 2).map
      (fun s => s.classes) = some [10] ∧
    (findClassById (putStudent sampleStore 2 { classes := some [10] }).1 10).map
      (fun c => c.students) = some [1] ∧
    ¬ Mirror (putStudent sampleStore 2 { classes := some [10] }).1 := by
  refine ⟨?_, by decide, by decide, by decide, ?_⟩
  · unfold Mirror; decide
  · unfold Mirror; decide

/-- C17, as the code has it: on a store whose student `_id`s and class `_id`s are
unique and which satisfies the mirror predicate, every sequence of mutating
requests (create, update and delete of Student and Class, both enrollment
endpoints, `createStudent`) in which no create or update body carries a `classes`
key (Student) or a `students` key (Class) leads to a store that satisfies the mirror
predicate, with unique `_id`s again. -/
theorem mirror_preserved (st : Store) (ops : List Op) (hm : Mirror st)
    (hsu : StudentIdsUnique st) (hcu : ClassIdsUnique st)
    (hops : ∀ op ∈ ops, op.setsNoSide) :
    Mirror (ops.foldl Op.run st) ∧ StudentIdsUnique (ops.foldl Op.run st) ∧
      ClassIdsUnique (ops.foldl Op.run st) :=
  inv_foldl_run ops st ⟨hm, hsu, hcu⟩ hops

/-- Witness of the amended C17: enrolling `bob` in `mathClass`, creating a student
in `mathClass`, renaming `alice`, deleting `tinyClass` and deleting `bob`. -/
theorem mirror_preserved_witness :
    Mirror
      ([Op.enroll 2 10, Op.createStudent { daveData with classId := some 10 },
        Op.putStudent 1 { firstName := some "Alicia" }, Op.deleteClass 11,
        Op.deleteStudent 2].foldl Op.run sampleStore) :=
  (mirror_preserved sampleStore
    [Op.enroll 2 10, Op.createStudent { daveData with classId := some 10 },
      Op.putStudent 1 { firstName := some "Alicia" }, Op.deleteClass 11, Op.deleteStudent 2]
    (by unfold Mirror; decide) (by unfold StudentIdsUnique; decide)
    (by unfold ClassIdsUnique; decide)
    (by
      intro op hop
      simp only [List.mem_cons, List.mem_singleton, List.mem_nil_iff, or_false] at hop
      rcases hop with h | h | h | h | h <;> subst h <;> simp [Op.setsNoSide])).1

/-! ## Summary by date range, the two branches of markOne, and the key invariant -/

theorem summarize_counts (st : Store) (startDate endDate : Option Int) (q : MatchQuery)
    (hq : summaryMatchQuery none startDate endDate = .ok q) :
    ∃ d, summarize st none startDate endDate =
        { code := 200, success := true, message := "", data := some d } ∧
      d.total = (matchStage q st.attendance).length ∧
      ∀ s, countOf (groupStage (matchStage q st.attendance)) s =
        (matchStage q st.attendance).countP (fun r => r.status == s) ∧
      d.present = (matchStage q st.attendance).countP (fun r => r.status == "present") ∧
      d.absent = (matchStage q st.attendance).countP (fun r => r.status == "absent") ∧
      d.late = (matchStage q st.attendance).countP (fun r => r.status == "late") ∧
      d.excused = (matchStage q st.attendance).countP (fun r => r.status == "excused") := by
  have htotal : (groupStage (matchStage q st.attendance)).foldl
      (fun total item => total + item.count) 0 = (matchStage q st.attendance).length := by
    rw [foldl_count_eq]
    have := (groupStage_fold "" (matchStage q st.attendance) []).2
    unfold groupStage
    rw [this]
    simp
  have hcount : ∀ s, countOf (groupStage (matchStage q st.attendance)) s =
      (matchStage q st.attendance).countP (fun r => r.status == s) := by
    intro s
    have := (groupStage_fold s (matchStage q st.attendance) []).1
    unfold groupStage
    rw [this]
    simp [countOf]
  refine ⟨{ total := (groupStage (matchStage q st.attendance)).foldl
              (fun total item => total + item.count) 0
            present := countOf (groupStage (matchStage q st.attendance)) "present"
            absent := countOf (groupStage (matchStage q st.attendance)) "absent"
            late := countOf (groupStage (matchStage q st.attendance)) "late"
            excused := countOf (groupStage (matchStage q st.attendance)) "excused" }, ?_,
    htotal, ?_⟩
  · simp only [summarize, summarizeTry, hq]
  · intro s
    exact ⟨hcount s, hcount _, hcount _, hcount _, hcount _⟩

theorem matchStage_range (records : List Attendance) (s e : Int) :
    matchStage { class_ := none, date := some (s, e) } records =
      records.filter (fun r => decide (s ≤ r.date) && decide (r.date ≤ e)) := by
  simp [matchStage]

/-- C21 (summary date range is inclusive): when `startDate` and `endDate` are
supplied together (and no `classId`), the handler answers with the counts over
exactly the records `r` with `startDate ≤ r.date ≤ endDate`; a record dated
exactly `startDate` or exactly `endDate` is among them when `startDate ≤ endDate`.
When no date range is supplied the total is the number of all records. -/
theorem summarize_date_range (st : Store) (startDate endDate : Int) :
    (∃ d, summarize st none (some startDate) (some endDate) =
        { code := 200, success := true, message := "", data := some d } ∧
      d.total = (st.attendance.filter
        (fun r => decide (startDate ≤ r.date) && decide (r.date ≤ endDate))).length ∧
      d.present = (st.attendance.filter
        (fun r => decide (startDate ≤ r.date) && decide (r.date ≤ endDate))).countP
          (fun r => r.status == "present") ∧
      d.absent = (st.attendance.filter
        (fun r => decide (startDate ≤ r.date) && decide (r.date ≤ endDate))).countP
          (fun r => r.status == "absent") ∧
      d.late = (st.attendance.filter
        (fun r => decide (startDate ≤ r.date) && decide (r.date ≤ endDate))).countP
          (fun r => r.status == "late") ∧
      d.excused = (st.attendance.filter
        (fun r => decide (startDate ≤ r.date) && decide (r.date ≤ endDate))).countP
          (fun r => r.status == "excused")) ∧
    (∀ r ∈ st.attendance, startDate ≤ endDate → (r.date = startDate ∨ r.date = endDate) →
      r ∈ st.attendance.filter
        (fun r => decide (startDate ≤ r.date) && decide (r.date ≤ endDate))) ∧
    (∃ d, summarize st none none none =
        { code := 200, success := true, message := "", data := some d } ∧
      d.total = st.attendance.length) := by
  refine ⟨?_, ?_, ?_⟩
  · obtain ⟨d, h, ht, hs⟩ := summarize_counts st (some startDate) (some endDate)
      { class_ := none, date := some (startDate, endDate) } rfl
    obtain ⟨-, hp, ha, hl, he⟩ := hs ""
    rw [matchStage_range] at ht hp ha hl he
    exact ⟨d, h, ht, hp, ha, hl, he⟩
  · intro r hr hle hdate
    rw [List.mem_filter]
    refine ⟨hr, ?_⟩
    rcases hdate with h | h
    · simp [h, hle]
    · simp [h, hle]
  · obtain ⟨d, h, ht, -⟩ := summarize_counts st none none { class_ := none, date := none } rfl
    rw [matchStage_no_filter] at ht
    exact ⟨d, h, ht⟩

/-- Witness of C21 on `summaryStore`: the range from `dayStart` to `morning` holds
the four records dated exactly at its two ends and leaves out the one at `evening`. -/
theorem summarize_date_range_witness :
    (summarize summaryStore none (some dayStart) (some morning)).data =
      some { total := 4, present := 2, absent := 2, late := 0, excused := 0 } ∧
    ({ _id := 3, student := 1, class_ := 10, date := morning, status := "present",
       timeMarked := 3 } : Attendance) ∈ summaryStore.attendance.filter
        (fun r => decide (dayStart ≤ r.date) && decide (r.date ≤ morning)) :=
  ⟨by decide,
   (summarize_date_range summaryStore dayStart morning).2.1 _ (by decide) (by decide)
     (Or.inr rfl)⟩

/-- C22 (markOne update branch): when the class and the student exist, the student
is on the roster, the date and the status are valid and a record is found for
`(student, class, date)`, `markOne` answers 200 with the updated record.  Its
status is the requested one, its notes and markedBy are the supplied ones (the
stored ones for a key the request does not carry), its timeMarked is `now`, and its
`_id`, student, class and date are those of the record found.  On a store with
unique `_id`s the collection is the old one with that record replaced in place:
same length, every other record unchanged. -/
theorem markOne_update_branch (st : Store) (now : Int) (a : AttendanceData)
    (classDoc : Class) (student : Student) (d : Int) (ex : Attendance)
    (hids : IdsUnique st)
    (hc : findClassById st a.class_ = some classDoc)
    (hs : findStudentById st a.student = some student)
    (hen : a.student ∈ classDoc.students) (hd : a.date = some d)
    (hst : a.status ∈ statusEnum)
    (hex : findOneAttendance st a.student a.class_ d = some ex) :
    ∃ doc, (markOne st now a).2 =
        { code := 200, success := true, message := "Attendance updated successfully",
          data := some doc } ∧
      doc.status = a.status ∧
      (∀ n, a.notes = some n → doc.notes = some n) ∧
      (a.notes = none → doc.notes = ex.notes) ∧
      (∀ m, a.markedBy = some m → doc.markedBy = m) ∧
      (a.markedBy = none → doc.markedBy = ex.markedBy) ∧
      doc.timeMarked = now ∧
      doc._id = ex._id ∧ doc.student = ex.student ∧ doc.class_ = ex.class_ ∧
      doc.date = ex.date ∧
      (markOne st now a).1.attendance =
        st.attendance.map (fun r => if r = ex then doc else r) ∧
      (markOne st now a).1.attendance.length = st.attendance.length ∧
      findAttendanceById (markOne st now a).1 ex._id = some doc ∧
      (markOne st now a).1.students = st.students ∧
      (markOne st now a).1.classes = st.classes := by
  have hkey := (findOne_some hex).2
  have hmem := (findOne_some hex).1
  have hk1 : ex.student = a.student := by
    have := congrArg (fun k => k.1) hkey
    simpa [key] using this
  have hk2 : ex.class_ = a.class_ := by
    have := congrArg (fun k => k.2.1) hkey
    simpa [key] using this
  have hk3 : ex.date = d := by
    have := congrArg (fun k => k.2.2) hkey
    simpa [key] using this
  have hmap : st.attendance.map (fun r => if r._id = ex._id then
      assignAttendance ex a.student a.class_ d a.status a.notes a.markedBy now else r) =
      st.attendance.map (fun r => if r = ex then
        assignAttendance ex a.student a.class_ d a.status a.notes a.markedBy now else r) := by
    apply List.map_congr_left
    intro r hr
    by_cases h : r = ex
    · simp [h]
    · have : r._id ≠ ex._id := fun e => h (eq_of_mem_of_id_eq hids hr hmem e)
      simp [h, this]
  have hfind := find?_id_map_update st.attendance ex._id
    (assignAttendance ex a.student a.class_ d a.status a.notes a.markedBy now)
    (by simp [assignAttendance]) ⟨ex, hmem, rfl⟩
  rw [markOne_update hc hs hen hd hst hex]
  refine ⟨assignAttendance ex a.student a.class_ d a.status a.notes a.markedBy now, rfl,
    by simp [assignAttendance], ?_, ?_, ?_, ?_, by simp [assignAttendance],
    by simp [assignAttendance], by simp [assignAttendance, hk1],
    by simp [assignAttendance, hk2], by simp [assignAttendance, hk3], hmap, by simp, ?_,
    rfl, rfl⟩
  · intro n hn; simp [assignAttendance, hn]
  · intro hn; simp [assignAttendance, hn]
  · intro m hm; simp [assignAttendance, hm]
  · intro hm; simp [assignAttendance, hm]
  · simp only [findAttendanceById]
    exact hfind

/-- Witness of C22: in `markedStore`, `alice` is marked late at `morning` with a note
and a marker; the record keeps `_id` 1 and the collection keeps one record. -/
theorem markOne_update_branch_witness :
    ∃ doc, (markOne markedStore 9 aliceLate).2 =
        { code := 200, success := true, message := "Attendance updated successfully",
          data := some doc } ∧
      doc = { _id := 1, student := 1, class_ := 10, date := morning, status := "late",
              notes := some "bus delay", markedBy := "Dr. Rao", timeMarked := 9 } ∧
      (markOne markedStore 9 aliceLate).1.attendance.length = 1 := by
  obtain ⟨doc, h1, h2, h3, -, h5, -, h7, h8, h9, h10, h11, -, h13, -⟩ :=
    markOne_update_branch markedStore 9 aliceLate mathClass alice morning
      { _id := 1, student := 1, class_ := 10, date := morning, status := "present",
        timeMarked := 5 }
      (by unfold IdsUnique; decide) (by decide) (by decide) (by decide) rfl (by decide)
      (by decide)
  refine ⟨doc, h1, ?_, h13⟩
  have hn := h3 "bus delay" rfl
  have hm := h5 "Dr. Rao" rfl
  cases doc
  simp_all [aliceLate]

/-- C23, the claim as stated fails: the create branch builds the record from the
request body, and `Date.now` is only the schema default of `timeMarked`.  In
`sampleStore`, at time 5, a first mark of `alice` whose body carries
`timeMarked = 0` is answered 201 and the record is stored with timeMarked 0, not
with the current time. -/
theorem markOne_create_timeMarked_counterexample :
    (markOne sampleStore 5
      { student := 1, class_ := 10, date := some morning, status := "present",
        timeMarked := some 0 }).2.code = 201 ∧
    (markOne sampleStore 5
      { student := 1, class_ := 10, date := some morning, status := "present",
        timeMarked := some 0 }).2.data.map (fun doc => doc.timeMarked) = some 0 ∧
    (markOne sampleStore 5
      { student := 1, class_ := 10, date := some morning, status := "present",
        timeMarked := some 0 }).1.attendance.map (fun r => r.timeMarked) = [0] := by
  decide

/-- C23 (markOne create branch), as the code has it: when the class and the student
exist, the student is on the roster, the date and the status are valid and no
record is found for `(student, class, date)`, `markOne` answers 201 with the created
record and the collection is the old one with that record appended.  The record
carries the given student, class, date, status and notes, markedBy is the supplied
value or 'system', timeMarked is the supplied value or `now` when none is supplied,
and its `_id` is new. -/
theorem markOne_create_branch (st : Store) (now : Int) (a : AttendanceData)
    (classDoc : Class) (student : Student) (d : Int)
    (hc : findClassById st a.class_ = some classDoc)
    (hs : findStudentById st a.student = some student)
    (hen : a.student ∈ classDoc.students) (hd : a.date = some d)
    (hst : a.status ∈ statusEnum)
    (hex : findOneAttendance st a.student a.class_ d = none) :
    ∃ doc, (markOne st now a).2 =
        { code := 201, success := true, message := "Attendance marked successfully",
          data := some doc } ∧
      (markOne st now a).1.attendance = st.attendance ++ [doc] ∧
      doc.student = a.student ∧ doc.class_ = a.class_ ∧ doc.date = d ∧
      doc.status = a.status ∧ doc.notes = a.notes ∧
      doc.markedBy = a.markedBy.getD "system" ∧
      doc.timeMarked = a.timeMarked.getD now ∧
      (a.timeMarked = none → doc.timeMarked = now) ∧
      (∀ r ∈ st.attendance, r._id ≠ doc._id) ∧
      (markOne st now a).1.students = st.students ∧
      (markOne st now a).1.classes = st.classes := by
  rw [markOne_create hc hs hen hd hst hex]
  refine ⟨newAttendance st a.student a.class_ d a.status a.notes a.markedBy a.timeMarked now,
    rfl, rfl, rfl, rfl, rfl, rfl, rfl, rfl, rfl, ?_, ?_, rfl, rfl⟩
  · intro h
    simp [newAttendance, h]
  · intro r hr e
    have := lt_freshId st.attendance r hr
    simp only [newAttendance] at e
    rw [e] at this
    exact lt_irrefl _ this

/-- Witness of C23: `alice` is marked in `sampleStore`, which holds no record; neither
a marker nor a time is supplied, so markedBy is 'system' and timeMarked is the
current time, 5. -/
theorem markOne_create_branch_witness :
    ∃ doc, (markOne sampleStore 5
        { student := 1, class_ := 10, date := some morning, status := "present" }).2 =
        { code := 201, success := true, message := "Attendance marked successfully",
          data := some doc } ∧
      (markOne sampleStore 5
        { student := 1, class_ := 10, date := some morning, status := "present" }).1.attendance =
        sampleStore.attendance ++ [doc] ∧
      doc.markedBy = "system" ∧ doc.timeMarked = 5 := by
  obtain ⟨doc, h1, h2, -, -, -, -, -, h8, h9, -⟩ :=
    markOne_create_branch sampleStore 5
      { student := 1, class_ := 10, date := some morning, status := "present" }
      mathClass alice morning (by decide) (by decide) (by decide) rfl (by decide) (by decide)
  exact ⟨doc, h1, h2, h8, h9⟩


theorem markOne_store_cases (st : Store) (now : Int) (a : AttendanceData) :
    (markOne st now a).1 = st ∨
    ∃ classDoc student d, findClassById st a.class_ = some classDoc ∧
      findStudentById st a.student = some student ∧ a.student ∈ classDoc.students ∧
      a.date = some d ∧ a.status ∈ statusEnum := by
  cases hc : findClassById st a.class_ with
  | none => left; simp [markOne, markOneTry, hc]
  | some classDoc =>
    cases hs : findStudentById st a.student with
    | none => left; simp [markOne, markOneTry, hc, hs]
    | some student =>
      by_cases hen : a.student ∈ classDoc.students
      · cases hd : a.date with
        | none => left; simp [markOne, markOneTry, hc, hs, hen, hd, castDate]
        | some d =>
          by_cases hst : a.status ∈ statusEnum
          · right; exact ⟨classDoc, student, d, rfl, rfl, hen, rfl, hst⟩
          · left
            cases hex : findOneAttendance st a.student a.class_ d with
            | some ex =>
              simp [markOne, markOneTry, hc, hs, hen, hd, castDate, hex, saveExisting,
                validate, assignAttendance, hst]
            | none =>
              simp [markOne, markOneTry, hc, hs, hen, hd, castDate, hex, saveNew,
                validate, newAttendance, hst]
      · left; simp [markOne, markOneTry, hc, hs, hen]

theorem markOne_wellFormed (st : Store) (now : Int) (a : AttendanceData)
    (hwf : WellFormed st) : WellFormed (markOne st now a).1 := by
  rcases markOne_store_cases st now a with h | ⟨classDoc, student, d, hc, hs, hen, hd, hst⟩
  · rw [h]; exact hwf
  · obtain ⟨doc, -, -, -, -, hpost, -, -⟩ := @markOne_post st now a classDoc student d hwf
      hc hs hen hd hst
    exact ⟨hpost.1, hpost.2.1⟩

theorem attOp_run_wellFormed (st : Store) (op : AttOp) (hwf : WellFormed st) :
    WellFormed (AttOp.run st op) := by
  cases op with
  | markOne now attendanceData => exact markOne_wellFormed st now attendanceData hwf
  | markBulk clock classId date attendanceList =>
    exact markBulkLoop_wellFormed clock classId date attendanceList 0 st {} hwf

/-- C24 (one record per key): starting from a store in which no two Attendance
records share `(student, class, date)` (and, as the database guarantees, no two
share an `_id`), every sequence of `markOne` and `markBulk` requests, whatever
their bodies, leads to a store with the same two properties. -/
theorem keys_unique_preserved (st : Store) (ops : List AttOp) (hkeys : KeysUnique st)
    (hids : IdsUnique st) :
    KeysUnique (ops.foldl AttOp.run st) ∧ IdsUnique (ops.foldl AttOp.run st) := by
  have h : ∀ (l : List AttOp) (s : Store), WellFormed s → WellFormed (l.foldl AttOp.run s) := by
    intro l
    induction l with
    | nil => intro s hs; exact hs
    | cons op rest ih =>
      intro s hs
      simp only [List.foldl_cons]
      exact ih _ (attOp_run_wellFormed s op hs)
  have hwf := h ops st ⟨hids, hkeys⟩
  exact ⟨hwf.2, hwf.1⟩

/-- Witness of C24: on `markedStore`, `alice` is marked again at `morning` and at
`evening`, and a bulk request marks `alice` and `bob` at `morning`. -/
theorem keys_unique_preserved_witness :
    KeysUnique
      ([AttOp.markOne 9 aliceLate,
        AttOp.markOne 10 { student := 1, class_ := 10, date := some evening, status := "present" },
        AttOp.markBulk (fun _ => 11) 10 (some morning)
          [{ student := 1, status := "absent" }, { student := 2, status := "late" }]].foldl
        AttOp.run markedStore) :=
  (keys_unique_preserved markedStore
    [AttOp.markOne 9 aliceLate,
      AttOp.markOne 10 { student := 1, class_ := 10, date := some evening, status := "present" },
      AttOp.markBulk (fun _ => 11) 10 (some morning)
        [{ student := 1, status := "absent" }, { student := 2, status := "late" }]]
    (by unfold KeysUnique; decide) (by unfold IdsUnique; decide)).1


/-! ## Routing, createStudent, orphaned records and the attendance page -/

/-- C25 (summary endpoint is reachable), evaluated on the code: the route
`/:classId/:date` is registered before `/reports/summary`, so a `GET
/reports/summary` is handled by the roster handler with `classId = "reports"` and
`date = "summary"`; no request at all is dispatched to the summary handler. -/
theorem summary_route_shadowed :
    dispatch attendanceRouter .get ["reports", "summary"] =
      some (.getForClassAndDate, [("classId", "reports"), ("date", "summary")]) ∧
    belowMount attendanceMount attendanceAPI_getSummary.2 = some ["reports", "summary"] ∧
    (∀ (m : Method) (path : List String) (params : List (String × String)),
      dispatch attendanceRouter m path ≠ some (.summarize, params)) := by
  refine ⟨by decide, by decide, ?_⟩
  intro m path params
  cases m with
  | get =>
    match path with
    | [] => simp [dispatch, attendanceRouter, matchPath]
    | [x] => simp [dispatch, attendanceRouter, matchPath]
    | [x, y] => simp [dispatch, attendanceRouter, matchPath]
    | x :: y :: z :: rest => simp [dispatch, attendanceRouter, matchPath]
  | post =>
    match path with
    | [] => simp [dispatch, attendanceRouter, matchPath]
    | [x] =>
      by_cases h : lowerCase "bulk" = lowerCase x <;>
        simp [dispatch, attendanceRouter, matchPath, h]
    | x :: y :: rest =>
      by_cases h : lowerCase "bulk" = lowerCase x <;>
        simp [dispatch, attendanceRouter, matchPath, h]
  | put => simp [dispatch, attendanceRouter]
  | delete => simp [dispatch, attendanceRouter]

/-- C26 (createStudent has no partial effect on not-found), evaluated on the code:
class 99 does not exist in `sampleStore`; `createStudent` with `classId` 99 answers
404 'Class not found', yet the student was saved before the class was looked up:
the store now holds a third student, whose `classes` is `[99]`. -/
theorem createStudent_persists_before_class_lookup :
    findClassById sampleStore 99 = none ∧
    (createStudent sampleStore { daveData with classId := some 99 }).2 =
      { code := 404, message := "Class not found" } ∧
    (createStudent sampleStore { daveData with classId := some 99 }).1 ≠ sampleStore ∧
    (createStudent sampleStore { daveData with classId := some 99 }).1.students.map
      (fun s => (s._id, s.studentId, s.classes)) =
      [(1, "S001", [10, 11]), (2, "S002", []), (3, "S009", [99])] := by
  refine ⟨?_, ?_, ?_, ?_⟩ <;> decide

/-- C27 (roster read survives orphaned records), evaluated on the code: in
`rosterStore` three students are on the roster of class 10 and `alice` has a record
at `morning`.  After `DELETE /api/students/1` the roster is `[2, 4]` and the record
remains; the roster read for that day then throws while reading `_id` of the
populated `record.student`, which is null, and answers 500 'Error fetching class
attendance' instead of two entries. -/
theorem roster_read_fails_on_orphaned_record :
    (deleteStudent rosterStore 1).2.success = true ∧
    (findClassById (deleteStudent rosterStore 1).1 10).map (fun c => c.students) =
      some [2, 4] ∧
    findStudentById (deleteStudent rosterStore 1).1 1 = none ∧
    (deleteStudent rosterStore 1).1.attendance.map
      (fun r => (r.student, r.class_, decide (dayStart ≤ r.date ∧ r.date < dayStart + dayMs))) =
      [(1, 10, true)] ∧
    getForClassAndDate (deleteStudent rosterStore 1).1 10 (some dayStart) =
      { code := 500, success := false, message := "Error fetching class attendance",
        error := some .typeError } := by
  refine ⟨?_, ?_, ?_, ?_, ?_⟩ <;> decide

/-- C28 (pre-population of the bulk list): with a roster loaded and a class and a
date selected, `handleSaveAttendance` posts a list with exactly one entry per roster
student, in roster order; the entry of a student carries that student's `_id`, and
its status is the student's current status when that is set and 'absent' when the
attendance is null or has no status. -/
theorem handleSaveAttendance_list (students : List UiStudent) (classId : ObjectId)
    (date : Int) :
    ∃ req, handleSaveAttendance (some students) (some classId) (some date) = some req ∧
      req.classId = classId ∧ req.date = date ∧
      req.attendanceList.length = students.length ∧
      req.attendanceList.map (fun e => e.student) = students.map (fun s => s._id) ∧
      (∀ (i : Nat) (s : UiStudent), students[i]? = some s →
        ∃ e, req.attendanceList[i]? = some e ∧ e.student = s._id ∧
          (∀ status, s.attendance = some { status := some status } → status ≠ "" →
            e.status = status) ∧
          (s.attendance = none → e.status = "absent") ∧
          (s.attendance = some { status := none } → e.status = "absent")) := by
  refine ⟨{ classId := classId, date := date,
            attendanceList := students.map (fun student =>
              { student := student._id, status := statusOrAbsent student }) },
    rfl, rfl, rfl, by simp, by simp [List.map_map, Function.comp], ?_⟩
  intro i s hi
  refine ⟨{ student := s._id, status := statusOrAbsent s }, ?_, rfl, ?_, ?_, ?_⟩
  · simp [List.getElem?_map, hi]
  · intro status h hne
    simp [statusOrAbsent, h, hne]
  · intro h
    simp [statusOrAbsent, h]
  · intro h
    simp [statusOrAbsent, h]

/-- Witness of C28: a roster of three students, the first marked late, the second
unmarked, the third with an attendance object without status. -/
theorem handleSaveAttendance_list_witness :
    ∃ e, (handleSaveAttendance
        (some [{ _id := 1, attendance := some { status := some "late" } },
               { _id := 2, attendance := none },
               { _id := 4, attendance := some { status := none } }])
        (some 10) (some dayStart)).map (fun req => req.attendanceList[1]?) = some (some e) ∧
      e.student = 2 ∧ e.status = "absent" := by
  obtain ⟨req, h1, -, -, -, -, h6⟩ := handleSaveAttendance_list
    [{ _id := 1, attendance := some { status := some "late" } },
     { _id := 2, attendance := none },
     { _id := 4, attendance := some { status := none } }] 10 dayStart
  obtain ⟨e, he1, he2, -, he4, -⟩ := h6 1 { _id := 2, attendance := none } rfl
  exact ⟨e, by rw [h1]; simp [he1], he2, he4 rfl⟩

/-- C29 (client and server agree on the bulk route), evaluated on the code:
`attendanceAPI.markBulk` posts to `/attendance/mark-bulk`, that is `/mark-bulk`
below the router, while the bulk handler is registered on `/bulk`; no route of the
router matches the request of the page, so it is not dispatched to the bulk
handler. -/
theorem markBulk_route_mismatch :
    attendanceAPI_markBulk = (Method.post, ["attendance", "mark-bulk"]) ∧
    belowMount attendanceMount attendanceAPI_markBulk.2 = some ["mark-bulk"] ∧
    dispatch attendanceRouter attendanceAPI_markBulk.1 ["mark-bulk"] = none ∧
    dispatch attendanceRouter .post ["bulk"] = some (.markBulk, []) := by
  refine ⟨?_, ?_, ?_, ?_⟩ <;> decide

/-! ## Percentages: the binary64 model of `calculatePercentage` -/

theorem floor_le_roundHalfEven (q : ℚ) : ⌊q⌋ ≤ roundHalfEven q := by
  unfold roundHalfEven; split_ifs <;> omega

theorem roundHalfEven_le_floor_succ (q : ℚ) : roundHalfEven q ≤ ⌊q⌋ + 1 := by
  unfold roundHalfEven; split_ifs <;> omega

theorem roundHalfEven_intCast (n : ℤ) : roundHalfEven (n : ℚ) = n := by
  unfold roundHalfEven
  simp

theorem abs_roundHalfEven_sub_le (q : ℚ) : |(roundHalfEven q : ℚ) - q| ≤ 1 / 2 := by
  have h1 := Int.floor_le q
  have h2 := Int.lt_floor_add_one q
  unfold roundHalfEven
  rw [abs_le]
  split_ifs with ha hb hc
  · constructor <;> linarith
  · push_cast; constructor <;> linarith
  · have : q - ⌊q⌋ = 1 / 2 := le_antisymm (not_lt.mp hb) (not_lt.mp ha)
    constructor <;> linarith
  · have : q - ⌊q⌋ = 1 / 2 := le_antisymm (not_lt.mp hb) (not_lt.mp ha)
    push_cast; constructor <;> linarith

theorem roundHalfEven_mono {p q : ℚ} (h : p ≤ q) : roundHalfEven p ≤ roundHalfEven q := by
  have hf : ⌊p⌋ ≤ ⌊q⌋ := Int.floor_mono h
  rcases hf.lt_or_eq with hlt | heq
  · calc roundHalfEven p ≤ ⌊p⌋ + 1 := roundHalfEven_le_floor_succ p
      _ ≤ ⌊q⌋ := hlt
      _ ≤ roundHalfEven q := floor_le_roundHalfEven q
  · unfold roundHalfEven
    rw [heq]
    have hpq : p - ⌊q⌋ ≤ q - ⌊q⌋ := by linarith
    split_ifs <;> first | omega | (exfalso; linarith)


theorem mathRound_mono {p q : ℚ} (h : p ≤ q) : mathRound p ≤ mathRound q := by
  unfold mathRound
  exact Int.floor_mono (by linarith)

theorem binary64_zero : binary64 0 = 0 := by
  simp [binary64, roundHalfEven]

theorem two_zpow_log_le {q : ℚ} (hq : 0 < q) : (2 : ℚ) ^ Int.log 2 q ≤ q := by
  have := Int.zpow_log_le_self (b := 2) (r := q) one_lt_two hq
  simpa using this

theorem lt_two_zpow_log_succ (q : ℚ) : q < (2 : ℚ) ^ (Int.log 2 q + 1) := by
  have := Int.lt_zpow_succ_log_self (b := 2) one_lt_two q
  simpa using this

theorem log_le_of_le_two_zpow {q : ℚ} (hq : 0 < q) {n : ℤ} (h : q ≤ (2 : ℚ) ^ n) :
    Int.log 2 q ≤ n := by
  have h1 := Int.log_mono_right (b := 2) hq h
  have h2 := Int.log_zpow (R := ℚ) (b := 2) one_lt_two n
  simp only [Nat.cast_ofNat] at h2
  rw [h2] at h1
  exact h1

theorem scaled_bounds {q : ℚ} (hq : 0 < q) :
    ((2 ^ 52 : ℤ) : ℚ) ≤ q / 2 ^ (Int.log 2 q - 52) ∧
    q / 2 ^ (Int.log 2 q - 52) ≤ ((2 ^ 53 : ℤ) : ℚ) := by
  have hpos : (0 : ℚ) < 2 ^ (Int.log 2 q - 52) := zpow_pos (by norm_num) _
  have h1 := two_zpow_log_le hq
  have h2 := (lt_two_zpow_log_succ q).le
  have e1 : (2 : ℚ) ^ Int.log 2 q = 2 ^ (52 : ℤ) * 2 ^ (Int.log 2 q - 52) := by
    rw [← zpow_add₀ (by norm_num : (2 : ℚ) ≠ 0)]
    congr 1; ring
  have e2 : (2 : ℚ) ^ (Int.log 2 q + 1) = 2 ^ (53 : ℤ) * 2 ^ (Int.log 2 q - 52) := by
    rw [← zpow_add₀ (by norm_num : (2 : ℚ) ≠ 0)]
    congr 1; ring
  constructor
  · rw [le_div_iff₀ hpos]
    calc ((2 ^ 52 : ℤ) : ℚ) * 2 ^ (Int.log 2 q - 52)
        = 2 ^ (52 : ℤ) * 2 ^ (Int.log 2 q - 52) := by norm_num
      _ = 2 ^ Int.log 2 q := e1.symm
      _ ≤ q := h1
  · rw [div_le_iff₀ hpos]
    calc q ≤ 2 ^ (Int.log 2 q + 1) := h2
      _ = 2 ^ (53 : ℤ) * 2 ^ (Int.log 2 q - 52) := e2
      _ = ((2 ^ 53 : ℤ) : ℚ) * 2 ^ (Int.log 2 q - 52) := by norm_num

theorem binary64_bounds {q : ℚ} (hq : 0 < q) :
    (2 : ℚ) ^ Int.log 2 q ≤ binary64 q ∧ binary64 q ≤ (2 : ℚ) ^ (Int.log 2 q + 1) := by
  have hpos : (0 : ℚ) < 2 ^ (Int.log 2 q - 52) := zpow_pos (by norm_num) _
  obtain ⟨h1, h2⟩ := scaled_bounds hq
  have r1 := roundHalfEven_mono h1
  have r2 := roundHalfEven_mono h2
  rw [roundHalfEven_intCast] at r1 r2
  have c1 : ((2 ^ 52 : ℤ) : ℚ) ≤ (roundHalfEven (q / 2 ^ (Int.log 2 q - 52)) : ℚ) := by
    exact_mod_cast r1
  have c2 : (roundHalfEven (q / 2 ^ (Int.log 2 q - 52)) : ℚ) ≤ ((2 ^ 53 : ℤ) : ℚ) := by
    exact_mod_cast r2
  have e1 : (2 : ℚ) ^ Int.log 2 q = 2 ^ (52 : ℤ) * 2 ^ (Int.log 2 q - 52) := by
    rw [← zpow_add₀ (by norm_num : (2 : ℚ) ≠ 0)]
    congr 1; ring
  have e2 : (2 : ℚ) ^ (Int.log 2 q + 1) = 2 ^ (53 : ℤ) * 2 ^ (Int.log 2 q - 52) := by
    rw [← zpow_add₀ (by norm_num : (2 : ℚ) ≠ 0)]
    congr 1; ring
  unfold binary64
  rw [abs_of_pos hq]
  constructor
  · rw [e1]
    have : (2 : ℚ) ^ (52 : ℤ) = ((2 ^ 52 : ℤ) : ℚ) := by norm_num
    rw [this]
    exact mul_le_mul_of_nonneg_right c1 hpos.le
  · rw [e2]
    have : (2 : ℚ) ^ (53 : ℤ) = ((2 ^ 53 : ℤ) : ℚ) := by norm_num
    rw [this]
    exact mul_le_mul_of_nonneg_right c2 hpos.le

theorem binary64_pos {q : ℚ} (hq : 0 < q) : 0 < binary64 q :=
  lt_of_lt_of_le (zpow_pos (by norm_num) _) (binary64_bounds hq).1

theorem binary64_mono {p q : ℚ} (hp : 0 ≤ p) (h : p ≤ q) : binary64 p ≤ binary64 q := by
  rcases hp.lt_or_eq with hp0 | hp0
  · have hq0 : 0 < q := lt_of_lt_of_le hp0 h
    have hlog : Int.log 2 p ≤ Int.log 2 q := Int.log_mono_right hp0 h
    rcases hlog.lt_or_eq with hlt | heq
    · calc binary64 p ≤ (2 : ℚ) ^ (Int.log 2 p + 1) := (binary64_bounds hp0).2
        _ ≤ (2 : ℚ) ^ Int.log 2 q := zpow_le_zpow_right₀ (by norm_num) hlt
        _ ≤ binary64 q := (binary64_bounds hq0).1
    · have hpos : (0 : ℚ) < 2 ^ (Int.log 2 q - 52) := zpow_pos (by norm_num) _
      unfold binary64
      rw [abs_of_pos hp0, abs_of_pos hq0, heq]
      apply mul_le_mul_of_nonneg_right _ hpos.le
      have : roundHalfEven (p / 2 ^ (Int.log 2 q - 52)) ≤
          roundHalfEven (q / 2 ^ (Int.log 2 q - 52)) :=
        roundHalfEven_mono (div_le_div_of_nonneg_right h hpos.le)
      exact_mod_cast this
  · rw [← hp0, binary64_zero]
    rcases (hp0 ▸ h : (0 : ℚ) ≤ q).lt_or_eq with hq0 | hq0
    · exact (binary64_pos hq0).le
    · rw [← hq0, binary64_zero]

theorem abs_binary64_sub_le {q : ℚ} (hq : 0 < q) {n : ℤ} (h : q ≤ (2 : ℚ) ^ n) :
    |binary64 q - q| ≤ (2 : ℚ) ^ (n - 53) := by
  have hpos : (0 : ℚ) < 2 ^ (Int.log 2 q - 52) := zpow_pos (by norm_num) _
  have hlog := log_le_of_le_two_zpow hq h
  have herr := abs_roundHalfEven_sub_le (q / 2 ^ (Int.log 2 q - 52))
  have e : binary64 q - q =
      ((roundHalfEven (q / 2 ^ (Int.log 2 q - 52)) : ℚ) - q / 2 ^ (Int.log 2 q - 52)) *
        2 ^ (Int.log 2 q - 52) := by
    unfold binary64
    rw [abs_of_pos hq]
    field_simp
  rw [e, abs_mul, abs_of_pos hpos]
  calc |(roundHalfEven (q / 2 ^ (Int.log 2 q - 52)) : ℚ) - q / 2 ^ (Int.log 2 q - 52)| *
        2 ^ (Int.log 2 q - 52)
      ≤ 1 / 2 * 2 ^ (Int.log 2 q - 52) := mul_le_mul_of_nonneg_right herr hpos.le
    _ = 2 ^ (Int.log 2 q - 53) := by
        have : (2 : ℚ) ^ (Int.log 2 q - 52) = 2 ^ (Int.log 2 q - 53) * 2 ^ (1 : ℤ) := by
          rw [← zpow_add₀ (by norm_num : (2 : ℚ) ≠ 0)]
          congr 1; ring
        rw [this]; norm_num; ring
    _ ≤ 2 ^ (n - 53) := zpow_le_zpow_right₀ (by norm_num) (by omega)

theorem binary64_of_log {q : ℚ} (hq : 0 < q) (k : ℤ) (h1 : (2 : ℚ) ^ k ≤ q)
    (h2 : q < (2 : ℚ) ^ (k + 1)) :
    binary64 q = roundHalfEven (q / 2 ^ (k - 52)) * 2 ^ (k - 52) := by
  have hk : Int.log 2 q = k := by
    apply le_antisymm
    · have := (Int.lt_zpow_iff_log_lt (b := 2) one_lt_two hq (x := k + 1)).mp (by simpa using h2)
      omega
    · exact (Int.zpow_le_iff_le_log (b := 2) one_lt_two hq).mp (by simpa using h1)
  unfold binary64
  rw [abs_of_pos hq, hk]

theorem roundHalfEven_of_near (q : ℚ) (n : ℤ) (h : |q - n| < 1 / 2) : roundHalfEven q = n := by
  rw [abs_lt] at h
  have hf1 : ⌊q⌋ ≤ n := by
    have : ⌊q⌋ < n + 1 := by
      rw [Int.floor_lt]; push_cast; linarith
    omega
  have hf2 : n - 1 ≤ ⌊q⌋ := by
    rw [Int.le_floor]; push_cast; linarith
  have h1 := Int.floor_le q
  have h2 := Int.lt_floor_add_one q
  rcases (by omega : ⌊q⌋ = n ∨ ⌊q⌋ = n - 1) with hc | hc
  · unfold roundHalfEven
    rw [hc]
    have : q - n < 1 / 2 := h.2
    rw [if_pos this]
  · unfold roundHalfEven
    rw [hc]
    have ha : ¬ (q - ((n - 1 : ℤ) : ℚ) < 1 / 2) := by push_cast; linarith
    have hb : 1 / 2 < q - ((n - 1 : ℤ) : ℚ) := by push_cast; linarith
    simp only [ha, hb, if_false, if_true]
    omega


theorem binary64_one : binary64 1 = 1 := by
  rw [binary64_of_log (by norm_num) 0 (by norm_num) (by norm_num)]
  have : (1 : ℚ) / 2 ^ ((0 : ℤ) - 52) = ((2 ^ 52 : ℤ) : ℚ) := by norm_num
  rw [this, roundHalfEven_intCast]
  norm_num

theorem binary64_hundred : binary64 100 = 100 := by
  rw [binary64_of_log (by norm_num) 6 (by norm_num) (by norm_num)]
  have : (100 : ℚ) / 2 ^ ((6 : ℤ) - 52) = ((100 * 2 ^ 46 : ℤ) : ℚ) := by norm_num
  rw [this, roundHalfEven_intCast]
  norm_num

theorem calculatePercentage_23_40 : calculatePercentage 23 40 = 57 := by
  have h1 : binary64 ((23 : ℚ) / 40) = 5179139571476070 / 2 ^ 53 := by
    rw [binary64_of_log (by norm_num) (-1) (by norm_num) (by norm_num)]
    rw [roundHalfEven_of_near _ 5179139571476070 (by norm_num [abs_lt])]
    norm_num
  have h2 : binary64 (5179139571476070 / 2 ^ 53 * 100) = 8092405580431359 / 2 ^ 47 := by
    rw [binary64_of_log (by norm_num) 5 (by norm_num) (by norm_num)]
    rw [roundHalfEven_of_near _ 8092405580431359 (by norm_num [abs_lt])]
    norm_num
  unfold calculatePercentage
  rw [if_pos (by norm_num)]
  push_cast
  rw [h1, h2]
  unfold mathRound
  rw [Int.floor_eq_iff]
  constructor <;> norm_num

theorem exactPercentage_23_40 : exactPercentage 23 40 = 58 := by
  unfold exactPercentage
  rw [Int.floor_eq_iff]
  constructor <;> norm_num

theorem abs_binary64_sub_le_of_nonneg {q : ℚ} (hq : 0 ≤ q) {n : ℤ} (h : q ≤ (2 : ℚ) ^ n) :
    |binary64 q - q| ≤ (2 : ℚ) ^ (n - 53) := by
  rcases hq.lt_or_eq with h0 | h0
  · exact abs_binary64_sub_le h0 h
  · rw [← h0, binary64_zero]
    simp only [sub_zero, abs_zero]
    exact (zpow_pos (by norm_num) _).le

theorem quotient_bounds {value total : ℤ} (hv : 0 ≤ value) (hvt : value ≤ total)
    (ht : 0 < total) : (0 : ℚ) ≤ (value : ℚ) / total ∧ (value : ℚ) / total ≤ 1 := by
  have ht1 : (0 : ℚ) < total := by exact_mod_cast ht
  have hv1 : (0 : ℚ) ≤ value := by exact_mod_cast hv
  have hvt1 : (value : ℚ) ≤ total := by exact_mod_cast hvt
  exact ⟨div_nonneg hv1 ht1.le, (div_le_one ht1).mpr hvt1⟩

theorem product_bounds {q : ℚ} (h0 : 0 ≤ q) (h1 : q ≤ 1) :
    0 ≤ binary64 q * 100 ∧ binary64 q * 100 ≤ 100 := by
  have a := binary64_mono (le_refl 0) h0
  have b := binary64_mono h0 h1
  rw [binary64_zero] at a
  rw [binary64_one] at b
  constructor <;> linarith

theorem double_product_bounds {q : ℚ} (h0 : 0 ≤ q) (h1 : q ≤ 1) :
    0 ≤ binary64 (binary64 q * 100) ∧ binary64 (binary64 q * 100) ≤ 100 := by
  obtain ⟨p0, p1⟩ := product_bounds h0 h1
  have a := binary64_mono (le_refl 0) p0
  have b := binary64_mono p0 p1
  rw [binary64_zero] at a
  rw [binary64_hundred] at b
  exact ⟨a, b⟩

theorem double_product_error {q : ℚ} (h0 : 0 ≤ q) (h1 : q ≤ 1) :
    |binary64 (binary64 q * 100) - 100 * q| ≤ 228 / 2 ^ 53 := by
  obtain ⟨p0, p1⟩ := product_bounds h0 h1
  have e1 := abs_binary64_sub_le_of_nonneg (n := 0) h0 (by simpa using h1)
  have e2 := abs_binary64_sub_le_of_nonneg (n := 7) p0 (by norm_num; linarith)
  have e1v : (2 : ℚ) ^ ((0 : ℤ) - 53) = 1 / 2 ^ 53 := by norm_num
  have e2v : (2 : ℚ) ^ ((7 : ℤ) - 53) = 128 / 2 ^ 53 := by norm_num
  rw [e1v] at e1
  rw [e2v] at e2
  rw [abs_le] at e1 e2 ⊢
  constructor <;> linarith [e1.1, e1.2, e2.1, e2.2]

theorem calculatePercentage_of_pos {value total : ℤ} (ht : 0 < total) :
    calculatePercentage value total =
      mathRound (binary64 (binary64 ((value : ℚ) / (total : ℚ)) * 100)) := by
  unfold calculatePercentage
  rw [if_pos ht]

theorem calculatePercentage_near_exact {value total : ℤ} (hv : 0 ≤ value)
    (hvt : value ≤ total) (ht : 0 < total) (hsmall : total < 2 ^ 44) :
    exactPercentage value total - 1 ≤ calculatePercentage value total ∧
    calculatePercentage value total ≤ exactPercentage value total ∧
    (¬ (2 * total ∣ 200 * value + total) →
      calculatePercentage value total = exactPercentage value total) := by
  obtain ⟨q0, q1⟩ := quotient_bounds hv hvt ht
  have herr := double_product_error q0 q1
  rw [abs_le] at herr
  have ht1 : (0 : ℚ) < total := by exact_mod_cast ht
  have hD : (0 : ℤ) < 2 * total := by omega
  have hD1 : (0 : ℚ) < 2 * (total : ℚ) := by linarith
  have hdiv := Int.emod_add_ediv (200 * value + total) (2 * total)
  have hr0 := Int.emod_nonneg (200 * value + total) (ne_of_gt hD)
  have hr1 := Int.emod_lt_of_pos (200 * value + total) hD
  generalize (200 * value + total) % (2 * total) = r at hdiv hr0 hr1
  generalize hE : (200 * value + total) / (2 * total) = E at hdiv
  have hy : 100 * ((value : ℚ) / total) + 1 / 2 = E + (r : ℚ) / (2 * total) := by
    have hc : (r : ℚ) + 2 * total * E = 200 * value + total := by exact_mod_cast hdiv
    have ht0 : (total : ℚ) ≠ 0 := ne_of_gt ht1
    have e1 : 100 * ((value : ℚ) / total) + 1 / 2 = (200 * value + total) / (2 * total) := by
      field_simp; ring
    rw [e1, ← hc]
    field_simp
    ring
  have hrq0 : (0 : ℚ) ≤ r := by exact_mod_cast hr0
  have hrq1 : (r : ℚ) + 1 ≤ 2 * total := by exact_mod_cast (by omega : r + 1 ≤ 2 * total)
  have hfrac0 : (0 : ℚ) ≤ (r : ℚ) / (2 * total) := div_nonneg hrq0 hD1.le
  have hinvD : (228 : ℚ) / 2 ^ 53 < 1 / (2 * total) := by
    rw [div_lt_div_iff₀ (by norm_num) hD1]
    have : (total : ℚ) + 1 ≤ 2 ^ 44 := by exact_mod_cast (by omega : total + 1 ≤ 2 ^ 44)
    norm_num at this ⊢
    linarith
  have hfrac1 : (r : ℚ) / (2 * total) + 1 / (2 * total) ≤ 1 := by
    rw [← add_div, div_le_one hD1]
    exact hrq1
  have hexact : exactPercentage value total = E := by
    unfold exactPercentage
    rw [Int.floor_eq_iff]
    have h1 : 100 * (value : ℚ) / total + 1 / 2 = E + (r : ℚ) / (2 * total) := by
      rw [← hy]; ring
    rw [h1]
    have hpos : (0 : ℚ) < 1 / (2 * total) := by positivity
    constructor <;> linarith
  rw [hexact, calculatePercentage_of_pos ht]
  unfold mathRound
  refine ⟨?_, ?_, ?_⟩
  · rw [Int.le_floor]
    push_cast
    have : (228 : ℚ) / 2 ^ 53 < 1 := by norm_num
    linarith [herr.1]
  · have : ⌊binary64 (binary64 ((value : ℚ) / total) * 100) + 1 / 2⌋ < E + 1 := by
      rw [Int.floor_lt]
      push_cast
      linarith [herr.2]
    omega
  · intro hnd
    have hrpos : 1 ≤ r := by
      rcases hr0.lt_or_eq with h | h
      · omega
      · exfalso
        apply hnd
        rw [← h] at hdiv
        exact ⟨E, by linarith⟩
    have hrq : (1 : ℚ) ≤ r := by exact_mod_cast hrpos
    have hfrac : 1 / (2 * (total : ℚ)) ≤ (r : ℚ) / (2 * total) :=
      div_le_div_of_nonneg_right hrq hD1.le
    rw [Int.floor_eq_iff]
    constructor
    · linarith [herr.1]
    · linarith [herr.2]

theorem calculatePercentage_mono {value value2 total : ℤ} (hv : 0 ≤ value)
    (h : value ≤ value2) (ht : 0 < total) :
    calculatePercentage value total ≤ calculatePercentage value2 total := by
  have ht1 : (0 : ℚ) < total := by exact_mod_cast ht
  have hv1 : (0 : ℚ) ≤ value := by exact_mod_cast hv
  have h1 : (value : ℚ) ≤ value2 := by exact_mod_cast h
  have hq0 : (0 : ℚ) ≤ (value : ℚ) / total := div_nonneg hv1 ht1.le
  have hq : (value : ℚ) / total ≤ (value2 : ℚ) / total := div_le_div_of_nonneg_right h1 ht1.le
  have hb := binary64_mono hq0 hq
  have hb0 := binary64_mono (le_refl 0) hq0
  rw [binary64_zero] at hb0
  rw [calculatePercentage_of_pos ht, calculatePercentage_of_pos ht]
  apply mathRound_mono
  apply binary64_mono (by linarith)
  linarith

theorem calculatePercentage_range {value total : ℤ} (hv : 0 ≤ value) (hvt : value ≤ total)
    (ht : 0 < total) :
    0 ≤ calculatePercentage value total ∧ calculatePercentage value total ≤ 100 := by
  obtain ⟨q0, q1⟩ := quotient_bounds hv hvt ht
  obtain ⟨d0, d1⟩ := double_product_bounds q0 q1
  rw [calculatePercentage_of_pos ht]
  unfold mathRound
  constructor
  · rw [Int.le_floor]; push_cast; linarith
  · have : ⌊binary64 (binary64 ((value : ℚ) / total) * 100) + 1 / 2⌋ < 100 + 1 := by
      rw [Int.floor_lt]; push_cast; linarith
    omega

theorem calculatePercentage_self {total : ℤ} (ht : 0 < total) :
    calculatePercentage total total = 100 := by
  have ht1 : (total : ℚ) ≠ 0 := by exact_mod_cast (ne_of_gt ht)
  rw [calculatePercentage_of_pos ht, div_self ht1, binary64_one, one_mul, binary64_hundred]
  unfold mathRound
  rw [Int.floor_eq_iff]
  constructor <;> norm_num

theorem double_product_199_200 : binary64 (binary64 ((199 : ℚ) / 200) * 100) = 199 / 2 := by
  have h1 : binary64 ((199 : ℚ) / 200) = 8962163258467287 / 2 ^ 53 := by
    rw [binary64_of_log (by norm_num) (-1) (by norm_num) (by norm_num)]
    rw [roundHalfEven_of_near _ 8962163258467287 (by norm_num [abs_lt])]
    norm_num
  rw [h1, binary64_of_log (by norm_num) 6 (by norm_num) (by norm_num)]
  rw [roundHalfEven_of_near _ 7001690045677568 (by norm_num [abs_lt])]
  norm_num

theorem exactPercentage_le_hundred {value total : ℤ} (hvt : value ≤ total) (ht : 0 < total) :
    exactPercentage value total ≤ 100 := by
  have ht1 : (0 : ℚ) < total := by exact_mod_cast ht
  have hvt1 : (value : ℚ) ≤ total := by exact_mod_cast hvt
  have hq : 100 * (value : ℚ) / total ≤ 100 := by
    rw [div_le_iff₀ ht1]; linarith
  have : exactPercentage value total < 100 + 1 := by
    unfold exactPercentage
    rw [Int.floor_lt]; push_cast; linarith
  omega

theorem calculatePercentage_eq_hundred_iff {value total : ℤ} (hv : 0 ≤ value)
    (hvt : value ≤ total) (ht : 0 < total) (hsmall : total < 2 ^ 44) :
    calculatePercentage value total = 100 ↔ exactPercentage value total = 100 := by
  obtain ⟨h1, h2, h3⟩ := calculatePercentage_near_exact hv hvt ht hsmall
  have hle := exactPercentage_le_hundred hvt ht
  constructor
  · intro h; omega
  · intro hex
    by_cases hd : 2 * total ∣ 200 * value + total
    · obtain ⟨c, hc⟩ := hd
      have ht1 : (0 : ℚ) < total := by exact_mod_cast ht
      have ht0 : (total : ℚ) ≠ 0 := ne_of_gt ht1
      have hcq : (200 : ℚ) * value + total = 2 * total * c := by exact_mod_cast hc
      have hval : 100 * (value : ℚ) / total + 1 / 2 = (c : ℚ) := by
        field_simp
        linarith
      have hc100 : c = 100 := by
        unfold exactPercentage at hex
        rw [hval, Int.floor_intCast] at hex
        exact hex
      have hquot : (value : ℚ) / total = 199 / 200 := by
        rw [hc100] at hcq
        push_cast at hcq
        field_simp
        linarith
      rw [calculatePercentage_of_pos ht, hquot, double_product_199_200]
      unfold mathRound
      rw [Int.floor_eq_iff]
      constructor <;> norm_num
    · rw [h3 hd, hex]

/-- C30 fails as stated: `calculatePercentage` works on doubles.  For `value = 23` and
`total = 40` the quotient `23/40` rounds to a double just below `0.575`, the product
with 100 to one just below `57.5`, and `Math.round` gives 57, whereas the integer
nearest to the exact `100 * 23 / 40 = 57.5`, halves rounded up, is 58. -/
theorem calculatePercentage_rounding_counterexample :
    calculatePercentage 23 40 = 57 ∧ exactPercentage 23 40 = 58 ∧
    calculatePercentage 23 40 ≠ exactPercentage 23 40 := by
  refine ⟨calculatePercentage_23_40, exactPercentage_23_40, ?_⟩
  rw [calculatePercentage_23_40, exactPercentage_23_40]
  decide

/-- C30, as the code has it (percentage bounds): `calculatePercentage value total` is 0
when `total ≤ 0`, and for `total > 0` it is `Math.round` of the double product of the
double quotient.  For `0 ≤ value ≤ total` and `total > 0` it lies in `0..100`, it is
monotone non-decreasing in `value`, and it is 100 when `value = total`.  For totals
below `2^44` it is the integer nearest to `100 * value / total` whenever that value is
not halfway between two integers, and at a halfway value it is one of the two
neighbours (the nearest integer with halves rounded up, or the one below it); it
equals 100 exactly when rounding `100 * value / total` gives 100.  The Dashboard
attendance rate is the same function. -/
theorem calculatePercentage_bounds (value total : ℤ) :
    (total ≤ 0 → calculatePercentage value total = 0) ∧
    (0 < total → calculatePercentage value total =
      mathRound (binary64 (binary64 ((value : ℚ) / (total : ℚ)) * 100))) ∧
    (0 < total → calculatePercentage total total = 100) ∧
    (0 ≤ value → value ≤ total → 0 < total →
      0 ≤ calculatePercentage value total ∧ calculatePercentage value total ≤ 100 ∧
      (∀ value2 : ℤ, value ≤ value2 →
        calculatePercentage value total ≤ calculatePercentage value2 total) ∧
      (total < 2 ^ 44 →
        exactPercentage value total - 1 ≤ calculatePercentage value total ∧
        calculatePercentage value total ≤ exactPercentage value total ∧
        (¬ (2 * total ∣ 200 * value + total) →
          calculatePercentage value total = exactPercentage value total) ∧
        (calculatePercentage value total = 100 ↔ exactPercentage value total = 100))) ∧
    attendanceRate value total = calculatePercentage value total := by
  refine ⟨?_, ?_, ?_, ?_, rfl⟩
  · intro h
    unfold calculatePercentage
    rw [if_neg (by omega)]
  · exact fun h => calculatePercentage_of_pos h
  · exact fun h => calculatePercentage_self h
  · intro hv hvt ht
    obtain ⟨r0, r1⟩ := calculatePercentage_range hv hvt ht
    refine ⟨r0, r1, fun value2 h => calculatePercentage_mono hv h ht, ?_⟩
    intro hsmall
    obtain ⟨h1, h2, h3⟩ := calculatePercentage_near_exact hv hvt ht hsmall
    exact ⟨h1, h2, h3, calculatePercentage_eq_hundred_iff hv hvt ht hsmall⟩

/-- Witness of the amended C30 at `value = 23`, `total = 40`, a halfway value: the
result lies in `0..100` and is the nearest integer with halves rounded up or the one
below it. -/
theorem calculatePercentage_bounds_witness :
    0 ≤ calculatePercentage 23 40 ∧ calculatePercentage 23 40 ≤ 100 ∧
    exactPercentage 23 40 - 1 ≤ calculatePercentage 23 40 ∧
    calculatePercentage 23 40 ≤ exactPercentage 23 40 := by
  obtain ⟨r0, r1, -, h⟩ := (calculatePercentage_bounds 23 40).2.2.2.1 (by decide) (by decide)
    (by decide)
  obtain ⟨h1, h2, -⟩ := h (by norm_num)
  exact ⟨r0, r1, h1, h2⟩


end AttendanceSystem
